import Mathlib

/-!
# Detection pipeline: letterbox, decoding, IoU and class-aware non-maximum suppression

A shallow embedding of `onnx_inference_utils.cpp` (`onnx_iou`, `onnx_nms`) and of the
detection path of `onnx_inference.cpp` (`preprocess_image_to_buffer`,
`parse_yolov8_output`, `onnx_detect_batch`, `onnx_detect`, `onnx_free_batch_result`,
`onnx_free_result`, and the entry points of the build without the inference runtime),
together with the records of `onnx_inference.h`.

Modelling conventions.

* The C `float` fields are embedded as rationals (`ℚ`): arithmetic is exact, every value is
  finite and comparable (no NaN, no rounding).  `int` fields are `Int`.
* `int` arithmetic is exact (no wrap-around).
* Properties that depend on rounding or on 32-bit wrap-around are settled on a second
  embedding of the same functions, in the namespace `Binary32`: every `float` operation
  rounds to binary32 (to nearest, ties to even, as evaluated with `FLT_EVAL_METHOD` 0 and
  without fused multiply-add) and every `int` operation wraps to 32 bits.
* `float *keypoints` is an optional buffer (`none` is the null pointer).
* `std::vector<T>` is `List T`; `v[i]` is `List.getD`.
* `std::sort` is a library routine whose order of equal keys is unspecified.  `onnx_nms`
  therefore takes the sorting routine as a parameter; `IsSortByConfidence` is the
  postcondition of `std::sort` with the comparator of the source, and
  `sort_by_confidence` is one concrete, executable routine that meets it.
-/

namespace OnnxInference

/-- The `Detection` record of `onnx_inference.h`: class, score, centre/extent box and the
optional keypoint buffer. -/
structure Detection where
  class_id : Int
  confidence : ℚ
  x : ℚ
  y : ℚ
  width : ℚ
  height : ℚ
  keypoints : Option (List ℚ)
  num_keypoints : Int
  deriving DecidableEq, Inhabited

/-- The helper `make_det` of the unit tests: a detection without keypoints. -/
def make_det (class_id : Int) (conf x y w h : ℚ) : Detection :=
  { class_id := class_id, confidence := conf, x := x, y := y, width := w, height := h,
    keypoints := none, num_keypoints := 0 }

/-- The function `onnx_iou`: intersection over union of two centre/extent boxes. -/
def onnx_iou (a b : Detection) : ℚ :=
  let a_x1 := a.x - a.width / 2
  let a_y1 := a.y - a.height / 2
  let a_x2 := a.x + a.width / 2
  let a_y2 := a.y + a.height / 2
  let b_x1 := b.x - b.width / 2
  let b_y1 := b.y - b.height / 2
  let b_x2 := b.x + b.width / 2
  let b_y2 := b.y + b.height / 2
  let inter_x1 := max a_x1 b_x1
  let inter_y1 := max a_y1 b_y1
  let inter_x2 := min a_x2 b_x2
  let inter_y2 := min a_y2 b_y2
  let inter_w := max 0 (inter_x2 - inter_x1)
  let inter_h := max 0 (inter_y2 - inter_y1)
  let inter_area := inter_w * inter_h
  let a_area := a.width * a.height
  let b_area := b.width * b.height
  let union_area := a_area + b_area - inter_area
  if union_area > 0 then inter_area / union_area else 0

/-- The comparator handed to `std::sort` in `onnx_nms`: `a.confidence > b.confidence`. -/
def conf_gt (a b : Detection) : Prop := a.confidence > b.confidence

instance : DecidableRel conf_gt := fun a b => by unfold conf_gt; infer_instance

/-- Postcondition of `std::sort(first, last, comp)` with `comp = conf_gt`: the result is a
permutation of the input and no later element compares before an earlier one. -/
def IsSortByConfidence (sort : List Detection → List Detection) : Prop :=
  ∀ l : List Detection, (sort l).Perm l ∧ (sort l).Pairwise (fun a b => ¬ conf_gt b a)

/-- Insertion of one detection into a list ordered by descending confidence: the new
element goes in front of the first element that does not compare before it. -/
def insert_by_confidence (d : Detection) : List Detection → List Detection
  | [] => [d]
  | e :: rest => if conf_gt e d then e :: insert_by_confidence d rest else d :: e :: rest

/-- A concrete sorting routine by descending confidence (a stable insertion sort). -/
def sort_by_confidence (l : List Detection) : List Detection :=
  l.foldr insert_by_confidence []

/-- The inner loop of `onnx_nms`, `for (j = i + 1; j < size; j++)`: the first argument is
the number of iterations left, the second is `j`. -/
def nms_inner (detections : List Detection) (threshold : ℚ) (i : Nat) :
    Nat → Nat → List Bool → List Bool
  | 0, _, suppressed => suppressed
  | k + 1, j, suppressed =>
    let suppressed :=
      if !suppressed.getD j false &&
          decide ((detections.getD i default).class_id = (detections.getD j default).class_id) then
        if onnx_iou (detections.getD i default) (detections.getD j default) > threshold then
          suppressed.set j true
        else suppressed
      else suppressed
    nms_inner detections threshold i k (j + 1) suppressed

/-- The outer loop of `onnx_nms`, `for (i = 0; i < size; i++)`: the first argument is the
number of iterations left, the second is `i`. -/
def nms_outer (detections : List Detection) (threshold : ℚ) :
    Nat → Nat → List Bool → List Detection → List Detection
  | 0, _, _, result => result
  | k + 1, i, suppressed, result =>
    if suppressed.getD i false then
      nms_outer detections threshold k (i + 1) suppressed result
    else
      nms_outer detections threshold k (i + 1)
        (nms_inner detections threshold i (detections.length - (i + 1)) (i + 1) suppressed)
        (result ++ [detections.getD i default])

/-- The function `onnx_nms`: sort by descending confidence, then greedy class-aware
suppression.  `sort` stands for the call of `std::sort`. -/
def onnx_nms (sort : List Detection → List Detection) (detections : List Detection)
    (threshold : ℚ) : List Detection :=
  let detections := sort detections
  nms_outer detections threshold detections.length 0
    (List.replicate detections.length false) []

/-- The suppression test of the inner loop: same class and IoU strictly above the
threshold. -/
def suppresses (threshold : ℚ) (d e : Detection) : Bool :=
  decide (d.class_id = e.class_id) && decide (onnx_iou d e > threshold)

/-- The detections of a list whose suppression flag is still clear. -/
def unflagged : List Detection → List Bool → List Detection
  | d :: ds, b :: bs => if b then unflagged ds bs else d :: unflagged ds bs
  | _, _ => []

/-- Greedy suppression on an already ordered list, as a recursion on the list: keep the
head, drop what the head suppresses, go on with the rest.  This is the closed form of
the two loops of `onnx_nms` (see `nms_outer_eq`). -/
def nms_keep (threshold : ℚ) : List Detection → List Detection
  | [] => []
  | d :: rest => d :: nms_keep threshold (rest.filter (fun e => !suppresses threshold d e))
termination_by l => l.length
decreasing_by
  simp only [List.length_cons]
  exact Nat.lt_succ_of_le (List.length_filter_le _ _)

instance : IsAntisymm Detection conf_gt :=
  ⟨fun _ _ h1 h2 => absurd h1 (not_lt_of_gt h2)⟩

/-! ## Test data of `onnx_inference_utils_test.cpp` -/

/-- The input of `test_nms_same_class`. -/
def dets_same_class : List Detection :=
  [make_det 1 (9/10) (1/2) (1/2) (4/10) (4/10), make_det 1 (8/10) (52/100) (52/100) (4/10) (4/10)]

/-- The input of `test_nms_sorting`. -/
def dets_sorting : List Detection :=
  [make_det 1 (2/10) (1/2) (1/2) (2/10) (2/10), make_det 1 (8/10) (1/2) (1/2) (2/10) (2/10),
   make_det 1 (5/10) (1/2) (1/2) (2/10) (2/10)]

/-- The input of `test_nms_diff_class`. -/
def dets_diff_class : List Detection :=
  [make_det 1 (9/10) (1/2) (1/2) (4/10) (4/10), make_det 2 (8/10) (1/2) (1/2) (4/10) (4/10)]

/-! ## Thread-local error state (`g_last_error`, `g_last_error_code`) -/

/-- The error code `ONNX_OK`. -/
def ONNX_OK : Int := 0

/-- The error code `ONNX_ERROR_INVALID_ARGUMENT`. -/
def ONNX_ERROR_INVALID_ARGUMENT : Int := 3

/-- The error code `ONNX_ERROR_ALLOCATION_FAILED`. -/
def ONNX_ERROR_ALLOCATION_FAILED : Int := 4

/-- The error code `ONNX_ERROR_RUNTIME_FAILURE`. -/
def ONNX_ERROR_RUNTIME_FAILURE : Int := 5

/-- The error code `ONNX_ERROR_RUNTIME_NOT_FOUND`. -/
def ONNX_ERROR_RUNTIME_NOT_FOUND : Int := 6

/-- The pair `g_last_error_code`, `g_last_error` of the calling thread. -/
structure ErrorState where
  code : Int
  message : String
  deriving DecidableEq, Inhabited

/-- The function `clear_last_error`: empty message, code `ONNX_OK`. -/
def clear_last_error : ErrorState := { code := ONNX_OK, message := "" }

/-- The function `set_last_error`; the formatted text is passed already formatted. -/
def set_last_error (code : Int) (message : String) : ErrorState :=
  { code := code, message := message }

/-! ## Intersection and union area of `onnx_iou` -/

/-- The local `inter_area` of `onnx_iou`. -/
def iou_inter_area (a b : Detection) : ℚ :=
  max 0 (min (a.x + a.width / 2) (b.x + b.width / 2) -
      max (a.x - a.width / 2) (b.x - b.width / 2)) *
    max 0 (min (a.y + a.height / 2) (b.y + b.height / 2) -
      max (a.y - a.height / 2) (b.y - b.height / 2))

/-- The local `union_area` of `onnx_iou`. -/
def iou_union_area (a b : Detection) : ℚ :=
  a.width * a.height + b.width * b.height - iou_inter_area a b

/-! ## Letterbox preprocessing (`preprocess_image_to_buffer`)

Pointers to arrays without a length (`const uint8_t *image_data`, `float *buffer`) are
views of memory: total functions of the index; a null pointer is `none`.  The four
out-pointers `scale_x`, `scale_y`, `pad_left`, `pad_top` are non-null at the only call
site; the cells they point to are returned as a `Transform`.  The result also records the
indices of `image_data` that were read and the indices of `buffer` written by the
interpolation loops, in program order. -/

/-- The C conversion `(int)f` of a float: truncation toward zero. -/
def float_to_int (q : ℚ) : Int := if 0 ≤ q then ⌊q⌋ else ⌈q⌉

/-- The letterbox parameters written through `scale_x`, `scale_y`, `pad_left`,
`pad_top`. -/
structure Transform where
  scale_x : ℚ
  scale_y : ℚ
  pad_left : Int
  pad_top : Int
  deriving DecidableEq, Inhabited

/-- The local `ratio` of `preprocess_image_to_buffer`. -/
def letterbox_ratio (image_width image_height target_width target_height : Int) : ℚ :=
  min ((target_width : ℚ) / (image_width : ℚ)) ((target_height : ℚ) / (image_height : ℚ))

/-- The local `new_width` of `preprocess_image_to_buffer`. -/
def letterbox_new_width (image_width image_height target_width target_height : Int) : Int :=
  float_to_int ((image_width : ℚ) *
    letterbox_ratio image_width image_height target_width target_height)

/-- The local `new_height` of `preprocess_image_to_buffer`. -/
def letterbox_new_height (image_width image_height target_width target_height : Int) : Int :=
  float_to_int ((image_height : ℚ) *
    letterbox_ratio image_width image_height target_width target_height)

/-- The source coordinate of a destination row or column `pos`: the integer source
position and the interpolation fraction, clamped at the last row or column (`size` is
`image_height` or `image_width`).  The source has this code once for `y` and once for
`x`. -/
def source_coord (pos : Int) (ratio : ℚ) (size : Int) : Int × ℚ :=
  let src_f := (pos : ℚ) / ratio
  let src := float_to_int src_f
  let lerp := src_f - (src : ℚ)
  if src ≥ size - 1 then (size - 2, 1) else (src, lerp)

/-- The destination buffer together with the log of reads and writes. -/
structure PixelState where
  buffer : Int → ℚ
  reads : List Int
  writes : List Int

/-- The body of the channel loop `for (c = 0; c < 3; c++)` for one channel. -/
def write_channel (image_data : Int → Nat) (image_width src_x src_y : Int) (x_lerp y_lerp : ℚ)
    (c_stride dst_idx c : Int) (st : PixelState) : PixelState :=
  let idx00 := (src_y * image_width + src_x) * 4 + c
  let idx01 := (src_y * image_width + src_x + 1) * 4 + c
  let idx10 := ((src_y + 1) * image_width + src_x) * 4 + c
  let idx11 := ((src_y + 1) * image_width + src_x + 1) * 4 + c
  let v00 := (image_data idx00 : ℚ) / 255
  let v01 := (image_data idx01 : ℚ) / 255
  let v10 := (image_data idx10 : ℚ) / 255
  let v11 := (image_data idx11 : ℚ) / 255
  let v0 := v00 * (1 - x_lerp) + v01 * x_lerp
  let v1 := v10 * (1 - x_lerp) + v11 * x_lerp
  let v := v0 * (1 - y_lerp) + v1 * y_lerp
  { buffer := fun k => if k = c * c_stride + dst_idx then v else st.buffer k,
    reads := st.reads ++ [idx00, idx01, idx10, idx11],
    writes := st.writes ++ [c * c_stride + dst_idx] }

/-- The channel loop: the first argument is the number of iterations left, the second
is `c`. -/
def channel_loop (image_data : Int → Nat) (image_width src_x src_y : Int) (x_lerp y_lerp : ℚ)
    (c_stride dst_idx : Int) : Nat → Int → PixelState → PixelState
  | 0, _, st => st
  | n + 1, c, st =>
    channel_loop image_data image_width src_x src_y x_lerp y_lerp c_stride dst_idx n (c + 1)
      (write_channel image_data image_width src_x src_y x_lerp y_lerp c_stride dst_idx c st)

/-- The loop `for (x = 0; x < new_width; x++)` for one row `y`: the first argument is the
number of iterations left, the second is `x`. -/
def column_loop (image_data : Int → Nat) (image_width target_width target_height : Int)
    (ratio : ℚ) (pad_left pad_top y src_y : Int) (y_lerp : ℚ) :
    Nat → Int → PixelState → PixelState
  | 0, _, st => st
  | n + 1, x, st =>
    let sx := source_coord x ratio image_width
    let dst_x := x + pad_left
    let dst_y := y + pad_top
    let c_stride := target_width * target_height
    let dst_idx := dst_y * target_width + dst_x
    column_loop image_data image_width target_width target_height ratio pad_left pad_top y
      src_y y_lerp n (x + 1)
      (channel_loop image_data image_width sx.1 src_y sx.2 y_lerp c_stride dst_idx 3 0 st)

/-- The loop `for (y = 0; y < new_height; y++)`: the first argument is the number of
iterations left, the second is `y`. -/
def row_loop (image_data : Int → Nat) (image_width image_height target_width target_height : Int)
    (ratio : ℚ) (new_width pad_left pad_top : Int) : Nat → Int → PixelState → PixelState
  | 0, _, st => st
  | n + 1, y, st =>
    let sy := source_coord y ratio image_height
    row_loop image_data image_width image_height target_width target_height ratio new_width
      pad_left pad_top n (y + 1)
      (column_loop image_data image_width target_width target_height ratio pad_left pad_top y
        sy.1 sy.2 new_width.toNat 0 st)

/-- The padding loop `for (i = 0; i < 3 * total_pixels; i++) buffer[i] = pad_value`: the
first argument is the number of iterations left, the second is `i`. -/
def fill_loop (pad_value : ℚ) : Nat → Int → (Int → ℚ) → (Int → ℚ)
  | 0, _, buffer => buffer
  | n + 1, i, buffer => fill_loop pad_value n (i + 1) (fun k => if k = i then pad_value else buffer k)

/-- What `preprocess_image_to_buffer` leaves behind: the destination buffer, the
transform, and the log of reads of `image_data` and of interpolation writes. -/
structure PreprocessResult where
  buffer : Option (Int → ℚ)
  transform : Transform
  reads : List Int
  writes : List Int

/-- The function `preprocess_image_to_buffer`. -/
def preprocess_image_to_buffer (image_data : Option (Int → Nat))
    (image_width image_height target_width target_height : Int)
    (buffer : Option (Int → ℚ)) : PreprocessResult :=
  match image_data, buffer with
  | some image, some buf =>
    if target_width ≤ 0 ∨ target_height ≤ 0 ∨ image_width ≤ 1 ∨ image_height ≤ 1 then
      { buffer := buffer, transform := ⟨0, 0, 0, 0⟩, reads := [], writes := [] }
    else
      let ratio := letterbox_ratio image_width image_height target_width target_height
      let new_width := letterbox_new_width image_width image_height target_width target_height
      let new_height := letterbox_new_height image_width image_height target_width target_height
      let pad_left := Int.tdiv (target_width - new_width) 2
      let pad_top := Int.tdiv (target_height - new_height) 2
      let pad_value : ℚ := 114 / 255
      let total_pixels := target_width * target_height
      let filled := fill_loop pad_value (3 * total_pixels).toNat 0 buf
      let st := row_loop image image_width image_height target_width target_height ratio
        new_width pad_left pad_top new_height.toNat 0
        { buffer := filled, reads := [], writes := [] }
      { buffer := some st.buffer, transform := ⟨ratio, ratio, pad_left, pad_top⟩,
        reads := st.reads, writes := st.writes }
  | _, _ => { buffer := buffer, transform := ⟨0, 0, 0, 0⟩, reads := [], writes := [] }

/-! ## Decoding the model output (`parse_yolov8_output`)

`float *output_data` is a view of memory starting at the slice of one image: a total
function of the index.  Each `malloc` of a keypoint buffer succeeds or fails as the
environment decides: `alloc_keypoints i` tells whether the allocation for box `i`
succeeds.  A fresh buffer is modelled as filled with zeros. -/

/-- The model kind `MODEL_TYPE_YOLO`. -/
def MODEL_TYPE_YOLO : Int := 0

/-- The model kind `MODEL_TYPE_YOLO_POSE`. -/
def MODEL_TYPE_YOLO_POSE : Int := 1

/-- The local `num_classes` of `parse_yolov8_output`, after the clamp to 1. -/
def parse_num_classes (num_features model_type num_keypoints : Int) : Int :=
  let num_classes :=
    if model_type = MODEL_TYPE_YOLO_POSE ∧ num_keypoints > 0 then
      num_features - 4 - num_keypoints * 3
    else num_features - 4
  if num_classes < 1 then 1 else num_classes

/-- The class scan `for (c = 0; c < num_classes; c++)` of box `i`: the first argument is
the number of iterations left, the second is `c`, the third is
`(best_class, best_score)`. -/
def best_class_loop (output_data : Int → ℚ) (num_boxes i : Int) :
    Nat → Int → Int × ℚ → Int × ℚ
  | 0, _, best => best
  | n + 1, c, best =>
    let score := output_data ((4 + c) * num_boxes + i)
    best_class_loop output_data num_boxes i n (c + 1)
      (if score > best.2 then (c, score) else best)

/-- The keypoint loop `for (k = 0; k < num_keypoints && det.keypoints; k++)` of box `i`:
the first argument is the number of iterations left, the second is `k`, the third is the
keypoint buffer. -/
def keypoint_loop (output_data : Int → ℚ) (num_boxes i kpt_start : Int) (scale_x scale_y : ℚ)
    (pad_left pad_top image_width image_height : Int) : Nat → Int → List ℚ → List ℚ
  | 0, _, keypoints => keypoints
  | n + 1, k, keypoints =>
    let kp_x := output_data ((kpt_start + k * 3 + 0) * num_boxes + i)
    let kp_y := output_data ((kpt_start + k * 3 + 1) * num_boxes + i)
    let kp_v := output_data ((kpt_start + k * 3 + 2) * num_boxes + i)
    keypoint_loop output_data num_boxes i kpt_start scale_x scale_y pad_left pad_top
      image_width image_height n (k + 1)
      (((keypoints.set (k * 3 + 0).toNat ((kp_x - (pad_left : ℚ)) / scale_x / (image_width : ℚ))).set
        (k * 3 + 1).toNat ((kp_y - (pad_top : ℚ)) / scale_y / (image_height : ℚ))).set
        (k * 3 + 2).toNat kp_v)

/-- The body of the box loop of `parse_yolov8_output` for box `i`: `none` is the
`continue` of a box below the confidence threshold.  `alloc_ok` tells whether the
`malloc` of the keypoint buffer succeeds. -/
def parse_box (output_data : Int → ℚ) (num_boxes num_classes model_type num_keypoints : Int)
    (conf_threshold scale_x scale_y : ℚ) (pad_left pad_top image_width image_height : Int)
    (alloc_ok : Bool) (i : Int) (err : ErrorState) : Option Detection × ErrorState :=
  let cx := output_data (0 * num_boxes + i)
  let cy := output_data (1 * num_boxes + i)
  let w := output_data (2 * num_boxes + i)
  let h := output_data (3 * num_boxes + i)
  let best := best_class_loop output_data num_boxes i num_classes.toNat 0 (0, 0)
  let best_class := best.1
  let best_score := best.2
  if best_score < conf_threshold then (none, err)
  else
    let x_norm := (cx - (pad_left : ℚ)) / scale_x / (image_width : ℚ)
    let y_norm := (cy - (pad_top : ℚ)) / scale_y / (image_height : ℚ)
    let w_norm := w / scale_x / (image_width : ℚ)
    let h_norm := h / scale_y / (image_height : ℚ)
    let det : Detection :=
      { class_id := best_class, confidence := best_score, x := x_norm, y := y_norm,
        width := w_norm, height := h_norm, keypoints := none, num_keypoints := 0 }
    if model_type = MODEL_TYPE_YOLO_POSE ∧ num_keypoints > 0 then
      if alloc_ok then
        let kpt_start := 4 + num_classes
        let keypoints := keypoint_loop output_data num_boxes i kpt_start scale_x scale_y
          pad_left pad_top image_width image_height num_keypoints.toNat 0
          (List.replicate (num_keypoints * 3).toNat 0)
        (some { det with keypoints := some keypoints, num_keypoints := num_keypoints }, err)
      else
        (some { det with keypoints := none, num_keypoints := 0 },
          set_last_error ONNX_ERROR_ALLOCATION_FAILED "分配关键点内存失败")
    else (some det, err)

/-- The box loop `for (i = 0; i < num_boxes; i++)`: the first argument is the number of
iterations left, the second is `i`, the third is the vector `detections` and the error
state. -/
def parse_loop (output_data : Int → ℚ) (num_boxes num_classes model_type num_keypoints : Int)
    (conf_threshold scale_x scale_y : ℚ) (pad_left pad_top image_width image_height : Int)
    (alloc_keypoints : Int → Bool) :
    Nat → Int → List Detection × ErrorState → List Detection × ErrorState
  | 0, _, acc => acc
  | n + 1, i, acc =>
    let r := parse_box output_data num_boxes num_classes model_type num_keypoints
      conf_threshold scale_x scale_y pad_left pad_top image_width image_height
      (alloc_keypoints i) i acc.2
    parse_loop output_data num_boxes num_classes model_type num_keypoints conf_threshold
      scale_x scale_y pad_left pad_top image_width image_height alloc_keypoints n (i + 1)
      (match r.1 with
        | some det => (acc.1 ++ [det], r.2)
        | none => (acc.1, r.2))

/-- The function `parse_yolov8_output`; the result is the vector of detections and the
error state it leaves. -/
def parse_yolov8_output (output_data : Int → ℚ) (num_features num_boxes model_type
    num_keypoints : Int) (conf_threshold scale_x scale_y : ℚ)
    (pad_left pad_top image_width image_height : Int) (alloc_keypoints : Int → Bool)
    (err : ErrorState) : List Detection × ErrorState :=
  parse_loop output_data num_boxes (parse_num_classes num_features model_type num_keypoints)
    model_type num_keypoints conf_threshold scale_x scale_y pad_left pad_top image_width
    image_height alloc_keypoints num_boxes.toNat 0 ([], err)

/-! ## Batch and single-image detection (`onnx_detect_batch`, `onnx_detect`)

The build with the inference runtime (`ONNX_RUNTIME_NOT_FOUND` undefined), after a
successful `onnx_init` (`g_ort` is set).

* A `ModelHandle` is an optional `OnnxModel`; of the model only the input size is used.
* The C arrays `image_data_list`, `image_widths`, `image_heights` carry no length: each is
  a total function of the index, or `none` for a null pointer.
* Every `malloc` succeeds or fails as the environment decides; `Allocator` holds the
  outcome of each allocation site.  A fresh buffer is modelled as filled with zeros.
* The inference runtime is a fixed function `OrtApi`: for a model, an input tensor and
  its shape it gives the status of every runtime call made by `onnx_detect_batch` (`none`
  is success, `some msg` is a failure with its message) and the output tensor.
* The four vectors `scales_x`, `scales_y`, `pads_left`, `pads_top` are one vector of
  `Transform`.
* `run_calls` counts the calls of `g_ort->Run`. -/

/-- The fields of `OnnxModel` that detection reads. -/
structure OnnxModel where
  input_width : Int
  input_height : Int
  deriving DecidableEq, Inhabited

/-- The record `DetectionResult` of `onnx_inference.h`; `detections = none` is the null
pointer. -/
structure DetectionResult where
  detections : Option (List Detection)
  count : Int
  capacity : Int
  deriving DecidableEq, Inhabited

/-- The record `BatchDetectionResult` of `onnx_inference.h`; `results = none` is the null
pointer. -/
structure BatchDetectionResult where
  results : Option (List DetectionResult)
  num_images : Int
  deriving DecidableEq, Inhabited

/-- The outcome of every `malloc` of the detection entry points: `true` is success. -/
structure Allocator where
  input_buffer : Bool
  batch_result : Bool
  results_array : Bool
  detections : Int → Bool
  keypoints : Int → Int → Bool
  single_result : Bool

/-- The answers of the inference runtime to the calls of one `onnx_detect_batch`. -/
structure OrtCalls where
  create_tensor : Option String
  run : Option String
  tensor_data : Option String
  tensor_shape : Option String
  dimensions_count : Option String
  dimensions : Option String
  output_data : Int → ℚ
  output_dims : List Int

/-- The inference runtime: model, input tensor and input shape give the answers. -/
abbrev OrtApi := OnnxModel → (Int → ℚ) → List Int → OrtCalls

/-- The function `handle_status`: `true` and the error state untouched on success,
`false` and `ONNX_ERROR_RUNTIME_FAILURE` with the message `context: msg` on failure. -/
def handle_status (status : Option String) (context : String) (err : ErrorState) :
    Bool × ErrorState :=
  match status with
  | none => (true, err)
  | some msg => (false, set_last_error ONNX_ERROR_RUNTIME_FAILURE (context ++ ": " ++ msg))

/-- The function `validate_image_dimensions`. -/
def validate_image_dimensions (width height : Int) (context : String) (err : ErrorState) :
    Bool × ErrorState :=
  if width ≤ 1 ∨ height ≤ 1 then
    (false, set_last_error ONNX_ERROR_INVALID_ARGUMENT
      (context ++ ": invalid image size (" ++ toString width ++ " x " ++ toString height ++ ")"))
  else (true, err)

/-- The preprocessing loop of `onnx_detect_batch`, `for (i = 0; i < num_images; i++)`:
the first argument is the number of iterations left, the second is `i`, the third is the
batch input buffer and the vector of transforms.  An invalid image ends the call: the
result is then the error state that is left. -/
def batch_preprocess_loop (image_data_list : Int → Option (Int → Nat))
    (image_widths image_heights : Int → Int) (w h image_size : Int) (err : ErrorState) :
    Nat → Int → (Int → ℚ) × List Transform → Except ErrorState ((Int → ℚ) × List Transform)
  | 0, _, st => Except.ok st
  | n + 1, i, st =>
    match image_data_list i with
    | none =>
      Except.error (set_last_error ONNX_ERROR_INVALID_ARGUMENT
        ("image_data_list[" ++ toString i ++ "] 为空"))
    | some image =>
      let v := validate_image_dimensions (image_widths i) (image_heights i) "detect_batch" err
      if v.1 = false then Except.error v.2
      else
        let img_buffer : Int → ℚ := fun k => st.1 (i * image_size + k)
        let r := preprocess_image_to_buffer (some image) (image_widths i) (image_heights i)
          w h (some img_buffer)
        let input_data : Int → ℚ :=
          match r.buffer with
          | some b => fun k => b (k - i * image_size)
          | none => st.1
        batch_preprocess_loop image_data_list image_widths image_heights w h image_size err
          n (i + 1) (input_data, st.2.set i.toNat r.transform)

/-- The result loop of `onnx_detect_batch`, `for (i = 0; i < num_images; i++)`: decode the
slice of image `i`, apply NMS, store the result in slot `i`.  The first argument is the
number of iterations left, the second is `i`, the third is the array `results` and the
error state. -/
def batch_results_loop (alloc : Allocator) (sort : List Detection → List Detection)
    (output_data : Int → ℚ) (num_features num_boxes stride_per_image : Int)
    (image_widths image_heights : Int → Int) (transforms : List Transform)
    (conf_threshold nms_threshold : ℚ) (model_type num_keypoints : Int) :
    Nat → Int → List DetectionResult × ErrorState → List DetectionResult × ErrorState
  | 0, _, st => st
  | n + 1, i, st =>
    let current_output : Int → ℚ := fun k => output_data (i * stride_per_image + k)
    let t := transforms.getD i.toNat default
    let parsed := parse_yolov8_output current_output num_features num_boxes model_type
      num_keypoints conf_threshold t.scale_x t.scale_y t.pad_left t.pad_top
      (image_widths i) (image_heights i) (alloc.keypoints i) st.2
    let detections := onnx_nms sort parsed.1 nms_threshold
    let count : Int := detections.length
    let slot : DetectionResult × ErrorState :=
      if count > 0 then
        if alloc.detections i then
          ({ detections := some detections, count := count, capacity := count }, parsed.2)
        else
          ({ detections := none, count := 0, capacity := 0 },
            set_last_error ONNX_ERROR_ALLOCATION_FAILED "分配 Detection 失败")
      else ({ detections := none, count := count, capacity := count }, parsed.2)
    batch_results_loop alloc sort output_data num_features num_boxes stride_per_image
      image_widths image_heights transforms conf_threshold nms_threshold model_type
      num_keypoints n (i + 1) (st.1.set i.toNat slot.1, slot.2)

/-- What a call of `onnx_detect_batch` leaves: the returned pointer (`none` is null), the
error state, and the number of calls of `g_ort->Run`. -/
structure BatchOutcome where
  result : Option BatchDetectionResult
  error : ErrorState
  run_calls : Nat

/-- The function `onnx_detect_batch`. -/
def onnx_detect_batch (ort : OrtApi) (alloc : Allocator)
    (sort : List Detection → List Detection) (handle : Option OnnxModel)
    (image_data_list : Option (Int → Option (Int → Nat))) (num_images : Int)
    (image_widths image_heights : Option (Int → Int)) (conf_threshold nms_threshold : ℚ)
    (model_type num_keypoints : Int) : BatchOutcome :=
  let err := clear_last_error
  match handle, image_data_list with
  | some model, some images =>
    if num_images ≤ 0 then { result := none, error := err, run_calls := 0 }
    else
      match image_widths, image_heights with
      | some widths, some heights =>
        let w := model.input_width
        let h := model.input_height
        let image_size := 3 * w * h
        if alloc.input_buffer = false then
          { result := none,
            error := set_last_error ONNX_ERROR_ALLOCATION_FAILED "分配输入缓冲区失败",
            run_calls := 0 }
        else
          match batch_preprocess_loop images widths heights w h image_size err
              num_images.toNat 0
              (fun _ => 0, List.replicate num_images.toNat ⟨0, 0, 0, 0⟩) with
          | Except.error e => { result := none, error := e, run_calls := 0 }
          | Except.ok (input_data, transforms) =>
            let calls := ort model input_data [num_images, 3, h, w]
            let s1 := handle_status calls.create_tensor "CreateTensorWithDataAsOrtValue" err
            if s1.1 = false then { result := none, error := s1.2, run_calls := 0 }
            else
              let s2 := handle_status calls.run "Run" s1.2
              if s2.1 = false then { result := none, error := s2.2, run_calls := 1 }
              else
                let s3 := handle_status calls.tensor_data "GetTensorMutableData" s2.2
                if s3.1 = false then { result := none, error := s3.2, run_calls := 1 }
                else
                  let s4 := handle_status calls.tensor_shape "GetTensorTypeAndShape" s3.2
                  if s4.1 = false then { result := none, error := s4.2, run_calls := 1 }
                  else
                    let s5 := handle_status calls.dimensions_count "GetDimensionsCount" s4.2
                    if s5.1 = false then { result := none, error := s5.2, run_calls := 1 }
                    else
                      let s6 := handle_status calls.dimensions "GetDimensions" s5.2
                      if alloc.batch_result = false then
                        { result := none,
                          error := set_last_error ONNX_ERROR_ALLOCATION_FAILED
                            "分配 BatchDetectionResult 失败",
                          run_calls := 1 }
                      else if alloc.results_array = false then
                        { result := none,
                          error := set_last_error ONNX_ERROR_ALLOCATION_FAILED
                            "分配 DetectionResult 数组失败",
                          run_calls := 1 }
                      else
                        let results : List DetectionResult :=
                          List.replicate num_images.toNat
                            { detections := none, count := 0, capacity := 0 }
                        let output_dims := calls.output_dims
                        if output_dims.length ≥ 3 ∧ output_dims.getD 1 0 > 0 ∧
                            output_dims.getD 2 0 > 0 then
                          let num_features := output_dims.getD 1 0
                          let num_boxes := output_dims.getD 2 0
                          let stride_per_image := num_features * num_boxes
                          let r := batch_results_loop alloc sort calls.output_data
                            num_features num_boxes stride_per_image widths heights
                            transforms conf_threshold nms_threshold model_type
                            num_keypoints num_images.toNat 0 (results, s6.2)
                          { result := some { results := some r.1, num_images := num_images },
                            error := r.2, run_calls := 1 }
                        else
                          { result := some { results := some results, num_images := num_images },
                            error := s6.2, run_calls := 1 }
      | _, _ =>
        { result := none,
          error := set_last_error ONNX_ERROR_INVALID_ARGUMENT "尺寸数组为空",
          run_calls := 0 }
  | _, _ => { result := none, error := err, run_calls := 0 }

/-- What `onnx_detect` returns: the null pointer, a `DetectionResult`, or no defined
value at all, when the result of an unchecked failed `malloc` is written through. -/
inductive DetectReturn where
  | null : DetectReturn
  | result (r : DetectionResult) : DetectReturn
  | null_store : DetectReturn
  deriving DecidableEq

/-- What a call of `onnx_detect` leaves: the returned value and the error state. -/
structure DetectOutcome where
  ret : DetectReturn
  error : ErrorState

/-- The function `onnx_detect`: the one-element arrays `image_list`, `widths`, `heights`
are constant functions of the index (only index 0 is read by a batch of one).  The final
`onnx_free_batch_result` of the emptied envelope does not change the returned value and
is left out here: the move out of slot 0 is `extract_single` and the release is
`onnx_free_batch_result`, both below. -/
def onnx_detect (ort : OrtApi) (alloc : Allocator) (sort : List Detection → List Detection)
    (handle : Option OnnxModel) (image_data : Option (Int → Nat))
    (image_width image_height : Int) (conf_threshold nms_threshold : ℚ)
    (model_type num_keypoints : Int) : DetectOutcome :=
  let err := clear_last_error
  match image_data with
  | none =>
    { ret := DetectReturn.null,
      error := set_last_error ONNX_ERROR_INVALID_ARGUMENT "image_data 为空" }
  | some image =>
    let v := validate_image_dimensions image_width image_height "detect" err
    if v.1 = false then { ret := DetectReturn.null, error := v.2 }
    else
      let batch := onnx_detect_batch ort alloc sort handle (some (fun _ => some image)) 1
        (some (fun _ => image_width)) (some (fun _ => image_height)) conf_threshold
        nms_threshold model_type num_keypoints
      match batch.result with
      | none => { ret := DetectReturn.null, error := batch.error }
      | some batch_res =>
        if alloc.single_result = false then
          { ret := DetectReturn.null_store, error := batch.error }
        else
          match batch_res.results with
          | some results =>
            if batch_res.num_images > 0 then
              { ret := DetectReturn.result (results.getD 0 default), error := batch.error }
            else
              { ret := DetectReturn.result { detections := none, count := 0, capacity := 0 },
                error := batch.error }
          | none =>
            { ret := DetectReturn.result { detections := none, count := 0, capacity := 0 },
              error := batch.error }

/-! ## The read trace of `parse_yolov8_output`

The indices of `output_data` that `parse_yolov8_output` reads, in program order: the same
loops and the same branches as the decoder, keeping the index of every access
`output_data[...]` in place of its value. -/

/-- The indices read by the class scan of box `i`: the first argument is the number of
iterations left, the second is `c`. -/
def best_class_reads (num_boxes i : Int) : Nat → Int → List Int
  | 0, _ => []
  | n + 1, c => ((4 + c) * num_boxes + i) :: best_class_reads num_boxes i n (c + 1)

/-- The indices read by the keypoint loop of box `i`: the first argument is the number of
iterations left, the second is `k`. -/
def keypoint_reads (num_boxes i kpt_start : Int) : Nat → Int → List Int
  | 0, _ => []
  | n + 1, k =>
    ((kpt_start + k * 3 + 0) * num_boxes + i) :: ((kpt_start + k * 3 + 1) * num_boxes + i) ::
      ((kpt_start + k * 3 + 2) * num_boxes + i) :: keypoint_reads num_boxes i kpt_start n (k + 1)

/-- The indices read by the body of the box loop for box `i`. -/
def parse_box_reads (output_data : Int → ℚ) (num_boxes num_classes model_type
    num_keypoints : Int) (conf_threshold : ℚ) (alloc_ok : Bool) (i : Int) : List Int :=
  let geometry := [0 * num_boxes + i, 1 * num_boxes + i, 2 * num_boxes + i, 3 * num_boxes + i]
  let scores := best_class_reads num_boxes i num_classes.toNat 0
  let best := best_class_loop output_data num_boxes i num_classes.toNat 0 (0, 0)
  if best.2 < conf_threshold then geometry ++ scores
  else if model_type = MODEL_TYPE_YOLO_POSE ∧ num_keypoints > 0 then
    if alloc_ok then
      geometry ++ scores ++ keypoint_reads num_boxes i (4 + num_classes) num_keypoints.toNat 0
    else geometry ++ scores
  else geometry ++ scores

/-- The indices read by the box loop: the first argument is the number of iterations
left, the second is `i`, the third is the trace so far. -/
def parse_loop_reads (output_data : Int → ℚ) (num_boxes num_classes model_type
    num_keypoints : Int) (conf_threshold : ℚ) (alloc_keypoints : Int → Bool) :
    Nat → Int → List Int → List Int
  | 0, _, trace => trace
  | n + 1, i, trace =>
    parse_loop_reads output_data num_boxes num_classes model_type num_keypoints
      conf_threshold alloc_keypoints n (i + 1)
      (trace ++ parse_box_reads output_data num_boxes num_classes model_type num_keypoints
        conf_threshold (alloc_keypoints i) i)

/-- The indices of `output_data` read by `parse_yolov8_output`. -/
def parse_yolov8_output_reads (output_data : Int → ℚ) (num_features num_boxes model_type
    num_keypoints : Int) (conf_threshold : ℚ) (alloc_keypoints : Int → Bool) : List Int :=
  parse_loop_reads output_data num_boxes
    (parse_num_classes num_features model_type num_keypoints) model_type num_keypoints
    conf_threshold alloc_keypoints num_boxes.toNat 0 []

/-! ## Result slots and release of results (`onnx_free_batch_result`, `onnx_free_result`)

A released buffer is recorded by its kind and content, in the order of the calls of
`free`. -/

/-- The slot that the result loop of `onnx_detect_batch` stores for a vector of
detections when the allocation of the slot's array succeeds: a copy of the vector (the
null pointer for an empty vector), `count` and `capacity` equal to its length. -/
def result_slot (detections : List Detection) : DetectionResult :=
  { detections := if (detections.length : Int) > 0 then some detections else none,
    count := detections.length, capacity := detections.length }

/-- The extraction step of `onnx_detect`: the single result that receives slot 0 of the
envelope, and the envelope after `results[0].detections = nullptr; results[0].count = 0`.
For an envelope without results the single result is zeroed. -/
def extract_single (batch_res : BatchDetectionResult) :
    DetectionResult × BatchDetectionResult :=
  match batch_res.results with
  | some results =>
    if batch_res.num_images > 0 then
      (results.getD 0 default,
        { batch_res with
          results := some (results.set 0
            { results.getD 0 default with detections := none, count := 0 }) })
    else ({ detections := none, count := 0, capacity := 0 }, batch_res)
  | none => ({ detections := none, count := 0, capacity := 0 }, batch_res)

/-- One call of `free`: what it releases. -/
inductive Freed where
  | keypoints (buffer : List ℚ) : Freed
  | detections (buffer : List Detection) : Freed
  | results (buffer : List DetectionResult) : Freed
  | batch_envelope : Freed
  | single_envelope : Freed
  deriving DecidableEq

/-- The loop `for (k = 0; k < count; k++)` that frees the keypoint buffers of one array of
detections: the first argument is the number of iterations left, the second is `k`. -/
def free_keypoints_loop (detections : List Detection) : Nat → Int → List Freed → List Freed
  | 0, _, freed => freed
  | n + 1, k, freed =>
    free_keypoints_loop detections n (k + 1)
      (match (detections.getD k.toNat default).keypoints with
        | some buffer => freed ++ [Freed.keypoints buffer]
        | none => freed)

/-- The loop `for (i = 0; i < num_images; i++)` of `onnx_free_batch_result`: the first
argument is the number of iterations left, the second is `i`. -/
def free_results_loop (results : List DetectionResult) : Nat → Int → List Freed → List Freed
  | 0, _, freed => freed
  | n + 1, i, freed =>
    free_results_loop results n (i + 1)
      (match (results.getD i.toNat default).detections with
        | some detections =>
          free_keypoints_loop detections (results.getD i.toNat default).count.toNat 0 freed ++
            [Freed.detections detections]
        | none => freed)

/-- The function `onnx_free_batch_result`: the buffers it releases. -/
def onnx_free_batch_result (result : Option BatchDetectionResult) : List Freed :=
  match result with
  | none => []
  | some r =>
    (match r.results with
      | some results =>
        free_results_loop results r.num_images.toNat 0 [] ++ [Freed.results results]
      | none => []) ++ [Freed.batch_envelope]

/-- The function `onnx_free_result`: the buffers it releases. -/
def onnx_free_result (result : Option DetectionResult) : List Freed :=
  match result with
  | none => []
  | some r =>
    (match r.detections with
      | some detections =>
        free_keypoints_loop detections r.count.toNat 0 [] ++ [Freed.detections detections]
      | none => []) ++ [Freed.single_envelope]

/-! ## The build without the inference runtime (`ONNX_RUNTIME_NOT_FOUND` defined)

The entry points of the stub branch of `onnx_inference.cpp`.  Each takes the arguments of
its C signature and returns its C result together with the error state it leaves.  The
out-pointers `width`, `height` of `onnx_get_input_size` are optional cells (`none` is the
null pointer, `some v` a cell holding `v`). -/

namespace Stub

/-- The stub `onnx_init`. -/
def onnx_init : Bool × ErrorState :=
  let _err := clear_last_error
  (false, set_last_error ONNX_ERROR_RUNTIME_NOT_FOUND "ONNX Runtime 未找到")

/-- The stub `onnx_cleanup`. -/
def onnx_cleanup : ErrorState := clear_last_error

/-- The stub `onnx_load_model`. -/
def onnx_load_model (_model_path : Option String) (_use_gpu : Bool) :
    Option OnnxModel × ErrorState :=
  let _err := clear_last_error
  (none, set_last_error ONNX_ERROR_RUNTIME_NOT_FOUND "ONNX Runtime 未找到")

/-- The stub `onnx_unload_model`. -/
def onnx_unload_model (_handle : Option OnnxModel) : ErrorState := clear_last_error

/-- The stub `onnx_get_input_size`: the result, the cells `width` and `height` after the
call, and the error state. -/
def onnx_get_input_size (_handle : Option OnnxModel) (width height : Option Int) :
    Bool × Option Int × Option Int × ErrorState :=
  match width, height with
  | some _, some _ =>
    (false, some 0, some 0, set_last_error ONNX_ERROR_RUNTIME_NOT_FOUND "ONNX Runtime 未找到")
  | _, _ =>
    (false, width, height, set_last_error ONNX_ERROR_INVALID_ARGUMENT "输出指针为空")

/-- The stub `onnx_detect_batch`. -/
def onnx_detect_batch (_handle : Option OnnxModel)
    (_image_data_list : Option (Int → Option (Int → Nat))) (_num_images : Int)
    (_image_widths _image_heights : Option (Int → Int)) (_conf_threshold _nms_threshold : ℚ)
    (_model_type _num_keypoints : Int) : Option BatchDetectionResult × ErrorState :=
  let _err := clear_last_error
  (none, set_last_error ONNX_ERROR_RUNTIME_NOT_FOUND "ONNX Runtime 未找到")

/-- The stub `onnx_detect`. -/
def onnx_detect (_handle : Option OnnxModel) (_image_data : Option (Int → Nat))
    (_image_width _image_height : Int) (_conf_threshold _nms_threshold : ℚ)
    (_model_type _num_keypoints : Int) : Option DetectionResult × ErrorState :=
  let _err := clear_last_error
  (none, set_last_error ONNX_ERROR_RUNTIME_NOT_FOUND "ONNX Runtime 未找到")

end Stub

/-! ## Test environment for the detection entry points -/

/-- A runtime whose calls all succeed and whose output tensor is `slice_one_box` with
shape `[1, 5, 1]`. -/
def ort_one_box : OrtApi := fun _ _ _ =>
  { create_tensor := none, run := none, tensor_data := none, tensor_shape := none,
    dimensions_count := none, dimensions := none,
    output_data := fun k =>
      if k = 0 then 4 else if k = 1 then 4 else if k = 2 then 2 else if k = 3 then 2
      else if k = 4 then 9/10 else 0,
    output_dims := [1, 5, 1] }

/-- A runtime whose calls all succeed and whose output tensor has shape `[2, 4, 1]`: two
slices of four cells, all zero except cell 4, the first cell of the second slice, which
holds `v`. -/
def ort_short_rows (v : ℚ) : OrtApi := fun _ _ _ =>
  { create_tensor := none, run := none, tensor_data := none, tensor_shape := none,
    dimensions_count := none, dimensions := none,
    output_data := fun k => if k = 4 then v else 0,
    output_dims := [2, 4, 1] }

/-- Every allocation succeeds. -/
def alloc_all : Allocator :=
  { input_buffer := true, batch_result := true, results_array := true,
    detections := fun _ => true, keypoints := fun _ _ => true, single_result := true }

/-- The allocation of the batch input buffer fails. -/
def alloc_no_input : Allocator := { alloc_all with input_buffer := false }

/-- The allocation of the single `DetectionResult` of `onnx_detect` fails. -/
def alloc_no_single : Allocator := { alloc_all with single_result := false }

/-- A model with an `8 × 8` input. -/
def model_8x8 : OnnxModel := { input_width := 8, input_height := 8 }

/-- A list of images whose second pointer is null. -/
def images_second_null : Int → Option (Int → Nat) :=
  fun i => if i = 1 then none else some (fun _ => 0)

/-! ## Test slices for the decoder -/

/-- A slice `[5, 1]` of a plain detector: one box `(cx, cy, w, h) = (4, 4, 2, 2)` with one
class of score `9/10`. -/
def slice_one_box : Int → ℚ := fun k =>
  if k = 0 then 4 else if k = 1 then 4 else if k = 2 then 2 else if k = 3 then 2
  else if k = 4 then 9/10 else 0

/-- A slice `[8, 1]` of a pose model with one keypoint: the box of `slice_one_box`
followed by the keypoint `(4, 4, 7/10)`. -/
def slice_one_pose : Int → ℚ := fun k =>
  if k = 0 then 4 else if k = 1 then 4 else if k = 2 then 2 else if k = 3 then 2
  else if k = 4 then 9/10 else if k = 5 then 4 else if k = 6 then 4
  else if k = 7 then 7/10 else 0

/-- The detection decoded from `slice_one_box` with scale 2, pads `(0, 2)` and a `4 × 2`
image. -/
def det_one_box : Detection := make_det 0 (9/10) (1/2) (1/2) (1/4) (1/2)

/-- The result slot holding `det_one_box` alone. -/
def slot_one_box : DetectionResult :=
  { detections := some [det_one_box], count := 1, capacity := 1 }

/-- The envelope of one image whose slot is `slot_one_box`. -/
def envelope_one_box : BatchDetectionResult :=
  { results := some [slot_one_box], num_images := 1 }

/-- The detection decoded from `slice_one_pose` with scale 2, pads `(0, 2)` and a `4 × 2`
image. -/
def det_one_pose : Detection :=
  { class_id := 0, confidence := 9/10, x := 1/2, y := 1/2, width := 1/4, height := 1/2,
    keypoints := some [1/2, 1/2, 7/10], num_keypoints := 1 }

/-! ## Machine arithmetic: binary32 and 32-bit `int`

The definitions above take `float` as an exact rational and `int` as an unbounded
integer.  The definitions of this section embed the same source functions with the
arithmetic of the machine: every `float` operation rounds its exact result to binary32
(round to nearest, ties to even, overflow to an infinity, NaN for an invalid operation),
and every `int` operation wraps around to 32 bits.  They live in the namespace
`Binary32` and keep the names of the source.  The sign of a zero is not kept. -/

/-- Rounding of a rational to the nearest integer, ties to the even integer. -/
def round_half_even (q : ℚ) : Int :=
  let f := ⌊q⌋
  let r := q - (f : ℚ)
  if r < 1/2 then f else if 1/2 < r then f + 1 else if f % 2 = 0 then f else f + 1

/-- The exponent of the unit in the last place of binary32 at magnitude `q`: 24 bits of
precision, smallest exponent `-149` (subnormal numbers). -/
def ulp_exponent (q : ℚ) : Int := max (Int.log 2 |q| - 23) (-149)

/-- Rounding to binary32, to nearest, ties to even, with unbounded exponent range above. -/
def round_binary32 (q : ℚ) : ℚ :=
  (round_half_even (q / (2 : ℚ) ^ ulp_exponent q) : ℚ) * (2 : ℚ) ^ ulp_exponent q

/-- The finite binary32 numbers. -/
def is_binary32 (q : ℚ) : Prop := round_binary32 q = q ∧ |q| < 2 ^ 128

instance (q : ℚ) : Decidable (is_binary32 q) := by
  unfold is_binary32
  infer_instance

/-- A value of the C type `float`: a finite number, an infinity, or NaN.  The sign of a
zero is not kept: `fin 0` is `+0`. -/
inductive F32 where
  | fin (q : ℚ) : F32
  | pinf : F32
  | ninf : F32
  | nan : F32
  deriving DecidableEq

namespace F32

/-- The binary32 result of an operation whose exact result is `q`. -/
def of_rat (q : ℚ) : F32 :=
  let r := round_binary32 q
  if 2 ^ 128 ≤ r then pinf else if r ≤ -2 ^ 128 then ninf else fin r

/-- Float negation. -/
def neg : F32 → F32
  | fin q => fin (-q)
  | pinf => ninf
  | ninf => pinf
  | nan => nan

/-- Float addition. -/
def add : F32 → F32 → F32
  | fin a, fin b => of_rat (a + b)
  | fin _, pinf => pinf
  | fin _, ninf => ninf
  | pinf, fin _ => pinf
  | ninf, fin _ => ninf
  | pinf, pinf => pinf
  | ninf, ninf => ninf
  | pinf, ninf => nan
  | ninf, pinf => nan
  | nan, _ => nan
  | _, nan => nan

/-- Float subtraction. -/
def sub (a b : F32) : F32 := add a (neg b)

/-- Float multiplication. -/
def mul : F32 → F32 → F32
  | fin a, fin b => of_rat (a * b)
  | fin a, pinf => if a = 0 then nan else if 0 < a then pinf else ninf
  | fin a, ninf => if a = 0 then nan else if 0 < a then ninf else pinf
  | pinf, fin b => if b = 0 then nan else if 0 < b then pinf else ninf
  | ninf, fin b => if b = 0 then nan else if 0 < b then ninf else pinf
  | pinf, pinf => pinf
  | ninf, ninf => pinf
  | pinf, ninf => ninf
  | ninf, pinf => ninf
  | nan, _ => nan
  | _, nan => nan

/-- Float division; a zero divisor is `+0`. -/
def div : F32 → F32 → F32
  | fin a, fin b =>
    if b = 0 then (if a = 0 then nan else if 0 < a then pinf else ninf) else of_rat (a / b)
  | fin _, pinf => fin 0
  | fin _, ninf => fin 0
  | pinf, fin b => if 0 ≤ b then pinf else ninf
  | ninf, fin b => if 0 ≤ b then ninf else pinf
  | pinf, pinf => nan
  | pinf, ninf => nan
  | ninf, pinf => nan
  | ninf, ninf => nan
  | nan, _ => nan
  | _, nan => nan

/-- The comparison `a < b` of two floats: false when either is NaN. -/
def lt : F32 → F32 → Bool
  | fin a, fin b => decide (a < b)
  | fin _, pinf => true
  | ninf, fin _ => true
  | ninf, pinf => true
  | _, _ => false

/-- The library function `std::max(a, b)`: `(a < b) ? b : a`. -/
def max (a b : F32) : F32 := if lt a b then b else a

/-- The library function `std::min(a, b)`: `(b < a) ? b : a`. -/
def min (a b : F32) : F32 := if lt b a then b else a

/-- The conversion `(float)n` of an `int`. -/
def of_int (n : Int) : F32 := of_rat (n : ℚ)

/-- The conversion `(int)f`: truncation toward zero; a value that does not fit in 32 bits,
an infinity or NaN gives `INT_MIN`, the result of the conversion instruction. -/
def to_int : F32 → Int
  | fin q =>
    let t := if 0 ≤ q then ⌊q⌋ else ⌈q⌉
    if -2 ^ 31 ≤ t ∧ t < 2 ^ 31 then t else -2 ^ 31
  | _ => -2 ^ 31

end F32

/-- The value of an `int` expression: two's complement wrap-around to 32 bits. -/
def wrap_int32 (n : Int) : Int := (n + 2 ^ 31) % 2 ^ 32 - 2 ^ 31

namespace Binary32

/-- The `Detection` record with its `float` fields as machine values. -/
structure Detection where
  class_id : Int
  confidence : F32
  x : F32
  y : F32
  width : F32
  height : F32
  keypoints : Option (List F32)
  num_keypoints : Int
  deriving DecidableEq

/-- The helper `make_det` of the unit tests; each argument is a decimal `float` literal,
converted to binary32. -/
def make_det (class_id : Int) (conf x y w h : ℚ) : Detection :=
  { class_id := class_id, confidence := F32.of_rat conf, x := F32.of_rat x, y := F32.of_rat y,
    width := F32.of_rat w, height := F32.of_rat h, keypoints := none, num_keypoints := 0 }

/-- The function `onnx_iou` in binary32 arithmetic. -/
def onnx_iou (a b : Detection) : F32 :=
  let a_x1 := F32.sub a.x (F32.div a.width (F32.of_int 2))
  let a_y1 := F32.sub a.y (F32.div a.height (F32.of_int 2))
  let a_x2 := F32.add a.x (F32.div a.width (F32.of_int 2))
  let a_y2 := F32.add a.y (F32.div a.height (F32.of_int 2))
  let b_x1 := F32.sub b.x (F32.div b.width (F32.of_int 2))
  let b_y1 := F32.sub b.y (F32.div b.height (F32.of_int 2))
  let b_x2 := F32.add b.x (F32.div b.width (F32.of_int 2))
  let b_y2 := F32.add b.y (F32.div b.height (F32.of_int 2))
  let inter_x1 := F32.max a_x1 b_x1
  let inter_y1 := F32.max a_y1 b_y1
  let inter_x2 := F32.min a_x2 b_x2
  let inter_y2 := F32.min a_y2 b_y2
  let inter_w := F32.max (F32.fin 0) (F32.sub inter_x2 inter_x1)
  let inter_h := F32.max (F32.fin 0) (F32.sub inter_y2 inter_y1)
  let inter_area := F32.mul inter_w inter_h
  let a_area := F32.mul a.width a.height
  let b_area := F32.mul b.width b.height
  let union_area := F32.sub (F32.add a_area b_area) inter_area
  if F32.lt (F32.fin 0) union_area then F32.div inter_area union_area else F32.fin 0


/-- The `int` sum `a + b`. -/
def int_add (a b : Int) : Int := wrap_int32 (a + b)

/-- The `int` difference `a - b`. -/
def int_sub (a b : Int) : Int := wrap_int32 (a - b)

/-- The `int` product `a * b`. -/
def int_mul (a b : Int) : Int := wrap_int32 (a * b)

/-- The letterbox parameters written through `scale_x`, `scale_y`, `pad_left`,
`pad_top`. -/
structure Transform where
  scale_x : F32
  scale_y : F32
  pad_left : Int
  pad_top : Int
  deriving DecidableEq

/-- The local `ratio` of `preprocess_image_to_buffer`. -/
def letterbox_ratio (image_width image_height target_width target_height : Int) : F32 :=
  F32.min (F32.div (F32.of_int target_width) (F32.of_int image_width))
    (F32.div (F32.of_int target_height) (F32.of_int image_height))

/-- The local `new_width` of `preprocess_image_to_buffer`. -/
def letterbox_new_width (image_width image_height target_width target_height : Int) : Int :=
  F32.to_int (F32.mul (F32.of_int image_width)
    (letterbox_ratio image_width image_height target_width target_height))

/-- The local `new_height` of `preprocess_image_to_buffer`. -/
def letterbox_new_height (image_width image_height target_width target_height : Int) : Int :=
  F32.to_int (F32.mul (F32.of_int image_height)
    (letterbox_ratio image_width image_height target_width target_height))

/-- The source coordinate of a destination row or column `pos`: the integer source
position and the interpolation fraction, clamped at the last row or column. -/
def source_coord (pos : Int) (ratio : F32) (size : Int) : Int × F32 :=
  let src_f := F32.div (F32.of_int pos) ratio
  let src := F32.to_int src_f
  let lerp := F32.sub src_f (F32.of_int src)
  if src ≥ int_sub size 1 then (int_sub size 2, F32.fin 1) else (src, lerp)

/-- The destination buffer together with the log of reads and writes. -/
structure PixelState where
  buffer : Int → F32
  reads : List Int
  writes : List Int

/-- The body of the channel loop `for (c = 0; c < 3; c++)` for one channel. -/
def write_channel (image_data : Int → Nat) (image_width src_x src_y : Int)
    (x_lerp y_lerp : F32) (c_stride dst_idx c : Int) (st : PixelState) : PixelState :=
  let idx00 := int_add (int_mul (int_add (int_mul src_y image_width) src_x) 4) c
  let idx01 := int_add (int_mul (int_add (int_add (int_mul src_y image_width) src_x) 1) 4) c
  let idx10 := int_add (int_mul (int_add (int_mul (int_add src_y 1) image_width) src_x) 4) c
  let idx11 :=
    int_add (int_mul (int_add (int_add (int_mul (int_add src_y 1) image_width) src_x) 1) 4) c
  let v00 := F32.div (F32.of_int (image_data idx00)) (F32.of_rat 255)
  let v01 := F32.div (F32.of_int (image_data idx01)) (F32.of_rat 255)
  let v10 := F32.div (F32.of_int (image_data idx10)) (F32.of_rat 255)
  let v11 := F32.div (F32.of_int (image_data idx11)) (F32.of_rat 255)
  let v0 := F32.add (F32.mul v00 (F32.sub (F32.of_int 1) x_lerp)) (F32.mul v01 x_lerp)
  let v1 := F32.add (F32.mul v10 (F32.sub (F32.of_int 1) x_lerp)) (F32.mul v11 x_lerp)
  let v := F32.add (F32.mul v0 (F32.sub (F32.of_int 1) y_lerp)) (F32.mul v1 y_lerp)
  { buffer := fun k => if k = int_add (int_mul c c_stride) dst_idx then v else st.buffer k,
    reads := st.reads ++ [idx00, idx01, idx10, idx11],
    writes := st.writes ++ [int_add (int_mul c c_stride) dst_idx] }

/-- The channel loop: the first argument is the number of iterations left, the second
is `c`. -/
def channel_loop (image_data : Int → Nat) (image_width src_x src_y : Int)
    (x_lerp y_lerp : F32) (c_stride dst_idx : Int) : Nat → Int → PixelState → PixelState
  | 0, _, st => st
  | n + 1, c, st =>
    channel_loop image_data image_width src_x src_y x_lerp y_lerp c_stride dst_idx n
      (int_add c 1)
      (write_channel image_data image_width src_x src_y x_lerp y_lerp c_stride dst_idx c st)

/-- The loop `for (x = 0; x < new_width; x++)` for one row `y`: the first argument is the
number of iterations left, the second is `x`. -/
def column_loop (image_data : Int → Nat) (image_width target_width target_height : Int)
    (ratio : F32) (pad_left pad_top y src_y : Int) (y_lerp : F32) :
    Nat → Int → PixelState → PixelState
  | 0, _, st => st
  | n + 1, x, st =>
    let sx := source_coord x ratio image_width
    let dst_x := int_add x pad_left
    let dst_y := int_add y pad_top
    let c_stride := int_mul target_width target_height
    let dst_idx := int_add (int_mul dst_y target_width) dst_x
    column_loop image_data image_width target_width target_height ratio pad_left pad_top y
      src_y y_lerp n (int_add x 1)
      (channel_loop image_data image_width sx.1 src_y sx.2 y_lerp c_stride dst_idx 3 0 st)

/-- The loop `for (y = 0; y < new_height; y++)`: the first argument is the number of
iterations left, the second is `y`. -/
def row_loop (image_data : Int → Nat) (image_width image_height target_width target_height : Int)
    (ratio : F32) (new_width pad_left pad_top : Int) : Nat → Int → PixelState → PixelState
  | 0, _, st => st
  | n + 1, y, st =>
    let sy := source_coord y ratio image_height
    row_loop image_data image_width image_height target_width target_height ratio new_width
      pad_left pad_top n (int_add y 1)
      (column_loop image_data image_width target_width target_height ratio pad_left pad_top y
        sy.1 sy.2 new_width.toNat 0 st)

/-- The padding loop `for (i = 0; i < 3 * total_pixels; i++) buffer[i] = pad_value`: the
first argument is the number of iterations left, the second is `i`. -/
def fill_loop (pad_value : F32) : Nat → Int → (Int → F32) → (Int → F32)
  | 0, _, buffer => buffer
  | n + 1, i, buffer =>
    fill_loop pad_value n (int_add i 1) (fun k => if k = i then pad_value else buffer k)

/-- What `preprocess_image_to_buffer` leaves behind: the destination buffer, the
transform, and the log of reads of `image_data` and of interpolation writes. -/
structure PreprocessResult where
  buffer : Option (Int → F32)
  transform : Transform
  reads : List Int
  writes : List Int

/-- The function `preprocess_image_to_buffer` in machine arithmetic. -/
def preprocess_image_to_buffer (image_data : Option (Int → Nat))
    (image_width image_height target_width target_height : Int)
    (buffer : Option (Int → F32)) : PreprocessResult :=
  match image_data, buffer with
  | some image, some buf =>
    if target_width ≤ 0 ∨ target_height ≤ 0 ∨ image_width ≤ 1 ∨ image_height ≤ 1 then
      { buffer := buffer, transform := ⟨F32.fin 0, F32.fin 0, 0, 0⟩, reads := [], writes := [] }
    else
      let ratio := letterbox_ratio image_width image_height target_width target_height
      let new_width := letterbox_new_width image_width image_height target_width target_height
      let new_height := letterbox_new_height image_width image_height target_width target_height
      let pad_left := Int.tdiv (int_sub target_width new_width) 2
      let pad_top := Int.tdiv (int_sub target_height new_height) 2
      let pad_value := F32.div (F32.of_rat 114) (F32.of_rat 255)
      let total_pixels := int_mul target_width target_height
      let filled := fill_loop pad_value (int_mul 3 total_pixels).toNat 0 buf
      let st := row_loop image image_width image_height target_width target_height ratio
        new_width pad_left pad_top new_height.toNat 0
        { buffer := filled, reads := [], writes := [] }
      { buffer := some st.buffer, transform := ⟨ratio, ratio, pad_left, pad_top⟩,
        reads := st.reads, writes := st.writes }
  | _, _ =>
    { buffer := buffer, transform := ⟨F32.fin 0, F32.fin 0, 0, 0⟩, reads := [], writes := [] }

/-- The local `num_classes` of `parse_yolov8_output`, after the clamp to 1. -/
def parse_num_classes (num_features model_type num_keypoints : Int) : Int :=
  let num_classes :=
    if model_type = MODEL_TYPE_YOLO_POSE ∧ num_keypoints > 0 then
      int_sub (int_sub num_features 4) (int_mul num_keypoints 3)
    else int_sub num_features 4
  if num_classes < 1 then 1 else num_classes

/-- The class scan `for (c = 0; c < num_classes; c++)` of box `i`. -/
def best_class_loop (output_data : Int → F32) (num_boxes i : Int) :
    Nat → Int → Int × F32 → Int × F32
  | 0, _, best => best
  | n + 1, c, best =>
    let score := output_data (int_add (int_mul (int_add 4 c) num_boxes) i)
    best_class_loop output_data num_boxes i n (int_add c 1)
      (if F32.lt best.2 score then (c, score) else best)

/-- The keypoint loop `for (k = 0; k < num_keypoints && det.keypoints; k++)` of box `i`. -/
def keypoint_loop (output_data : Int → F32) (num_boxes i kpt_start : Int) (scale_x scale_y : F32)
    (pad_left pad_top image_width image_height : Int) : Nat → Int → List F32 → List F32
  | 0, _, keypoints => keypoints
  | n + 1, k, keypoints =>
    let kp_x := output_data
      (int_add (int_mul (int_add (int_add kpt_start (int_mul k 3)) 0) num_boxes) i)
    let kp_y := output_data
      (int_add (int_mul (int_add (int_add kpt_start (int_mul k 3)) 1) num_boxes) i)
    let kp_v := output_data
      (int_add (int_mul (int_add (int_add kpt_start (int_mul k 3)) 2) num_boxes) i)
    keypoint_loop output_data num_boxes i kpt_start scale_x scale_y pad_left pad_top
      image_width image_height n (int_add k 1)
      (((keypoints.set (int_add (int_mul k 3) 0).toNat
          (F32.div (F32.div (F32.sub kp_x (F32.of_int pad_left)) scale_x)
            (F32.of_int image_width))).set
        (int_add (int_mul k 3) 1).toNat
          (F32.div (F32.div (F32.sub kp_y (F32.of_int pad_top)) scale_y)
            (F32.of_int image_height))).set
        (int_add (int_mul k 3) 2).toNat kp_v)

/-- The body of the box loop of `parse_yolov8_output` for box `i`; `none` is the
`continue` of a box below the confidence threshold, `alloc_ok` the outcome of the `malloc`
of the keypoint buffer. -/
def parse_box (output_data : Int → F32) (num_boxes num_classes model_type num_keypoints : Int)
    (conf_threshold scale_x scale_y : F32) (pad_left pad_top image_width image_height : Int)
    (alloc_ok : Bool) (i : Int) (err : ErrorState) : Option Detection × ErrorState :=
  let cx := output_data (int_add (int_mul 0 num_boxes) i)
  let cy := output_data (int_add (int_mul 1 num_boxes) i)
  let w := output_data (int_add (int_mul 2 num_boxes) i)
  let h := output_data (int_add (int_mul 3 num_boxes) i)
  let best := best_class_loop output_data num_boxes i num_classes.toNat 0 (0, F32.fin 0)
  let best_class := best.1
  let best_score := best.2
  if F32.lt best_score conf_threshold then (none, err)
  else
    let x_norm := F32.div (F32.div (F32.sub cx (F32.of_int pad_left)) scale_x)
      (F32.of_int image_width)
    let y_norm := F32.div (F32.div (F32.sub cy (F32.of_int pad_top)) scale_y)
      (F32.of_int image_height)
    let w_norm := F32.div (F32.div w scale_x) (F32.of_int image_width)
    let h_norm := F32.div (F32.div h scale_y) (F32.of_int image_height)
    let det : Detection :=
      { class_id := best_class, confidence := best_score, x := x_norm, y := y_norm,
        width := w_norm, height := h_norm, keypoints := none, num_keypoints := 0 }
    if model_type = MODEL_TYPE_YOLO_POSE ∧ num_keypoints > 0 then
      if alloc_ok then
        let kpt_start := int_add 4 num_classes
        let keypoints := keypoint_loop output_data num_boxes i kpt_start scale_x scale_y
          pad_left pad_top image_width image_height num_keypoints.toNat 0
          (List.replicate (int_mul num_keypoints 3).toNat (F32.fin 0))
        (some { det with keypoints := some keypoints, num_keypoints := num_keypoints }, err)
      else
        (some { det with keypoints := none, num_keypoints := 0 },
          set_last_error ONNX_ERROR_ALLOCATION_FAILED "分配关键点内存失败")
    else (some det, err)

/-- The box loop `for (i = 0; i < num_boxes; i++)`. -/
def parse_loop (output_data : Int → F32) (num_boxes num_classes model_type num_keypoints : Int)
    (conf_threshold scale_x scale_y : F32) (pad_left pad_top image_width image_height : Int)
    (alloc_keypoints : Int → Bool) :
    Nat → Int → List Detection × ErrorState → List Detection × ErrorState
  | 0, _, acc => acc
  | n + 1, i, acc =>
    let r := parse_box output_data num_boxes num_classes model_type num_keypoints
      conf_threshold scale_x scale_y pad_left pad_top image_width image_height
      (alloc_keypoints i) i acc.2
    parse_loop output_data num_boxes num_classes model_type num_keypoints conf_threshold
      scale_x scale_y pad_left pad_top image_width image_height alloc_keypoints n
      (int_add i 1)
      (match r.1 with
        | some det => (acc.1 ++ [det], r.2)
        | none => (acc.1, r.2))

/-- The function `parse_yolov8_output` in machine arithmetic. -/
def parse_yolov8_output (output_data : Int → F32) (num_features num_boxes model_type
    num_keypoints : Int) (conf_threshold scale_x scale_y : F32)
    (pad_left pad_top image_width image_height : Int) (alloc_keypoints : Int → Bool)
    (err : ErrorState) : List Detection × ErrorState :=
  parse_loop output_data num_boxes (parse_num_classes num_features model_type num_keypoints)
    model_type num_keypoints conf_threshold scale_x scale_y pad_left pad_top image_width
    image_height alloc_keypoints num_boxes.toNat 0 ([], err)

end Binary32

/-- A float that is neither NaN nor negative: a finite number `≥ 0` or `+∞`. -/
def F32.is_nonneg : F32 → Prop
  | F32.fin q => 0 ≤ q
  | F32.pinf => True
  | F32.ninf => False
  | F32.nan => False

instance (v : F32) : Decidable (F32.is_nonneg v) := by
  cases v <;> unfold F32.is_nonneg <;> infer_instance

namespace Binary32

/-- The local `inter_area` of `onnx_iou`. -/
def iou_inter_area (a b : Detection) : F32 :=
  let a_x1 := F32.sub a.x (F32.div a.width (F32.of_int 2))
  let a_y1 := F32.sub a.y (F32.div a.height (F32.of_int 2))
  let a_x2 := F32.add a.x (F32.div a.width (F32.of_int 2))
  let a_y2 := F32.add a.y (F32.div a.height (F32.of_int 2))
  let b_x1 := F32.sub b.x (F32.div b.width (F32.of_int 2))
  let b_y1 := F32.sub b.y (F32.div b.height (F32.of_int 2))
  let b_x2 := F32.add b.x (F32.div b.width (F32.of_int 2))
  let b_y2 := F32.add b.y (F32.div b.height (F32.of_int 2))
  let inter_x1 := F32.max a_x1 b_x1
  let inter_y1 := F32.max a_y1 b_y1
  let inter_x2 := F32.min a_x2 b_x2
  let inter_y2 := F32.min a_y2 b_y2
  let inter_w := F32.max (F32.fin 0) (F32.sub inter_x2 inter_x1)
  let inter_h := F32.max (F32.fin 0) (F32.sub inter_y2 inter_y1)
  F32.mul inter_w inter_h

/-- The local `union_area` of `onnx_iou`. -/
def iou_union_area (a b : Detection) : F32 :=
  F32.sub (F32.add (F32.mul a.width a.height) (F32.mul b.width b.height)) (iou_inter_area a b)

/-- The corners `x - w / 2` and `x + w / 2` of a box side are computed without rounding:
the extent, its half and both corners are binary32 numbers. -/
def corners_exact (x w : ℚ) : Prop :=
  is_binary32 w ∧ is_binary32 (w / 2) ∧ is_binary32 (x - w / 2) ∧ is_binary32 (x + w / 2)

instance (x w : ℚ) : Decidable (corners_exact x w) := by
  unfold corners_exact
  infer_instance


/-- A rational in the normal range of binary32, one binade away from both ends. -/
def in_normal_range (q : ℚ) : Prop := (2 : ℚ) ^ (-125 : Int) ≤ |q| ∧ |q| < 2 ^ 126

instance (q : ℚ) : Decidable (in_normal_range q) := by
  unfold in_normal_range
  infer_instance

/-- The exact values met when a centre coordinate `xn` is decoded (`xn * size * scale`,
`xn * size`, `xn`) are all zero or all in the normal range. -/
def coord_in_range (xn size scale : ℚ) : Prop :=
  xn = 0 ∨ (in_normal_range (xn * size * scale) ∧ in_normal_range (xn * size) ∧
    in_normal_range xn)

instance (xn size scale : ℚ) : Decidable (coord_in_range xn size scale) := by
  unfold coord_in_range
  infer_instance

/-- The exact values met when an extent `wn` is decoded (`wn * size`, `wn`) are all zero
or all in the normal range. -/
def extent_in_range (wn size : ℚ) : Prop :=
  wn = 0 ∨ (in_normal_range (wn * size) ∧ in_normal_range wn)

instance (wn size : ℚ) : Decidable (extent_in_range wn size) := by
  unfold extent_in_range
  infer_instance


/-- A slice `[5, 1]` whose box centre `cx` is the `float` nearest to `0.5 * 1 * 2^-20 +
2^20`, the forward image of `xn = 0.5` for an image of width 1, scale `2^-20` and
`pad_left = 2^20`; the class score is `0.9f`. -/
def slice_far_pad : Int → F32 := fun k =>
  if k = 0 then F32.of_rat (1/2 * 1 * (1/1048576) + 1048576)
  else if k = 4 then F32.of_rat (9/10) else F32.fin 0

/-- The machine detection decoded from `slice_one_box` with scale 2, pads `(0, 2)` and a
`4 × 2` image: every operation is exact. -/
def det_one_box : Detection :=
  { class_id := 0, confidence := F32.fin (9/10), x := F32.fin (1/2), y := F32.fin (1/2),
    width := F32.fin (1/4), height := F32.fin (1/2), keypoints := none, num_keypoints := 0 }

/-- A slice `[5, 1]` whose box centre `cx` is the `float` nearest to `0.5 * 2 * ratio + 320`,
the forward image of `xn = 0.5` under the transform of a `2 × 20000` image in a
`640 × 640` input (`ratio = 8589935/268435456`, `pad_left = 320`); the class score is
`0.9f`. -/
def slice_tall_image : Int → F32 := fun k =>
  if k = 0 then F32.of_rat (1/2 * 2 * (8589935/268435456) + 320)
  else if k = 4 then F32.of_rat (9/10) else F32.fin 0

end Binary32

/-! ## The loops compute `nms_keep` -/

theorem set_getElem_same {α : Type} : ∀ (l : List α) (j : Nat) (h : j < l.length),
    l.set j (l.get ⟨j, h⟩) = l
  | _ :: _, 0, _ => rfl
  | a :: l, j + 1, h => by
    simp only [List.set_cons_succ, List.get_cons_succ]
    rw [set_getElem_same l j (Nat.lt_of_succ_lt_succ h)]

theorem take_set_same {α : Type} : ∀ (l : List α) (j : Nat) (a : α),
    (l.set j a).take j = l.take j
  | [], _, _ => by simp
  | _ :: _, 0, _ => rfl
  | b :: l, j + 1, a => by
    simp only [List.set_cons_succ, List.take_succ_cons]
    rw [take_set_same l j a]

theorem nms_inner_eq (detections : List Detection) (threshold : ℚ) (i : Nat) :
    ∀ (k j : Nat) (s : List Bool), j + k = detections.length → s.length = detections.length →
      nms_inner detections threshold i k j s =
        s.take j ++ List.zipWith
          (fun e b => b || suppresses threshold (detections.getD i default) e)
          (detections.drop j) (s.drop j) := by
  intro k
  induction k with
  | zero =>
    intro j s hj hs
    have h1 : detections.length ≤ j := by omega
    have h2 : s.length ≤ j := by omega
    simp [nms_inner, List.drop_of_length_le h1, List.take_of_length_le h2]
  | succ k ih =>
    intro j s hj hs
    have hjd : j < detections.length := by omega
    have hjs : j < s.length := by omega
    have hstep : (if (!s.getD j false &&
          decide ((detections.getD i default).class_id = (detections.getD j default).class_id)) = true then
        if onnx_iou (detections.getD i default) (detections.getD j default) > threshold then
          s.set j true
        else s
      else s) = s.set j (s[j] || suppresses threshold (detections.getD i default) detections[j]) := by
      rw [List.getD_eq_getElem _ _ hjs, List.getD_eq_getElem (l := detections) _ hjd]
      unfold suppresses
      have hself := set_getElem_same s j hjs
      simp only [List.get_eq_getElem] at hself
      by_cases hb : s[j] = true
      · simp only [hb, Bool.not_true, Bool.false_and, Bool.false_eq_true, if_false, Bool.true_or]
        rw [← hb, hself]
      · have hb0 : s[j] = false := by simpa using hb
        simp only [hb0, Bool.not_false, Bool.true_and, Bool.false_or, decide_eq_true_eq]
        by_cases hc : (detections.getD i default).class_id = detections[j].class_id
        · by_cases hi : onnx_iou (detections.getD i default) detections[j] > threshold
          · simp only [hc, hi, if_true, decide_True, Bool.and_self]
          · simp only [hc, hi, if_true, if_false, decide_True, decide_False, Bool.and_false]
            rw [← hb0, hself]
        · simp only [hc, if_false, decide_False, Bool.false_and]
          rw [← hb0, hself]
    simp only [nms_inner]
    rw [hstep, ih (j + 1) _ (by omega) (by simpa using hs)]
    rw [List.drop_set_of_lt _ _ (Nat.lt_succ_self j), List.take_succ, take_set_same,
      List.drop_eq_getElem_cons hjd, List.drop_eq_getElem_cons hjs,
      List.getElem?_set_self (by simpa using hjs)]
    simp only [List.zipWith_cons_cons, Option.toList, List.append_assoc, List.singleton_append]

theorem nms_keep_nil (threshold : ℚ) : nms_keep threshold [] = [] := by
  rw [nms_keep]

theorem nms_keep_cons (threshold : ℚ) (d : Detection) (rest : List Detection) :
    nms_keep threshold (d :: rest) =
      d :: nms_keep threshold (rest.filter (fun e => !suppresses threshold d e)) := by
  rw [nms_keep]

theorem unflagged_mark (threshold : ℚ) (d : Detection) :
    ∀ (ds : List Detection) (bs : List Bool),
      unflagged ds (List.zipWith (fun e b => b || suppresses threshold d e) ds bs) =
        (unflagged ds bs).filter (fun e => !suppresses threshold d e)
  | [], _ => by simp [unflagged]
  | _ :: _, [] => by simp [unflagged]
  | e :: ds, b :: bs => by
    have ih := unflagged_mark threshold d ds bs
    cases b <;> cases hs : suppresses threshold d e <;>
      simp [unflagged, List.filter_cons, hs, ih]

theorem unflagged_replicate_false :
    ∀ ds : List Detection, unflagged ds (List.replicate ds.length false) = ds
  | [] => rfl
  | d :: ds => by
    simp [unflagged, List.replicate_succ, unflagged_replicate_false ds]

theorem length_nms_inner (detections : List Detection) (threshold : ℚ) (i : Nat) :
    ∀ (k j : Nat) (s : List Bool),
      (nms_inner detections threshold i k j s).length = s.length := by
  intro k
  induction k with
  | zero => intro j s; rfl
  | succ k ih =>
    intro j s
    simp only [nms_inner]
    rw [ih]
    split
    · split
      · simp
      · rfl
    · rfl

theorem nms_outer_eq (detections : List Detection) (threshold : ℚ) :
    ∀ (k i : Nat) (s : List Bool) (result : List Detection),
      i + k = detections.length → s.length = detections.length →
      nms_outer detections threshold k i s result =
        result ++ nms_keep threshold (unflagged (detections.drop i) (s.drop i)) := by
  intro k
  induction k with
  | zero =>
    intro i s result hi hs
    have h1 : detections.length ≤ i := by omega
    simp [nms_outer, List.drop_of_length_le h1, unflagged, nms_keep_nil]
  | succ k ih =>
    intro i s result hi hs
    have hid : i < detections.length := by omega
    have his : i < s.length := by omega
    simp only [nms_outer]
    rw [List.drop_eq_getElem_cons hid, List.drop_eq_getElem_cons his,
      List.getD_eq_getElem _ _ his, List.getD_eq_getElem (l := detections) _ hid]
    by_cases hb : s[i] = true
    · rw [if_pos hb, ih (i + 1) s result (by omega) hs]
      simp only [unflagged, hb, if_true]
    · rw [if_neg hb, ih (i + 1) _ _ (by omega) (by rw [length_nms_inner]; exact hs)]
      rw [nms_inner_eq detections threshold i _ (i + 1) s (by omega) hs]
      have hlen : (List.take (i + 1) s).length = i + 1 := by
        rw [List.length_take]; omega
      rw [List.drop_left' hlen, unflagged_mark, List.getD_eq_getElem (l := detections) _ hid]
      have hb0 : s[i] = false := by simpa using hb
      simp only [unflagged, hb0, Bool.false_eq_true, if_false, nms_keep_cons, List.append_assoc,
        List.singleton_append]

/-- The two loops of `onnx_nms` compute the greedy recursion `nms_keep` on the sorted
list. -/
theorem onnx_nms_eq (sort : List Detection → List Detection) (l : List Detection)
    (threshold : ℚ) : onnx_nms sort l threshold = nms_keep threshold (sort l) := by
  unfold onnx_nms
  simp only []
  rw [nms_outer_eq (sort l) threshold (sort l).length 0 _ [] (by omega) (by simp)]
  simp [unflagged_replicate_false]

/-! ## The sorting routine -/

theorem insert_by_confidence_perm (d : Detection) :
    ∀ l : List Detection, (insert_by_confidence d l).Perm (d :: l)
  | [] => List.Perm.refl _
  | e :: rest => by
    unfold insert_by_confidence
    split
    · exact ((insert_by_confidence_perm d rest).cons e).trans (List.Perm.swap d e rest)
    · exact List.Perm.refl _

theorem insert_by_confidence_sorted (d : Detection) :
    ∀ l : List Detection, l.Pairwise (fun a b => ¬ conf_gt b a) →
      (insert_by_confidence d l).Pairwise (fun a b => ¬ conf_gt b a)
  | [], _ => by simp [insert_by_confidence]
  | e :: rest, h => by
    have hcons := List.pairwise_cons.mp h
    unfold insert_by_confidence
    split
    · rename_i hed
      refine List.pairwise_cons.mpr ⟨?_, insert_by_confidence_sorted d rest hcons.2⟩
      intro b hb
      rcases List.mem_cons.mp ((insert_by_confidence_perm d rest).subset hb) with hbd | hbr
      · subst hbd
        unfold conf_gt at hed ⊢
        exact not_lt_of_gt hed
      · exact hcons.1 b hbr
    · rename_i hed
      refine List.pairwise_cons.mpr ⟨?_, h⟩
      intro b hb
      rcases List.mem_cons.mp hb with hbe | hbr
      · subst hbe
        exact hed
      · have := hcons.1 b hbr
        unfold conf_gt at hed this ⊢
        exact not_lt_of_ge (le_trans (not_lt.mp this) (not_lt.mp hed))

/-- The insertion sort meets the postcondition of `std::sort`. -/
theorem sort_by_confidence_isSort : IsSortByConfidence sort_by_confidence := by
  intro l
  induction l with
  | nil => exact ⟨List.Perm.refl _, List.Pairwise.nil⟩
  | cons d l ih =>
    refine ⟨?_, ?_⟩
    · exact (insert_by_confidence_perm d _).trans (ih.1.cons d)
    · exact insert_by_confidence_sorted d _ ih.2

/-- Sorting a list of pairwise distinct confidences gives a strictly descending list. -/
theorem sort_strict {sort : List Detection → List Detection} (hs : IsSortByConfidence sort)
    {l : List Detection} (hconf : l.Pairwise (fun a b => a.confidence ≠ b.confidence)) :
    (sort l).Pairwise conf_gt := by
  have hne : (sort l).Pairwise (fun a b => a.confidence ≠ b.confidence) :=
    ((hs l).1.pairwise_iff (fun {a b} (h : a.confidence ≠ b.confidence) => h.symm)).mpr hconf
  refine List.Pairwise.imp₂ ?_ (hs l).2 hne
  intro a b hge hab
  unfold conf_gt at hge ⊢
  exact lt_of_le_of_ne (not_lt.mp hge) (Ne.symm hab)

/-- A list of pairwise distinct confidences has exactly one descending arrangement, so
every sorting routine returns it. -/
theorem sort_unique {sort : List Detection → List Detection} (hs : IsSortByConfidence sort)
    {l s : List Detection} (hconf : l.Pairwise (fun a b => a.confidence ≠ b.confidence))
    (hperm : s.Perm l) (hsorted : s.Pairwise conf_gt) : sort l = s :=
  List.eq_of_perm_of_sorted ((hs l).1.trans hperm.symm) (sort_strict hs hconf) hsorted

/-! ## Properties of IoU -/

theorem onnx_iou_comm (a b : Detection) : onnx_iou a b = onnx_iou b a := by
  simp only [onnx_iou]
  rw [max_comm (a.x - a.width / 2), max_comm (a.y - a.height / 2),
    min_comm (a.x + a.width / 2), min_comm (a.y + a.height / 2),
    add_comm (a.width * a.height)]

/-- When the clamped overlap vanishes on one axis the IoU is 0. -/
theorem onnx_iou_eq_zero_of_no_overlap (a b : Detection)
    (h : min (a.x + a.width / 2) (b.x + b.width / 2) ≤ max (a.x - a.width / 2) (b.x - b.width / 2) ∨
      min (a.y + a.height / 2) (b.y + b.height / 2) ≤
        max (a.y - a.height / 2) (b.y - b.height / 2)) :
    onnx_iou a b = 0 := by
  have hinter : max 0 (min (a.x + a.width / 2) (b.x + b.width / 2) -
        max (a.x - a.width / 2) (b.x - b.width / 2)) *
      max 0 (min (a.y + a.height / 2) (b.y + b.height / 2) -
        max (a.y - a.height / 2) (b.y - b.height / 2)) = 0 := by
    rcases h with h | h
    · rw [max_eq_left (sub_nonpos.mpr h), zero_mul]
    · rw [max_eq_left (sub_nonpos.mpr h), mul_zero]
  simp only [onnx_iou]
  rw [hinter]
  simp

theorem suppresses_comm (threshold : ℚ) (a b : Detection) :
    suppresses threshold a b = suppresses threshold b a := by
  unfold suppresses
  rw [onnx_iou_comm a b]
  have : (a.class_id = b.class_id) = (b.class_id = a.class_id) := propext eq_comm
  simp only [this]

/-! ## Properties of the greedy recursion -/

theorem nms_keep_sublist (threshold : ℚ) :
    ∀ (n : Nat) (l : List Detection), l.length ≤ n → (nms_keep threshold l).Sublist l := by
  intro n
  induction n with
  | zero =>
    intro l hl
    have : l = [] := List.length_eq_zero.mp (Nat.le_zero.mp hl)
    subst this
    rw [nms_keep_nil]
  | succ n ih =>
    intro l hl
    cases l with
    | nil => rw [nms_keep_nil]
    | cons d rest =>
      rw [nms_keep_cons]
      have hlen : (rest.filter (fun e => !suppresses threshold d e)).length ≤ n :=
        le_trans (List.length_filter_le _ _) (Nat.le_of_succ_le_succ hl)
      exact ((ih _ hlen).trans (List.filter_sublist _)).cons₂ d

theorem nms_keep_pairwise (threshold : ℚ) :
    ∀ (n : Nat) (l : List Detection), l.length ≤ n →
      (nms_keep threshold l).Pairwise (fun a b => suppresses threshold a b = false) := by
  intro n
  induction n with
  | zero =>
    intro l hl
    have : l = [] := List.length_eq_zero.mp (Nat.le_zero.mp hl)
    subst this
    rw [nms_keep_nil]
    exact List.Pairwise.nil
  | succ n ih =>
    intro l hl
    cases l with
    | nil => rw [nms_keep_nil]; exact List.Pairwise.nil
    | cons d rest =>
      rw [nms_keep_cons]
      have hlen : (rest.filter (fun e => !suppresses threshold d e)).length ≤ n :=
        le_trans (List.length_filter_le _ _) (Nat.le_of_succ_le_succ hl)
      refine List.pairwise_cons.mpr ⟨?_, ih _ hlen⟩
      intro e he
      have hmem := (nms_keep_sublist threshold _ _ (le_refl _)).subset he
      simpa using (List.mem_filter.mp hmem).2

theorem nms_keep_eq_self (threshold : ℚ) :
    ∀ l : List Detection, l.Pairwise (fun a b => suppresses threshold a b = false) →
      nms_keep threshold l = l
  | [], _ => nms_keep_nil threshold
  | d :: rest, h => by
    have hcons := List.pairwise_cons.mp h
    have hfilter : rest.filter (fun e => !suppresses threshold d e) = rest := by
      rw [List.filter_eq_self]
      intro e he
      simp [hcons.1 e he]
    rw [nms_keep_cons, hfilter, nms_keep_eq_self threshold rest hcons.2]

theorem nms_keep_filter_class (threshold : ℚ) (c : Int) :
    ∀ (n : Nat) (l : List Detection), l.length ≤ n →
      (nms_keep threshold l).filter (fun d => decide (d.class_id = c)) =
        nms_keep threshold (l.filter (fun d => decide (d.class_id = c))) := by
  intro n
  induction n with
  | zero =>
    intro l hl
    have : l = [] := List.length_eq_zero.mp (Nat.le_zero.mp hl)
    subst this
    simp [nms_keep_nil]
  | succ n ih =>
    intro l hl
    cases l with
    | nil => simp [nms_keep_nil]
    | cons d rest =>
      have hlen : (rest.filter (fun e => !suppresses threshold d e)).length ≤ n :=
        le_trans (List.length_filter_le _ _) (Nat.le_of_succ_le_succ hl)
      rw [nms_keep_cons]
      by_cases hd : d.class_id = c
      · rw [List.filter_cons_of_pos (by simpa using hd),
          List.filter_cons_of_pos (by simpa using hd), nms_keep_cons, ih _ hlen,
          List.filter_filter, List.filter_filter]
        simp only [Bool.and_comm]
      · rw [List.filter_cons_of_neg (by simpa using hd),
          List.filter_cons_of_neg (by simpa using hd), ih _ hlen, List.filter_filter]
        congr 1
        apply List.filter_congr
        intro e _
        by_cases he : e.class_id = c
        · have hne : ¬ d.class_id = e.class_id := fun h => hd (h.trans he)
          have hsup : suppresses threshold d e = false := by simp [suppresses, hne]
          simp [hsup]
        · simp [he]

theorem nms_keep_dropped (threshold : ℚ) (d : Detection) :
    ∀ (n : Nat) (l : List Detection), l.length ≤ n →
      l.Pairwise (fun a b => ¬ conf_gt b a) →
      (nms_keep threshold l).count d < l.count d →
      ∃ k ∈ nms_keep threshold l,
        k.class_id = d.class_id ∧ k.confidence ≥ d.confidence ∧ onnx_iou k d > threshold := by
  intro n
  induction n with
  | zero =>
    intro l hl _ hcount
    have : l = [] := List.length_eq_zero.mp (Nat.le_zero.mp hl)
    subst this
    simp at hcount
  | succ n ih =>
    intro l hl hsorted hcount
    cases l with
    | nil => simp at hcount
    | cons h rest =>
      have hcons := List.pairwise_cons.mp hsorted
      have hlen : (rest.filter (fun e => !suppresses threshold h e)).length ≤ n :=
        le_trans (List.length_filter_le _ _) (Nat.le_of_succ_le_succ hl)
      rw [nms_keep_cons] at hcount ⊢
      rw [List.count_cons, List.count_cons] at hcount
      have hcount2 : (nms_keep threshold (rest.filter (fun e => !suppresses threshold h e))).count d
          < rest.count d := by omega
      by_cases hf : (rest.filter (fun e => !suppresses threshold h e)).count d < rest.count d
      · -- an occurrence of `d` is removed by the head
        have hdrest : d ∈ rest := by
          apply List.count_pos_iff.mp
          omega
        have hsup : suppresses threshold h d = true := by
          by_contra hns
          have hns0 : suppresses threshold h d = false := by simpa using hns
          rw [List.count_filter (by simp [hns0])] at hf
          exact lt_irrefl _ hf
        unfold suppresses at hsup
        simp only [Bool.and_eq_true, decide_eq_true_eq] at hsup
        refine ⟨h, List.mem_cons_self _ _, hsup.1, ?_, hsup.2⟩
        have := hcons.1 d hdrest
        unfold conf_gt at this
        exact not_lt.mp this
      · have hle : (rest.filter (fun e => !suppresses threshold h e)).count d ≤ rest.count d :=
          (List.filter_sublist rest).count_le d
        have hfs : (rest.filter (fun e => !suppresses threshold h e)).Pairwise
            (fun a b => ¬ conf_gt b a) := hcons.2.sublist (List.filter_sublist rest)
        obtain ⟨k, hk, hprop⟩ := ih _ hlen hfs (by omega)
        exact ⟨k, List.mem_cons_of_mem _ hk, hprop⟩

/-! ## The unit tests, evaluated -/

theorem onnx_nms_dets_diff_class :
    onnx_nms sort_by_confidence dets_diff_class (3/10) = dets_diff_class := by
  norm_num [onnx_nms, sort_by_confidence, insert_by_confidence, conf_gt, nms_outer, nms_inner,
    onnx_iou, make_det, dets_diff_class]

theorem onnx_nms_dets_sorting :
    onnx_nms sort_by_confidence dets_sorting 0 = [make_det 1 (8/10) (1/2) (1/2) (2/10) (2/10)] := by
  norm_num [onnx_nms, sort_by_confidence, insert_by_confidence, conf_gt, nms_outer, nms_inner,
    onnx_iou, make_det, dets_sorting]

/-! ## Claims on `onnx_nms` -/

/-- Claim C1: for every list of detections and every threshold the output of `onnx_nms`
is ordered by non-increasing confidence: for all positions `i < j` of the output,
`output[i].confidence ≥ output[j].confidence`.  This holds for every sorting routine that
meets the postcondition of `std::sort`. -/
theorem onnx_nms_descending (sort : List Detection → List Detection)
    (hs : IsSortByConfidence sort) (l : List Detection) (t : ℚ) (i j : Nat) (hij : i < j)
    (hj : j < (onnx_nms sort l t).length) :
    ((onnx_nms sort l t).get ⟨i, Nat.lt_trans hij hj⟩).confidence ≥
      ((onnx_nms sort l t).get ⟨j, hj⟩).confidence := by
  have hpair : (onnx_nms sort l t).Pairwise (fun a b => ¬ conf_gt b a) := by
    rw [onnx_nms_eq]
    exact (hs l).2.sublist (nms_keep_sublist t _ _ (le_refl _))
  have := List.pairwise_iff_get.mp hpair ⟨i, Nat.lt_trans hij hj⟩ ⟨j, hj⟩ hij
  unfold conf_gt at this
  exact not_lt.mp this

theorem onnx_nms_descending_witness :
    IsSortByConfidence sort_by_confidence ∧
      ∃ hj : 1 < (onnx_nms sort_by_confidence dets_diff_class (3/10)).length,
        ((onnx_nms sort_by_confidence dets_diff_class (3/10)).get
            ⟨0, Nat.lt_trans Nat.zero_lt_one hj⟩).confidence ≥
          ((onnx_nms sort_by_confidence dets_diff_class (3/10)).get ⟨1, hj⟩).confidence :=
  ⟨sort_by_confidence_isSort,
    ⟨by rw [onnx_nms_dets_diff_class]; decide,
      onnx_nms_descending sort_by_confidence sort_by_confidence_isSort dets_diff_class (3/10)
        0 1 Nat.zero_lt_one (by rw [onnx_nms_dets_diff_class]; decide)⟩⟩

/-- Claim C2: for every list `l` and threshold, `onnx_nms l t` is a sub-list of `l` sorted
by descending confidence: it is a sub-sequence of the sorted input and is itself in
descending order, every output detection occurs in `l` with no more occurrences than in
`l`, its length is at most the length of `l`, and `onnx_nms` of the empty list is empty. -/
theorem onnx_nms_sublist (sort : List Detection → List Detection)
    (hs : IsSortByConfidence sort) (l : List Detection) (t : ℚ) :
    (onnx_nms sort l t).Sublist (sort l) ∧
      (onnx_nms sort l t).Pairwise (fun a b => a.confidence ≥ b.confidence) ∧
      (∀ d, (onnx_nms sort l t).count d ≤ l.count d) ∧
      (∀ d ∈ onnx_nms sort l t, d ∈ l) ∧
      (onnx_nms sort l t).length ≤ l.length ∧
      onnx_nms sort [] t = [] := by
  have hsub : (onnx_nms sort l t).Sublist (sort l) := by
    rw [onnx_nms_eq]
    exact nms_keep_sublist t _ _ (le_refl _)
  refine ⟨hsub, ?_, ?_, ?_, ?_, ?_⟩
  · refine ((hs l).2.sublist hsub).imp ?_
    intro a b h
    unfold conf_gt at h
    exact not_lt.mp h
  · intro d
    exact (hsub.count_le d).trans ((hs l).1.count_eq d).le
  · intro d hd
    exact (hs l).1.subset (hsub.subset hd)
  · exact hsub.length_le.trans (hs l).1.length_eq.le
  · rw [onnx_nms_eq, List.Perm.eq_nil (hs []).1, nms_keep_nil]

theorem onnx_nms_sublist_witness :
    IsSortByConfidence sort_by_confidence ∧
      (onnx_nms sort_by_confidence dets_sorting 0).Sublist (sort_by_confidence dets_sorting) ∧
      (onnx_nms sort_by_confidence dets_sorting 0).Pairwise
        (fun a b => a.confidence ≥ b.confidence) ∧
      (∀ d, (onnx_nms sort_by_confidence dets_sorting 0).count d ≤ dets_sorting.count d) ∧
      (∀ d ∈ onnx_nms sort_by_confidence dets_sorting 0, d ∈ dets_sorting) ∧
      (onnx_nms sort_by_confidence dets_sorting 0).length ≤ dets_sorting.length ∧
      onnx_nms sort_by_confidence [] 0 = [] :=
  ⟨sort_by_confidence_isSort,
    onnx_nms_sublist sort_by_confidence sort_by_confidence_isSort dets_sorting 0⟩

/-- Claim C3: `onnx_nms` is idempotent: running it again on its own output with the same
threshold removes nothing; the second output is a rearrangement of the first (the same
detections with the same multiplicities), so both hold the same set of detections. -/
theorem onnx_nms_idempotent (sort : List Detection → List Detection)
    (hs : IsSortByConfidence sort) (l : List Detection) (t : ℚ) :
    (onnx_nms sort (onnx_nms sort l t) t).Perm (onnx_nms sort l t) ∧
      (onnx_nms sort (onnx_nms sort l t) t).length = (onnx_nms sort l t).length ∧
      ∀ d, d ∈ onnx_nms sort (onnx_nms sort l t) t ↔ d ∈ onnx_nms sort l t := by
  have hkeep : (onnx_nms sort l t).Pairwise (fun a b => suppresses t a b = false) := by
    rw [onnx_nms_eq]
    exact nms_keep_pairwise t _ _ (le_refl _)
  have hsorted : (sort (onnx_nms sort l t)).Pairwise (fun a b => suppresses t a b = false) :=
    ((hs (onnx_nms sort l t)).1.pairwise_iff
      (fun {a b} (h : suppresses t a b = false) => by rw [suppresses_comm]; exact h)).mpr hkeep
  have hperm : (onnx_nms sort (onnx_nms sort l t) t).Perm (onnx_nms sort l t) := by
    rw [onnx_nms_eq sort (onnx_nms sort l t), nms_keep_eq_self t _ hsorted]
    exact (hs (onnx_nms sort l t)).1
  exact ⟨hperm, hperm.length_eq, fun d => hperm.mem_iff⟩

theorem onnx_nms_idempotent_witness :
    IsSortByConfidence sort_by_confidence ∧
      (onnx_nms sort_by_confidence (onnx_nms sort_by_confidence dets_sorting 0) 0).Perm
        (onnx_nms sort_by_confidence dets_sorting 0) ∧
      (onnx_nms sort_by_confidence (onnx_nms sort_by_confidence dets_sorting 0) 0).length =
        (onnx_nms sort_by_confidence dets_sorting 0).length ∧
      ∀ d, d ∈ onnx_nms sort_by_confidence (onnx_nms sort_by_confidence dets_sorting 0) 0 ↔
        d ∈ onnx_nms sort_by_confidence dets_sorting 0 :=
  ⟨sort_by_confidence_isSort,
    onnx_nms_idempotent sort_by_confidence sort_by_confidence_isSort dets_sorting 0⟩

/-- Claim C4: class isolation.  For every list with pairwise distinct confidences, every
threshold and every class id `c`, the class-`c` detections of `onnx_nms l t` are exactly
`onnx_nms` of the class-`c` detections of `l`; and a list whose class ids are pairwise
distinct is returned whole (a rearrangement of the input, of the same length), whatever
the overlaps and the confidences. -/
theorem onnx_nms_class_isolation (sort : List Detection → List Detection)
    (hs : IsSortByConfidence sort) (l : List Detection) (t : ℚ) (c : Int) :
    (l.Pairwise (fun a b => a.confidence ≠ b.confidence) →
        (onnx_nms sort l t).filter (fun d => decide (d.class_id = c)) =
          onnx_nms sort (l.filter (fun d => decide (d.class_id = c))) t) ∧
      (l.Pairwise (fun a b => a.class_id ≠ b.class_id) →
        (onnx_nms sort l t).Perm l ∧ (onnx_nms sort l t).length = l.length) := by
  constructor
  · intro hconf
    have hsort : sort (l.filter (fun d => decide (d.class_id = c))) =
        (sort l).filter (fun d => decide (d.class_id = c)) :=
      sort_unique hs (hconf.sublist (List.filter_sublist l)) ((hs l).1.filter _)
        ((sort_strict hs hconf).sublist (List.filter_sublist _))
    rw [onnx_nms_eq, onnx_nms_eq, hsort]
    exact nms_keep_filter_class t c _ _ (le_refl _)
  · intro hclass
    have hsorted : (sort l).Pairwise (fun a b => a.class_id ≠ b.class_id) :=
      ((hs l).1.pairwise_iff (fun {a b} (h : a.class_id ≠ b.class_id) => h.symm)).mpr hclass
    have hkeep : (sort l).Pairwise (fun a b => suppresses t a b = false) := by
      refine hsorted.imp ?_
      intro a b hab
      simp [suppresses, hab]
    have hperm : (onnx_nms sort l t).Perm l := by
      rw [onnx_nms_eq, nms_keep_eq_self t _ hkeep]
      exact (hs l).1
    exact ⟨hperm, hperm.length_eq⟩

theorem onnx_nms_class_isolation_witness :
    IsSortByConfidence sort_by_confidence ∧
      dets_diff_class.Pairwise (fun a b => a.confidence ≠ b.confidence) ∧
      dets_diff_class.Pairwise (fun a b => a.class_id ≠ b.class_id) ∧
      (onnx_nms sort_by_confidence dets_diff_class (3/10)).filter
          (fun d => decide (d.class_id = 1)) =
        onnx_nms sort_by_confidence
          (dets_diff_class.filter (fun d => decide (d.class_id = 1))) (3/10) ∧
      (onnx_nms sort_by_confidence dets_diff_class (3/10)).Perm dets_diff_class ∧
      (onnx_nms sort_by_confidence dets_diff_class (3/10)).length = dets_diff_class.length :=
  ⟨sort_by_confidence_isSort, by norm_num [dets_diff_class, make_det],
    by norm_num [dets_diff_class, make_det],
    (onnx_nms_class_isolation sort_by_confidence sort_by_confidence_isSort dets_diff_class
      (3/10) 1).1 (by norm_num [dets_diff_class, make_det]),
    (onnx_nms_class_isolation sort_by_confidence sort_by_confidence_isSort dets_diff_class
      (3/10) 1).2 (by norm_num [dets_diff_class, make_det])⟩

/-- Claim C5: for two detections `a`, `b` of the same class with
`a.confidence > b.confidence` and `onnx_iou a b > t`, both `onnx_nms [a, b] t` and
`onnx_nms [b, a] t` return exactly one detection, namely `a`. -/
theorem onnx_nms_pair (sort : List Detection → List Detection)
    (hs : IsSortByConfidence sort) (a b : Detection) (t : ℚ)
    (hclass : a.class_id = b.class_id) (hconf : a.confidence > b.confidence)
    (hiou : onnx_iou a b > t) :
    onnx_nms sort [a, b] t = [a] ∧ onnx_nms sort [b, a] t = [a] := by
  have hsorted : [a, b].Pairwise conf_gt := by
    simp [conf_gt, hconf]
  have h1 : sort [a, b] = [a, b] :=
    sort_unique hs (by simp [ne_of_gt hconf]) (List.Perm.refl _) hsorted
  have h2 : sort [b, a] = [a, b] :=
    sort_unique hs (by simp [ne_of_lt hconf]) (List.Perm.swap b a []) hsorted
  have hsup : suppresses t a b = true := by
    simp [suppresses, hclass, hiou]
  have hkeep : nms_keep t [a, b] = [a] := by
    rw [nms_keep_cons]
    simp [hsup, nms_keep_nil]
  rw [onnx_nms_eq, onnx_nms_eq, h1, h2]
  exact ⟨hkeep, hkeep⟩

theorem onnx_nms_pair_witness :
    IsSortByConfidence sort_by_confidence ∧
      (make_det 1 (9/10) (1/2) (1/2) (4/10) (4/10)).class_id =
        (make_det 1 (8/10) (52/100) (52/100) (4/10) (4/10)).class_id ∧
      (make_det 1 (9/10) (1/2) (1/2) (4/10) (4/10)).confidence >
        (make_det 1 (8/10) (52/100) (52/100) (4/10) (4/10)).confidence ∧
      onnx_iou (make_det 1 (9/10) (1/2) (1/2) (4/10) (4/10))
        (make_det 1 (8/10) (52/100) (52/100) (4/10) (4/10)) > 3/10 ∧
      (onnx_nms sort_by_confidence
          [make_det 1 (9/10) (1/2) (1/2) (4/10) (4/10),
           make_det 1 (8/10) (52/100) (52/100) (4/10) (4/10)] (3/10) =
          [make_det 1 (9/10) (1/2) (1/2) (4/10) (4/10)] ∧
        onnx_nms sort_by_confidence
          [make_det 1 (8/10) (52/100) (52/100) (4/10) (4/10),
           make_det 1 (9/10) (1/2) (1/2) (4/10) (4/10)] (3/10) =
          [make_det 1 (9/10) (1/2) (1/2) (4/10) (4/10)]) :=
  ⟨sort_by_confidence_isSort, rfl, by norm_num [make_det], by norm_num [onnx_iou, make_det],
    onnx_nms_pair sort_by_confidence sort_by_confidence_isSort
      (make_det 1 (9/10) (1/2) (1/2) (4/10) (4/10))
      (make_det 1 (8/10) (52/100) (52/100) (4/10) (4/10)) (3/10) rfl
      (by norm_num [make_det]) (by norm_num [onnx_iou, make_det])⟩

/-- Claim C6: suppression is justified and strict.  Whenever `onnx_nms l t` drops an
occurrence of a detection `d` of `l`, the output holds a detection `k` of the same class
with `k.confidence ≥ d.confidence` and `onnx_iou k d` strictly above `t`.  Hence a
detection whose IoU with every other same-class detection of `l` is at most `t` (equal
to the threshold included) is kept. -/
theorem onnx_nms_suppression_justified (sort : List Detection → List Detection)
    (hs : IsSortByConfidence sort) (l : List Detection) (t : ℚ) :
    (∀ d, (onnx_nms sort l t).count d < l.count d →
        ∃ k ∈ onnx_nms sort l t,
          k.class_id = d.class_id ∧ k.confidence ≥ d.confidence ∧ onnx_iou k d > t) ∧
      (∀ (i : Nat) (hi : i < l.length),
        (∀ (j : Nat) (hj : j < l.length), j ≠ i →
          (l.get ⟨j, hj⟩).class_id = (l.get ⟨i, hi⟩).class_id →
          onnx_iou (l.get ⟨j, hj⟩) (l.get ⟨i, hi⟩) ≤ t) →
        l.get ⟨i, hi⟩ ∈ onnx_nms sort l t) := by
  have hdrop : ∀ d, (onnx_nms sort l t).count d < l.count d →
      ∃ k ∈ onnx_nms sort l t,
        k.class_id = d.class_id ∧ k.confidence ≥ d.confidence ∧ onnx_iou k d > t := by
    intro d hd
    rw [onnx_nms_eq] at hd ⊢
    rw [← (hs l).1.count_eq d] at hd
    exact nms_keep_dropped t d _ _ (le_refl _) (hs l).2 hd
  refine ⟨hdrop, ?_⟩
  intro i hi hothers
  by_contra hnot
  have hcount : (onnx_nms sort l t).count (l.get ⟨i, hi⟩) < l.count (l.get ⟨i, hi⟩) := by
    rw [List.count_eq_zero_of_not_mem hnot]
    exact List.count_pos_iff.mpr (List.get_mem l i hi)
  obtain ⟨k, hk, hkclass, _, hkiou⟩ := hdrop _ hcount
  have hkl : k ∈ l := by
    have hsub : (onnx_nms sort l t).Sublist (sort l) := by
      rw [onnx_nms_eq]
      exact nms_keep_sublist t _ _ (le_refl _)
    exact (hs l).1.subset (hsub.subset hk)
  obtain ⟨⟨j, hj⟩, hjk⟩ := List.mem_iff_get.mp hkl
  by_cases hji : j = i
  · subst hji
    exact hnot (hjk ▸ hk)
  · have := hothers j hj hji (hjk ▸ hkclass)
    rw [hjk] at this
    exact absurd hkiou (not_lt.mpr this)

theorem onnx_nms_suppression_justified_witness :
    IsSortByConfidence sort_by_confidence ∧
      (∀ d, (onnx_nms sort_by_confidence dets_same_class (3/10)).count d <
          dets_same_class.count d →
        ∃ k ∈ onnx_nms sort_by_confidence dets_same_class (3/10),
          k.class_id = d.class_id ∧ k.confidence ≥ d.confidence ∧ onnx_iou k d > 3/10) ∧
      (∀ (i : Nat) (hi : i < dets_same_class.length),
        (∀ (j : Nat) (hj : j < dets_same_class.length), j ≠ i →
          (dets_same_class.get ⟨j, hj⟩).class_id = (dets_same_class.get ⟨i, hi⟩).class_id →
          onnx_iou (dets_same_class.get ⟨j, hj⟩) (dets_same_class.get ⟨i, hi⟩) ≤ 3/10) →
        dets_same_class.get ⟨i, hi⟩ ∈ onnx_nms sort_by_confidence dets_same_class (3/10)) :=
  ⟨sort_by_confidence_isSort,
    onnx_nms_suppression_justified sort_by_confidence sort_by_confidence_isSort
      dets_same_class (3/10)⟩

/-- Claim C7: the best detection always survives.  For every non-empty list and every
threshold, `onnx_nms l t` is non-empty and its first element is a detection of `l` whose
confidence is the maximum found in `l`. -/
theorem onnx_nms_best_survives (sort : List Detection → List Detection)
    (hs : IsSortByConfidence sort) (l : List Detection) (t : ℚ) (hne : l ≠ []) :
    ∃ d rest, onnx_nms sort l t = d :: rest ∧ d ∈ l ∧
      ∀ e ∈ l, e.confidence ≤ d.confidence := by
  rw [onnx_nms_eq]
  have hperm := (hs l).1
  have hsorted := (hs l).2
  cases hsl : sort l with
  | nil =>
    rw [hsl] at hperm
    exact absurd (List.Perm.nil_eq hperm).symm hne
  | cons d rest =>
    rw [hsl] at hperm hsorted
    refine ⟨d, _, nms_keep_cons t d rest, hperm.subset (List.mem_cons_self _ _), ?_⟩
    intro e he
    rcases List.mem_cons.mp (hperm.symm.subset he) with hed | her
    · rw [hed]
    · have := (List.pairwise_cons.mp hsorted).1 e her
      unfold conf_gt at this
      exact not_lt.mp this

theorem onnx_nms_best_survives_witness :
    IsSortByConfidence sort_by_confidence ∧ dets_sorting ≠ [] ∧
      onnx_nms sort_by_confidence dets_sorting 0 =
        [make_det 1 (8/10) (1/2) (1/2) (2/10) (2/10)] ∧
      ∃ d rest, onnx_nms sort_by_confidence dets_sorting 0 = d :: rest ∧ d ∈ dets_sorting ∧
        ∀ e ∈ dets_sorting, e.confidence ≤ d.confidence :=
  ⟨sort_by_confidence_isSort, by simp [dets_sorting], onnx_nms_dets_sorting,
    onnx_nms_best_survives sort_by_confidence sort_by_confidence_isSort dets_sorting 0
      (by simp [dets_sorting])⟩

/-! ## Claims on `onnx_iou` -/

/-- In exact arithmetic: two boxes with the same x, y, width and height whose width is 0
have IoU 0, not 1 (the union area is 0 and the guard of the division returns 0). -/
theorem onnx_iou_identical_zero_area :
    (make_det 0 (9/10) (1/2) (1/2) 0 (4/10)).x = (make_det 0 (8/10) (1/2) (1/2) 0 (4/10)).x ∧
      (make_det 0 (9/10) (1/2) (1/2) 0 (4/10)).y = (make_det 0 (8/10) (1/2) (1/2) 0 (4/10)).y ∧
      (make_det 0 (9/10) (1/2) (1/2) 0 (4/10)).width =
        (make_det 0 (8/10) (1/2) (1/2) 0 (4/10)).width ∧
      (make_det 0 (9/10) (1/2) (1/2) 0 (4/10)).height =
        (make_det 0 (8/10) (1/2) (1/2) 0 (4/10)).height ∧
      onnx_iou (make_det 0 (9/10) (1/2) (1/2) 0 (4/10))
        (make_det 0 (8/10) (1/2) (1/2) 0 (4/10)) = 0 ∧
      onnx_iou (make_det 0 (9/10) (1/2) (1/2) 0 (4/10))
        (make_det 0 (8/10) (1/2) (1/2) 0 (4/10)) ≠ 1 := by
  norm_num [onnx_iou, make_det]

/-- In exact arithmetic (no rounding): for two detections with the same x, y, width and
height (class and confidence may differ) whose width and height are strictly positive,
`onnx_iou a b = 1`.  The binary32 result is settled by `onnx_iou_identical_rounded` and
`onnx_iou_identical_exact_corners`. -/
theorem onnx_iou_identical (a b : Detection) (hx : a.x = b.x) (hy : a.y = b.y)
    (hw : a.width = b.width) (hh : a.height = b.height) (hpw : 0 < a.width)
    (hph : 0 < a.height) : onnx_iou a b = 1 := by
  have harea : 0 < a.width * a.height := mul_pos hpw hph
  simp only [onnx_iou]
  rw [← hx, ← hy, ← hw, ← hh, max_self, max_self, min_self, min_self]
  have h1 : a.x + a.width / 2 - (a.x - a.width / 2) = a.width := by ring
  have h2 : a.y + a.height / 2 - (a.y - a.height / 2) = a.height := by ring
  rw [h1, h2, max_eq_right hpw.le, max_eq_right hph.le]
  have h3 : a.width * a.height + a.width * a.height - a.width * a.height =
      a.width * a.height := by ring
  rw [h3, if_pos harea, div_self (ne_of_gt harea)]

theorem onnx_iou_identical_witness :
    (make_det 0 (9/10) (1/2) (1/2) (4/10) (4/10)).x =
        (make_det 0 (8/10) (1/2) (1/2) (4/10) (4/10)).x ∧
      (0 : ℚ) < (make_det 0 (9/10) (1/2) (1/2) (4/10) (4/10)).width ∧
      (0 : ℚ) < (make_det 0 (9/10) (1/2) (1/2) (4/10) (4/10)).height ∧
      onnx_iou (make_det 0 (9/10) (1/2) (1/2) (4/10) (4/10))
        (make_det 0 (8/10) (1/2) (1/2) (4/10) (4/10)) = 1 :=
  ⟨rfl, by norm_num [make_det], by norm_num [make_det],
    onnx_iou_identical (make_det 0 (9/10) (1/2) (1/2) (4/10) (4/10))
      (make_det 0 (8/10) (1/2) (1/2) (4/10) (4/10)) rfl rfl rfl rfl
      (by norm_num [make_det]) (by norm_num [make_det])⟩

/-- Claim C9: a zero-area box against anything has IoU 0: for every detection `a` with
width 0 or height 0 and every detection `b` (any geometry, another zero-area box
included), `onnx_iou a b = 0` and `onnx_iou b a = 0`. -/
theorem onnx_iou_zero_area (a b : Detection) (h : a.width = 0 ∨ a.height = 0) :
    onnx_iou a b = 0 ∧ onnx_iou b a = 0 := by
  have hab : onnx_iou a b = 0 := by
    apply onnx_iou_eq_zero_of_no_overlap
    rcases h with h | h
    · left
      rw [h, zero_div, add_zero, sub_zero]
      exact le_trans (min_le_left _ _) (le_max_left _ _)
    · right
      rw [h, zero_div, add_zero, sub_zero]
      exact le_trans (min_le_left _ _) (le_max_left _ _)
  exact ⟨hab, by rw [onnx_iou_comm]; exact hab⟩

theorem onnx_iou_zero_area_witness :
    ((make_det 0 (9/10) (1/2) (1/2) 0 (4/10)).width = 0 ∨
        (make_det 0 (9/10) (1/2) (1/2) 0 (4/10)).height = 0) ∧
      onnx_iou (make_det 0 (9/10) (1/2) (1/2) 0 (4/10))
        (make_det 0 (8/10) (1/2) (1/2) (4/10) (4/10)) = 0 ∧
      onnx_iou (make_det 0 (8/10) (1/2) (1/2) (4/10) (4/10))
        (make_det 0 (9/10) (1/2) (1/2) 0 (4/10)) = 0 :=
  ⟨Or.inl rfl,
    onnx_iou_zero_area (make_det 0 (9/10) (1/2) (1/2) 0 (4/10))
      (make_det 0 (8/10) (1/2) (1/2) (4/10) (4/10)) (Or.inl rfl)⟩

theorem onnx_iou_eq_areas (a b : Detection) :
    onnx_iou a b =
      if iou_union_area a b > 0 then iou_inter_area a b / iou_union_area a b else 0 := rfl

theorem iou_inter_area_nonneg (a b : Detection) : 0 ≤ iou_inter_area a b :=
  mul_nonneg (le_max_left _ _) (le_max_left _ _)

/-- The intersection area is 0, or it is at most the union area. -/
theorem iou_inter_area_zero_or_le_union (a b : Detection) :
    iou_inter_area a b = 0 ∨ iou_inter_area a b ≤ iou_union_area a b := by
  have hwa : min (a.x + a.width / 2) (b.x + b.width / 2) -
      max (a.x - a.width / 2) (b.x - b.width / 2) ≤ a.width := by
    have h1 := min_le_left (a.x + a.width / 2) (b.x + b.width / 2)
    have h2 := le_max_left (a.x - a.width / 2) (b.x - b.width / 2)
    linarith
  have hwb : min (a.x + a.width / 2) (b.x + b.width / 2) -
      max (a.x - a.width / 2) (b.x - b.width / 2) ≤ b.width := by
    have h1 := min_le_right (a.x + a.width / 2) (b.x + b.width / 2)
    have h2 := le_max_right (a.x - a.width / 2) (b.x - b.width / 2)
    linarith
  have hha : min (a.y + a.height / 2) (b.y + b.height / 2) -
      max (a.y - a.height / 2) (b.y - b.height / 2) ≤ a.height := by
    have h1 := min_le_left (a.y + a.height / 2) (b.y + b.height / 2)
    have h2 := le_max_left (a.y - a.height / 2) (b.y - b.height / 2)
    linarith
  have hhb : min (a.y + a.height / 2) (b.y + b.height / 2) -
      max (a.y - a.height / 2) (b.y - b.height / 2) ≤ b.height := by
    have h1 := min_le_right (a.y + a.height / 2) (b.y + b.height / 2)
    have h2 := le_max_right (a.y - a.height / 2) (b.y - b.height / 2)
    linarith
  by_cases hpos : 0 ≤ a.width ∧ 0 ≤ b.width ∧ 0 ≤ a.height ∧ 0 ≤ b.height
  · right
    obtain ⟨h1, h2, h3, h4⟩ := hpos
    have hWa := max_le h1 hwa
    have hWb := max_le h2 hwb
    have hHa := max_le h3 hha
    have hHb := max_le h4 hhb
    have hW0 := le_max_left (0 : ℚ) (min (a.x + a.width / 2) (b.x + b.width / 2) -
      max (a.x - a.width / 2) (b.x - b.width / 2))
    have hH0 := le_max_left (0 : ℚ) (min (a.y + a.height / 2) (b.y + b.height / 2) -
      max (a.y - a.height / 2) (b.y - b.height / 2))
    have hia : iou_inter_area a b ≤ a.width * a.height := mul_le_mul hWa hHa hH0 h1
    have hib : iou_inter_area a b ≤ b.width * b.height := mul_le_mul hWb hHb hH0 h2
    unfold iou_union_area
    linarith
  · left
    unfold iou_inter_area
    by_cases h1 : 0 ≤ a.width
    · by_cases h2 : 0 ≤ b.width
      · by_cases h3 : 0 ≤ a.height
        · have h4 : b.height < 0 := by
            by_contra h
            exact hpos ⟨h1, h2, h3, not_lt.mp h⟩
          have hH := max_eq_left (le_trans hhb h4.le)
          rw [hH, mul_zero]
        · have hH := max_eq_left (le_trans hha (not_le.mp h3).le)
          rw [hH, mul_zero]
      · have hW := max_eq_left (le_trans hwb (not_le.mp h2).le)
        rw [hW, zero_mul]
    · have hW := max_eq_left (le_trans hwa (not_le.mp h1).le)
      rw [hW, zero_mul]

/-- In exact arithmetic (no rounding) `onnx_iou` is total and bounded.  For every pair of
detections (any rational x, y, width, height, zero or negative extents included) the result is the
quotient `inter_area / union_area` only when the union area is strictly positive, it is
0 when the union area is not positive, and it always lies in `[0, 1]`. -/
theorem onnx_iou_bounded (a b : Detection) :
    (iou_union_area a b > 0 → onnx_iou a b = iou_inter_area a b / iou_union_area a b) ∧
      (¬ iou_union_area a b > 0 → onnx_iou a b = 0) ∧
      0 ≤ onnx_iou a b ∧ onnx_iou a b ≤ 1 := by
  rw [onnx_iou_eq_areas]
  refine ⟨fun h => if_pos h, fun h => if_neg h, ?_, ?_⟩
  · split
    · exact div_nonneg (iou_inter_area_nonneg a b) (le_of_lt ‹_›)
    · exact le_refl _
  · split
    · rename_i hpos
      rcases iou_inter_area_zero_or_le_union a b with h0 | hle
      · rw [h0, zero_div]
        exact zero_le_one
      · exact (div_le_one hpos).mpr hle
    · exact zero_le_one

theorem onnx_iou_bounded_witness :
    iou_union_area (make_det 0 (9/10) (1/2) (1/2) (4/10) (4/10))
        (make_det 0 (8/10) (6/10) (6/10) (4/10) (4/10)) > 0 ∧
      onnx_iou (make_det 0 (9/10) (1/2) (1/2) (4/10) (4/10))
          (make_det 0 (8/10) (6/10) (6/10) (4/10) (4/10)) =
        iou_inter_area (make_det 0 (9/10) (1/2) (1/2) (4/10) (4/10))
            (make_det 0 (8/10) (6/10) (6/10) (4/10) (4/10)) /
          iou_union_area (make_det 0 (9/10) (1/2) (1/2) (4/10) (4/10))
            (make_det 0 (8/10) (6/10) (6/10) (4/10) (4/10)) ∧
      0 ≤ onnx_iou (make_det 0 (9/10) (1/2) (1/2) (4/10) (4/10))
          (make_det 0 (8/10) (6/10) (6/10) (4/10) (4/10)) ∧
      onnx_iou (make_det 0 (9/10) (1/2) (1/2) (4/10) (4/10))
          (make_det 0 (8/10) (6/10) (6/10) (4/10) (4/10)) ≤ 1 :=
  ⟨by norm_num [iou_union_area, iou_inter_area, make_det],
    (onnx_iou_bounded (make_det 0 (9/10) (1/2) (1/2) (4/10) (4/10))
      (make_det 0 (8/10) (6/10) (6/10) (4/10) (4/10))).1
      (by norm_num [iou_union_area, iou_inter_area, make_det]),
    (onnx_iou_bounded (make_det 0 (9/10) (1/2) (1/2) (4/10) (4/10))
      (make_det 0 (8/10) (6/10) (6/10) (4/10) (4/10))).2.2⟩

/-! ## Claims on `preprocess_image_to_buffer` -/

theorem float_to_int_of_nonneg {q : ℚ} (h : 0 ≤ q) : float_to_int q = ⌊q⌋ := by
  unfold float_to_int
  rw [if_pos h]

theorem letterbox_ratio_pos {image_width image_height target_width target_height : Int}
    (hw : 2 ≤ image_width) (hh : 2 ≤ image_height) (htw : 1 ≤ target_width)
    (hth : 1 ≤ target_height) :
    0 < letterbox_ratio image_width image_height target_width target_height := by
  have h1 : (0 : ℚ) < (image_width : ℚ) := by exact_mod_cast (by omega : 0 < image_width)
  have h2 : (0 : ℚ) < (image_height : ℚ) := by exact_mod_cast (by omega : 0 < image_height)
  have h3 : (0 : ℚ) < (target_width : ℚ) := by exact_mod_cast (by omega : 0 < target_width)
  have h4 : (0 : ℚ) < (target_height : ℚ) := by exact_mod_cast (by omega : 0 < target_height)
  exact lt_min (div_pos h3 h1) (div_pos h4 h2)

theorem letterbox_new_width_le {image_width image_height target_width target_height : Int}
    (hw : 2 ≤ image_width) (hh : 2 ≤ image_height) (htw : 1 ≤ target_width)
    (hth : 1 ≤ target_height) :
    0 ≤ letterbox_new_width image_width image_height target_width target_height ∧
      letterbox_new_width image_width image_height target_width target_height ≤
        target_width := by
  have h1 : (0 : ℚ) < (image_width : ℚ) := by exact_mod_cast (by omega : 0 < image_width)
  have hr := letterbox_ratio_pos hw hh htw hth
  have hq : 0 ≤ (image_width : ℚ) *
      letterbox_ratio image_width image_height target_width target_height :=
    mul_nonneg h1.le hr.le
  have hle : (image_width : ℚ) *
      letterbox_ratio image_width image_height target_width target_height ≤
        (target_width : ℚ) := by
    have hmin : letterbox_ratio image_width image_height target_width target_height ≤
        (target_width : ℚ) / (image_width : ℚ) := min_le_left _ _
    calc (image_width : ℚ) *
          letterbox_ratio image_width image_height target_width target_height
        ≤ (image_width : ℚ) * ((target_width : ℚ) / (image_width : ℚ)) :=
          mul_le_mul_of_nonneg_left hmin h1.le
      _ = (target_width : ℚ) := by field_simp
  unfold letterbox_new_width
  rw [float_to_int_of_nonneg hq]
  exact ⟨Int.floor_nonneg.mpr hq, Int.floor_le_iff.mpr (lt_of_le_of_lt hle (by linarith))⟩

theorem letterbox_new_height_le {image_width image_height target_width target_height : Int}
    (hw : 2 ≤ image_width) (hh : 2 ≤ image_height) (htw : 1 ≤ target_width)
    (hth : 1 ≤ target_height) :
    0 ≤ letterbox_new_height image_width image_height target_width target_height ∧
      letterbox_new_height image_width image_height target_width target_height ≤
        target_height := by
  have h2 : (0 : ℚ) < (image_height : ℚ) := by exact_mod_cast (by omega : 0 < image_height)
  have hr := letterbox_ratio_pos hw hh htw hth
  have hq : 0 ≤ (image_height : ℚ) *
      letterbox_ratio image_width image_height target_width target_height :=
    mul_nonneg h2.le hr.le
  have hle : (image_height : ℚ) *
      letterbox_ratio image_width image_height target_width target_height ≤
        (target_height : ℚ) := by
    have hmin : letterbox_ratio image_width image_height target_width target_height ≤
        (target_height : ℚ) / (image_height : ℚ) := min_le_right _ _
    calc (image_height : ℚ) *
          letterbox_ratio image_width image_height target_width target_height
        ≤ (image_height : ℚ) * ((target_height : ℚ) / (image_height : ℚ)) :=
          mul_le_mul_of_nonneg_left hmin h2.le
      _ = (target_height : ℚ) := by field_simp
  unfold letterbox_new_height
  rw [float_to_int_of_nonneg hq]
  exact ⟨Int.floor_nonneg.mpr hq, Int.floor_le_iff.mpr (lt_of_le_of_lt hle (by linarith))⟩

theorem letterbox_touches {image_width image_height target_width target_height : Int}
    (hw : 2 ≤ image_width) (hh : 2 ≤ image_height) :
    letterbox_new_width image_width image_height target_width target_height = target_width ∨
      letterbox_new_height image_width image_height target_width target_height =
        target_height := by
  have h1 : (image_width : ℚ) ≠ 0 := by exact_mod_cast (by omega : image_width ≠ 0)
  have h2 : (image_height : ℚ) ≠ 0 := by exact_mod_cast (by omega : image_height ≠ 0)
  rcases le_total ((target_width : ℚ) / (image_width : ℚ))
      ((target_height : ℚ) / (image_height : ℚ)) with h | h
  · left
    unfold letterbox_new_width letterbox_ratio float_to_int
    rw [min_eq_left h, mul_div_cancel₀ _ h1]
    split <;> simp
  · right
    unfold letterbox_new_height letterbox_ratio float_to_int
    rw [min_eq_right h, mul_div_cancel₀ _ h2]
    split <;> simp

/-- Letterbox geometry in exact arithmetic.  For every image of width and height at least 2 and
every target of width and height at least 1 (the square target `T × T` in particular),
with `ratio = min(tw/W, th/H)`, `new_width = floor(W*ratio)`,
`new_height = floor(H*ratio)`, the pads written by `preprocess_image_to_buffer` are
`(tw - new_width)/2` and `(th - new_height)/2`, both are non-negative,
`new_width ≤ tw`, `new_height ≤ th`, and `new_width = tw` or `new_height = th`. -/
theorem letterbox_geometry (image : Int → Nat) (buf : Int → ℚ)
    (image_width image_height target_width target_height : Int)
    (hw : 2 ≤ image_width) (hh : 2 ≤ image_height) (htw : 1 ≤ target_width)
    (hth : 1 ≤ target_height) :
    (preprocess_image_to_buffer (some image) image_width image_height target_width
        target_height (some buf)).transform =
      ⟨letterbox_ratio image_width image_height target_width target_height,
        letterbox_ratio image_width image_height target_width target_height,
        Int.tdiv (target_width -
          letterbox_new_width image_width image_height target_width target_height) 2,
        Int.tdiv (target_height -
          letterbox_new_height image_width image_height target_width target_height) 2⟩ ∧
      0 ≤ (preprocess_image_to_buffer (some image) image_width image_height target_width
        target_height (some buf)).transform.pad_left ∧
      0 ≤ (preprocess_image_to_buffer (some image) image_width image_height target_width
        target_height (some buf)).transform.pad_top ∧
      letterbox_new_width image_width image_height target_width target_height ≤
        target_width ∧
      letterbox_new_height image_width image_height target_width target_height ≤
        target_height ∧
      (letterbox_new_width image_width image_height target_width target_height =
          target_width ∨
        letterbox_new_height image_width image_height target_width target_height =
          target_height) := by
  have hcond : ¬ (target_width ≤ 0 ∨ target_height ≤ 0 ∨ image_width ≤ 1 ∨ image_height ≤ 1) := by
    omega
  have hnw := letterbox_new_width_le hw hh htw hth
  have hnh := letterbox_new_height_le hw hh htw hth
  have htr : (preprocess_image_to_buffer (some image) image_width image_height target_width
        target_height (some buf)).transform =
      ⟨letterbox_ratio image_width image_height target_width target_height,
        letterbox_ratio image_width image_height target_width target_height,
        Int.tdiv (target_width -
          letterbox_new_width image_width image_height target_width target_height) 2,
        Int.tdiv (target_height -
          letterbox_new_height image_width image_height target_width target_height) 2⟩ := by
    simp only [preprocess_image_to_buffer, if_neg hcond]
  refine ⟨htr, ?_, ?_, hnw.2, hnh.2, letterbox_touches hw hh⟩
  · rw [htr]
    exact Int.tdiv_nonneg (by omega) (by decide)
  · rw [htr]
    exact Int.tdiv_nonneg (by omega) (by decide)

theorem letterbox_geometry_witness :
    (0 : Int) ≤ (preprocess_image_to_buffer (some (fun _ => 0)) 4 2 8 8
        (some (fun _ => 0))).transform.pad_left ∧
      (0 : Int) ≤ (preprocess_image_to_buffer (some (fun _ => 0)) 4 2 8 8
        (some (fun _ => 0))).transform.pad_top ∧
      letterbox_new_width 4 2 8 8 ≤ 8 ∧ letterbox_new_height 4 2 8 8 ≤ 8 ∧
      (letterbox_new_width 4 2 8 8 = 8 ∨ letterbox_new_height 4 2 8 8 = 8) :=
  (letterbox_geometry (fun _ => 0) (fun _ => 0) 4 2 8 8 (by decide) (by decide) (by decide)
    (by decide)).2

/-- Claim C17: degenerate inputs are rejected with a zeroed transform.  Whenever the
image pointer is null, the buffer is null, `target_width ≤ 0`, `target_height ≤ 0`,
`image_width ≤ 1` or `image_height ≤ 1`, `preprocess_image_to_buffer` sets
`scale_x = scale_y = 0` and `pad_left = pad_top = 0`, reads no pixel, writes no cell and
leaves the destination buffer unchanged. -/
theorem preprocess_degenerate (image_data : Option (Int → Nat)) (buffer : Option (Int → ℚ))
    (image_width image_height target_width target_height : Int)
    (h : image_data = none ∨ buffer = none ∨ target_width ≤ 0 ∨ target_height ≤ 0 ∨
      image_width ≤ 1 ∨ image_height ≤ 1) :
    (preprocess_image_to_buffer image_data image_width image_height target_width
        target_height buffer).transform = ⟨0, 0, 0, 0⟩ ∧
      (preprocess_image_to_buffer image_data image_width image_height target_width
        target_height buffer).reads = [] ∧
      (preprocess_image_to_buffer image_data image_width image_height target_width
        target_height buffer).writes = [] ∧
      (preprocess_image_to_buffer image_data image_width image_height target_width
        target_height buffer).buffer = buffer := by
  cases image_data with
  | none => cases buffer <;> simp [preprocess_image_to_buffer]
  | some image =>
    cases buffer with
    | none => simp [preprocess_image_to_buffer]
    | some buf =>
      have hcond : target_width ≤ 0 ∨ target_height ≤ 0 ∨ image_width ≤ 1 ∨ image_height ≤ 1 := by
        rcases h with h | h | h
        · exact absurd h (by simp)
        · exact absurd h (by simp)
        · exact h
      simp only [preprocess_image_to_buffer, if_pos hcond, and_self]

theorem preprocess_degenerate_witness :
    ((1 : Int) ≤ 1) ∧
      (preprocess_image_to_buffer (some (fun _ => 7)) 1 1 8 8 (some (fun _ => 5))).transform =
        ⟨0, 0, 0, 0⟩ ∧
      (preprocess_image_to_buffer (some (fun _ => 7)) 1 1 8 8 (some (fun _ => 5))).reads = [] ∧
      (preprocess_image_to_buffer (some (fun _ => 7)) 1 1 8 8 (some (fun _ => 5))).writes = [] ∧
      (preprocess_image_to_buffer (some (fun _ => 7)) 1 1 8 8 (some (fun _ => 5))).buffer =
        some (fun _ => 5) :=
  ⟨le_refl _, preprocess_degenerate (some (fun _ => 7)) (some (fun _ => 5)) 1 1 8 8
    (Or.inr (Or.inr (Or.inr (Or.inr (Or.inl (le_refl _))))))⟩

/-! ## The class scan and the box loop of `parse_yolov8_output` -/

/-- Invariant of the class scan: the result bounds every score scanned; either nothing
beat the initial best, or the result is the first class that attains the highest
score. -/
theorem best_class_loop_spec (output_data : Int → ℚ) (num_boxes i : Int) :
    ∀ (n : Nat) (c0 : Int) (best : Int × ℚ),
      best.2 ≤ (best_class_loop output_data num_boxes i n c0 best).2 ∧
      (∀ c, c0 ≤ c → c < c0 + n → output_data ((4 + c) * num_boxes + i) ≤
        (best_class_loop output_data num_boxes i n c0 best).2) ∧
      (best_class_loop output_data num_boxes i n c0 best = best ∨
        (c0 ≤ (best_class_loop output_data num_boxes i n c0 best).1 ∧
          (best_class_loop output_data num_boxes i n c0 best).1 < c0 + n ∧
          (best_class_loop output_data num_boxes i n c0 best).2 =
            output_data ((4 + (best_class_loop output_data num_boxes i n c0 best).1) *
              num_boxes + i) ∧
          best.2 < (best_class_loop output_data num_boxes i n c0 best).2 ∧
          ∀ c, c0 ≤ c → c < (best_class_loop output_data num_boxes i n c0 best).1 →
            output_data ((4 + c) * num_boxes + i) <
              (best_class_loop output_data num_boxes i n c0 best).2)) := by
  intro n
  induction n with
  | zero =>
    intro c0 best
    refine ⟨le_refl _, ?_, Or.inl rfl⟩
    intro c h1 h2
    simp only [Nat.cast_zero, add_zero] at h2
    omega
  | succ n ih =>
    intro c0 best
    simp only [best_class_loop]
    obtain ⟨h1, h2, h3⟩ := ih (c0 + 1)
      (if output_data ((4 + c0) * num_boxes + i) > best.2 then
        (c0, output_data ((4 + c0) * num_boxes + i)) else best)
    generalize hr : best_class_loop output_data num_boxes i n (c0 + 1)
      (if output_data ((4 + c0) * num_boxes + i) > best.2 then
        (c0, output_data ((4 + c0) * num_boxes + i)) else best) = r at h1 h2 h3
    by_cases hgt : output_data ((4 + c0) * num_boxes + i) > best.2
    · simp only [if_pos hgt] at h1 h3
      refine ⟨le_trans (le_of_lt hgt) h1, ?_, Or.inr ?_⟩
      · intro c hc1 hc2
        by_cases hc : c = c0
        · rw [hc]; exact h1
        · exact h2 c (by omega) (by push_cast at hc2 ⊢; omega)
      · rcases h3 with h3 | ⟨h3a, h3b, h3c, h3d, h3e⟩
        · rw [h3]
          refine ⟨le_refl _, by push_cast; omega, rfl, hgt, ?_⟩
          intro c hc1 hc2
          simp only at hc2
          omega
        · refine ⟨by omega, by push_cast at h3b ⊢; omega, h3c, lt_trans hgt h3d, ?_⟩
          intro c hc1 hc2
          by_cases hc : c = c0
          · rw [hc]; exact h3d
          · exact h3e c (by omega) hc2
    · simp only [if_neg hgt] at h1 h3
      refine ⟨h1, ?_, ?_⟩
      · intro c hc1 hc2
        by_cases hc : c = c0
        · rw [hc]; exact le_trans (not_lt.mp hgt) h1
        · exact h2 c (by omega) (by push_cast at hc2 ⊢; omega)
      · rcases h3 with h3 | ⟨h3a, h3b, h3c, h3d, h3e⟩
        · exact Or.inl h3
        · refine Or.inr ⟨by omega, by push_cast at h3b ⊢; omega, h3c, h3d, ?_⟩
          intro c hc1 hc2
          by_cases hc : c = c0
          · rw [hc]; exact lt_of_le_of_lt (not_lt.mp hgt) h3d
          · exact h3e c (by omega) hc2

/-- The detection of a box does not depend on the incoming error state. -/
theorem parse_box_fst (output_data : Int → ℚ) (num_boxes num_classes model_type
    num_keypoints : Int) (conf_threshold scale_x scale_y : ℚ)
    (pad_left pad_top image_width image_height : Int) (alloc_ok : Bool) (i : Int)
    (err err2 : ErrorState) :
    (parse_box output_data num_boxes num_classes model_type num_keypoints conf_threshold
        scale_x scale_y pad_left pad_top image_width image_height alloc_ok i err).1 =
      (parse_box output_data num_boxes num_classes model_type num_keypoints conf_threshold
        scale_x scale_y pad_left pad_top image_width image_height alloc_ok i err2).1 := by
  unfold parse_box
  simp only []
  split
  · rfl
  · split
    · split <;> rfl
    · rfl

/-- The box loop collects the detections of the boxes in increasing index order. -/
theorem parse_loop_fst (output_data : Int → ℚ) (num_boxes num_classes model_type
    num_keypoints : Int) (conf_threshold scale_x scale_y : ℚ)
    (pad_left pad_top image_width image_height : Int) (alloc_keypoints : Int → Bool) :
    ∀ (n s : Nat) (acc : List Detection × ErrorState),
      (parse_loop output_data num_boxes num_classes model_type num_keypoints conf_threshold
          scale_x scale_y pad_left pad_top image_width image_height alloc_keypoints n
          (s : Int) acc).1 =
        acc.1 ++ (List.range' s n).filterMap (fun (j : Nat) =>
          (parse_box output_data num_boxes num_classes model_type num_keypoints
            conf_threshold scale_x scale_y pad_left pad_top image_width image_height
            (alloc_keypoints (j : Int)) (j : Int) clear_last_error).1) := by
  intro n
  induction n with
  | zero =>
    intro s acc
    simp [parse_loop]
  | succ n ih =>
    intro s acc
    simp only [parse_loop]
    have hcast : ((s : Int) + 1) = ((s + 1 : Nat) : Int) := by push_cast; rfl
    rw [hcast, ih (s + 1)]
    rw [parse_box_fst output_data num_boxes num_classes model_type num_keypoints
      conf_threshold scale_x scale_y pad_left pad_top image_width image_height
      (alloc_keypoints (s : Int)) (s : Int) acc.2 clear_last_error]
    rw [List.range'_succ, List.filterMap_cons]
    cases (parse_box output_data num_boxes num_classes model_type num_keypoints
      conf_threshold scale_x scale_y pad_left pad_top image_width image_height
      (alloc_keypoints (s : Int)) (s : Int) clear_last_error).1 with
    | none => rfl
    | some det => simp

/-- The vector returned by `parse_yolov8_output`: the detections of the boxes
`0, 1, …, num_boxes - 1`, in this order, without the rejected boxes. -/
theorem parse_yolov8_output_fst (output_data : Int → ℚ) (num_features num_boxes model_type
    num_keypoints : Int) (conf_threshold scale_x scale_y : ℚ)
    (pad_left pad_top image_width image_height : Int) (alloc_keypoints : Int → Bool)
    (err : ErrorState) :
    (parse_yolov8_output output_data num_features num_boxes model_type num_keypoints
        conf_threshold scale_x scale_y pad_left pad_top image_width image_height
        alloc_keypoints err).1 =
      (List.range num_boxes.toNat).filterMap (fun (j : Nat) =>
        (parse_box output_data num_boxes
          (parse_num_classes num_features model_type num_keypoints) model_type num_keypoints
          conf_threshold scale_x scale_y pad_left pad_top image_width image_height
          (alloc_keypoints (j : Int)) (j : Int) clear_last_error).1) := by
  unfold parse_yolov8_output
  have h := parse_loop_fst output_data num_boxes
    (parse_num_classes num_features model_type num_keypoints) model_type num_keypoints
    conf_threshold scale_x scale_y pad_left pad_top image_width image_height alloc_keypoints
    num_boxes.toNat 0 ([], err)
  simp only [Nat.cast_zero, List.nil_append] at h
  rw [h, List.range_eq_range']

/-- A box inside the slice whose body yields a detection contributes it to the output. -/
theorem mem_parse_yolov8_output (output_data : Int → ℚ) (num_features num_boxes model_type
    num_keypoints : Int) (conf_threshold scale_x scale_y : ℚ)
    (pad_left pad_top image_width image_height : Int) (alloc_keypoints : Int → Bool)
    (err err2 : ErrorState) (i : Int) (hi0 : 0 ≤ i) (hi : i < num_boxes) (det : Detection)
    (hbox : (parse_box output_data num_boxes
      (parse_num_classes num_features model_type num_keypoints) model_type num_keypoints
      conf_threshold scale_x scale_y pad_left pad_top image_width image_height
      (alloc_keypoints i) i err2).1 = some det) :
    det ∈ (parse_yolov8_output output_data num_features num_boxes model_type num_keypoints
      conf_threshold scale_x scale_y pad_left pad_top image_width image_height
      alloc_keypoints err).1 := by
  rw [parse_yolov8_output_fst, List.mem_filterMap]
  refine ⟨i.toNat, List.mem_range.mpr (by omega), ?_⟩
  have hcast : ((i.toNat : Nat) : Int) = i := Int.toNat_of_nonneg hi0
  rw [hcast, parse_box_fst _ _ _ _ _ _ _ _ _ _ _ _ _ _ clear_last_error err2]
  exact hbox

theorem parse_num_classes_pos (num_features model_type num_keypoints : Int) :
    1 ≤ parse_num_classes num_features model_type num_keypoints := by
  unfold parse_num_classes
  simp only []
  split <;> omega

/-- The fields of the detection that the body of the box loop builds. -/
theorem parse_box_some (output_data : Int → ℚ) (num_boxes num_classes model_type
    num_keypoints : Int) (conf_threshold scale_x scale_y : ℚ)
    (pad_left pad_top image_width image_height : Int) (alloc_ok : Bool) (i : Int)
    (err : ErrorState) (det : Detection)
    (hbox : (parse_box output_data num_boxes num_classes model_type num_keypoints
      conf_threshold scale_x scale_y pad_left pad_top image_width image_height alloc_ok i
      err).1 = some det) :
    ¬ (best_class_loop output_data num_boxes i num_classes.toNat 0 (0, 0)).2 < conf_threshold ∧
      det.class_id = (best_class_loop output_data num_boxes i num_classes.toNat 0 (0, 0)).1 ∧
      det.confidence = (best_class_loop output_data num_boxes i num_classes.toNat 0 (0, 0)).2 ∧
      det.x = (output_data (0 * num_boxes + i) - (pad_left : ℚ)) / scale_x / (image_width : ℚ) ∧
      det.y = (output_data (1 * num_boxes + i) - (pad_top : ℚ)) / scale_y / (image_height : ℚ) ∧
      det.width = output_data (2 * num_boxes + i) / scale_x / (image_width : ℚ) ∧
      det.height = output_data (3 * num_boxes + i) / scale_y / (image_height : ℚ) := by
  unfold parse_box at hbox
  simp only [] at hbox
  split at hbox
  · exact absurd hbox (by simp)
  · rename_i hpass
    split at hbox
    · split at hbox
      · simp only [Option.some.injEq] at hbox
        subst hbox
        exact ⟨hpass, rfl, rfl, rfl, rfl, rfl, rfl⟩
      · simp only [Option.some.injEq] at hbox
        subst hbox
        exact ⟨hpass, rfl, rfl, rfl, rfl, rfl, rfl⟩
    · simp only [Option.some.injEq] at hbox
      subst hbox
      exact ⟨hpass, rfl, rfl, rfl, rfl, rfl, rfl⟩

/-- A box yields a detection exactly when its best score is not below the threshold. -/
theorem parse_box_isSome (output_data : Int → ℚ) (num_boxes num_classes model_type
    num_keypoints : Int) (conf_threshold scale_x scale_y : ℚ)
    (pad_left pad_top image_width image_height : Int) (alloc_ok : Bool) (i : Int)
    (err : ErrorState) :
    (parse_box output_data num_boxes num_classes model_type num_keypoints
      conf_threshold scale_x scale_y pad_left pad_top image_width image_height alloc_ok i
      err).1.isSome = true ↔
    ¬ (best_class_loop output_data num_boxes i num_classes.toNat 0 (0, 0)).2 <
      conf_threshold := by
  unfold parse_box
  simp only []
  split
  · rename_i h
    constructor
    · intro hs
      simp only [Option.isSome_none, Bool.false_eq_true] at hs
    · intro hn
      exact absurd h hn
  · rename_i h
    split
    · split
      · exact ⟨fun _ => h, fun _ => rfl⟩
      · exact ⟨fun _ => h, fun _ => rfl⟩
    · exact ⟨fun _ => h, fun _ => rfl⟩

/-! ## Claims on `parse_yolov8_output` -/

/-- In exact arithmetic decoding is the exact inverse of the letterbox forward mapping.  For a
transform with `scale_x = scale_y = scale > 0`, pads `pad_left`, `pad_top`, image size
`W, H > 0` and a normalized box `(xn, yn, wn, hn)`, when box `i` of the slice holds
`cx = xn*W*scale + pad_left`, `cy = yn*H*scale + pad_top`, `w = wn*W*scale`,
`h = hn*H*scale` and passes the confidence threshold, the detection that
`parse_yolov8_output` emits for it has `x = xn`, `y = yn`, `width = wn`, `height = hn`
(exactly, over the rationals). -/
theorem decode_inverts_letterbox (output_data : Int → ℚ) (num_features num_boxes model_type
    num_keypoints : Int) (conf_threshold scale : ℚ)
    (pad_left pad_top image_width image_height : Int) (alloc_keypoints : Int → Bool)
    (err : ErrorState) (i : Int) (xn yn wn hn : ℚ) (det : Detection)
    (hscale : 0 < scale) (hW : 0 < image_width) (hH : 0 < image_height)
    (hi0 : 0 ≤ i) (hi : i < num_boxes)
    (hcx : output_data (0 * num_boxes + i) = xn * (image_width : ℚ) * scale + (pad_left : ℚ))
    (hcy : output_data (1 * num_boxes + i) = yn * (image_height : ℚ) * scale + (pad_top : ℚ))
    (hw : output_data (2 * num_boxes + i) = wn * (image_width : ℚ) * scale)
    (hh : output_data (3 * num_boxes + i) = hn * (image_height : ℚ) * scale)
    (hbox : (parse_box output_data num_boxes
      (parse_num_classes num_features model_type num_keypoints) model_type num_keypoints
      conf_threshold scale scale pad_left pad_top image_width image_height
      (alloc_keypoints i) i err).1 = some det) :
    det ∈ (parse_yolov8_output output_data num_features num_boxes model_type num_keypoints
        conf_threshold scale scale pad_left pad_top image_width image_height
        alloc_keypoints err).1 ∧
      det.x = xn ∧ det.y = yn ∧ det.width = wn ∧ det.height = hn := by
  have hmem := mem_parse_yolov8_output output_data num_features num_boxes model_type
    num_keypoints conf_threshold scale scale pad_left pad_top image_width image_height
    alloc_keypoints err err i hi0 hi det hbox
  obtain ⟨_, _, _, hx, hy, hwd, hht⟩ := parse_box_some _ _ _ _ _ _ _ _ _ _ _ _ _ _ _ det hbox
  have hW0 : (image_width : ℚ) ≠ 0 := by exact_mod_cast (ne_of_gt hW)
  have hH0 : (image_height : ℚ) ≠ 0 := by exact_mod_cast (ne_of_gt hH)
  have hs0 : scale ≠ 0 := ne_of_gt hscale
  refine ⟨hmem, ?_, ?_, ?_, ?_⟩
  · rw [hx, hcx]; field_simp
  · rw [hy, hcy]; field_simp
  · rw [hwd, hw]; field_simp
  · rw [hht, hh]; field_simp

/-- The keypoint loop fills the triples `k0, …, k0 + n - 1` of the buffer and leaves the
cells in front of them as they were. -/
theorem keypoint_loop_spec (output_data : Int → ℚ) (num_boxes i kpt_start : Int)
    (scale_x scale_y : ℚ) (pad_left pad_top image_width image_height : Int) :
    ∀ (n k0 : Nat) (kps : List ℚ),
      (keypoint_loop output_data num_boxes i kpt_start scale_x scale_y pad_left pad_top
          image_width image_height n (k0 : Int) kps).length = kps.length ∧
      (∀ m : Nat, m < 3 * k0 →
        (keypoint_loop output_data num_boxes i kpt_start scale_x scale_y pad_left pad_top
          image_width image_height n (k0 : Int) kps)[m]? = kps[m]?) ∧
      (∀ k : Nat, k0 ≤ k → k < k0 + n → 3 * k + 2 < kps.length →
        (keypoint_loop output_data num_boxes i kpt_start scale_x scale_y pad_left pad_top
            image_width image_height n (k0 : Int) kps)[3 * k]? =
          some ((output_data ((kpt_start + (k : Int) * 3 + 0) * num_boxes + i) -
            (pad_left : ℚ)) / scale_x / (image_width : ℚ)) ∧
        (keypoint_loop output_data num_boxes i kpt_start scale_x scale_y pad_left pad_top
            image_width image_height n (k0 : Int) kps)[3 * k + 1]? =
          some ((output_data ((kpt_start + (k : Int) * 3 + 1) * num_boxes + i) -
            (pad_top : ℚ)) / scale_y / (image_height : ℚ)) ∧
        (keypoint_loop output_data num_boxes i kpt_start scale_x scale_y pad_left pad_top
            image_width image_height n (k0 : Int) kps)[3 * k + 2]? =
          some (output_data ((kpt_start + (k : Int) * 3 + 2) * num_boxes + i))) := by
  intro n
  induction n with
  | zero =>
    intro k0 kps
    refine ⟨rfl, fun _ _ => rfl, ?_⟩
    intro k h1 h2
    omega
  | succ n ih =>
    intro k0 kps
    simp only [keypoint_loop]
    have e0 : ((k0 : Int) * 3 + 0).toNat = 3 * k0 := by omega
    have e1 : ((k0 : Int) * 3 + 1).toNat = 3 * k0 + 1 := by omega
    have e2 : ((k0 : Int) * 3 + 2).toNat = 3 * k0 + 2 := by omega
    have hcast : ((k0 : Int) + 1) = ((k0 + 1 : Nat) : Int) := by push_cast; rfl
    rw [e0, e1, e2, hcast]
    obtain ⟨hlen, hfront, htriples⟩ := ih (k0 + 1)
      (((kps.set (3 * k0) ((output_data ((kpt_start + (k0 : Int) * 3 + 0) * num_boxes + i) -
          (pad_left : ℚ)) / scale_x / (image_width : ℚ))).set (3 * k0 + 1)
        ((output_data ((kpt_start + (k0 : Int) * 3 + 1) * num_boxes + i) -
          (pad_top : ℚ)) / scale_y / (image_height : ℚ))).set (3 * k0 + 2)
        (output_data ((kpt_start + (k0 : Int) * 3 + 2) * num_boxes + i)))
    refine ⟨?_, ?_, ?_⟩
    · rw [hlen]
      simp only [List.length_set]
    · intro m hm
      rw [hfront m (by omega)]
      simp only [List.getElem?_set, List.length_set]
      split_ifs <;> first | rfl | (exfalso; omega)
    · intro k hk1 hk2 hk3
      by_cases hk : k = k0
      · subst hk
        rw [hfront (3 * k) (by omega), hfront (3 * k + 1) (by omega),
          hfront (3 * k + 2) (by omega)]
        simp only [List.getElem?_set, List.length_set]
        refine ⟨?_, ?_, ?_⟩
        · split_ifs <;> first | rfl | (exfalso; omega)
        · split_ifs <;> first | rfl | (exfalso; omega)
        · split_ifs <;> rfl
      · exact htriples k (by omega) (by omega) (by simpa only [List.length_set] using hk3)

/-! ## The test slices, decoded -/

theorem parse_box_slice_one_box (err : ErrorState) :
    (parse_box slice_one_box 1 (parse_num_classes 5 MODEL_TYPE_YOLO 0) MODEL_TYPE_YOLO 0
      (1/2) 2 2 0 2 4 2 true 0 err).1 = some det_one_box := by
  norm_num [parse_box, parse_num_classes, best_class_loop, slice_one_box, det_one_box,
    make_det, MODEL_TYPE_YOLO, MODEL_TYPE_YOLO_POSE]

theorem parse_box_slice_one_pose (err : ErrorState) :
    (parse_box slice_one_pose 1 (parse_num_classes 8 MODEL_TYPE_YOLO_POSE 1)
      MODEL_TYPE_YOLO_POSE 1 (1/2) 2 2 0 2 4 2 true 0 err).1 = some det_one_pose := by
  norm_num [parse_box, parse_num_classes, best_class_loop, keypoint_loop, slice_one_pose,
    det_one_pose, MODEL_TYPE_YOLO_POSE, List.replicate, show Int.toNat 2 = 2 from rfl]

theorem decode_inverts_letterbox_witness :
    slice_one_box (0 * 1 + 0) = (1/2 : ℚ) * ((4 : Int) : ℚ) * 2 + ((0 : Int) : ℚ) ∧
      det_one_box ∈ (parse_yolov8_output slice_one_box 5 1 MODEL_TYPE_YOLO 0 (1/2) 2 2 0 2
        4 2 (fun _ => true) clear_last_error).1 ∧
      det_one_box.x = 1/2 ∧ det_one_box.y = 1/2 ∧ det_one_box.width = 1/4 ∧
      det_one_box.height = 1/2 :=
  ⟨by norm_num [slice_one_box],
    decode_inverts_letterbox slice_one_box 5 1 MODEL_TYPE_YOLO 0 (1/2) 2 0 2 4 2
      (fun _ => true) clear_last_error 0 (1/2) (1/2) (1/4) (1/2) det_one_box
      (by norm_num) (by decide) (by decide) (le_refl _) (by decide)
      (by norm_num [slice_one_box]) (by norm_num [slice_one_box])
      (by norm_num [slice_one_box]) (by norm_num [slice_one_box])
      (parse_box_slice_one_box clear_last_error)⟩

/-- The keypoint fields of the detection that the body of the box loop builds. -/
theorem parse_box_keypoints (output_data : Int → ℚ) (num_boxes num_classes model_type
    num_keypoints : Int) (conf_threshold scale_x scale_y : ℚ)
    (pad_left pad_top image_width image_height : Int) (alloc_ok : Bool) (i : Int)
    (err : ErrorState) (det : Detection)
    (hbox : (parse_box output_data num_boxes num_classes model_type num_keypoints
      conf_threshold scale_x scale_y pad_left pad_top image_width image_height alloc_ok i
      err).1 = some det) :
    (model_type = MODEL_TYPE_YOLO_POSE ∧ num_keypoints > 0 → alloc_ok = true →
        det.num_keypoints = num_keypoints ∧
        det.keypoints = some (keypoint_loop output_data num_boxes i (4 + num_classes)
          scale_x scale_y pad_left pad_top image_width image_height num_keypoints.toNat 0
          (List.replicate (num_keypoints * 3).toNat 0))) ∧
      (¬ (model_type = MODEL_TYPE_YOLO_POSE ∧ num_keypoints > 0) →
        det.num_keypoints = 0 ∧ det.keypoints = none) := by
  unfold parse_box at hbox
  simp only [] at hbox
  split at hbox
  · exact absurd hbox (by simp)
  · split at hbox
    · rename_i hpose
      split at hbox
      · simp only [Option.some.injEq] at hbox
        subst hbox
        exact ⟨fun _ _ => ⟨rfl, rfl⟩, fun h => absurd hpose h⟩
      · rename_i halloc
        simp only [Option.some.injEq] at hbox
        subst hbox
        exact ⟨fun _ h => absurd h halloc, fun h => absurd hpose h⟩
    · rename_i hpose
      simp only [Option.some.injEq] at hbox
      subst hbox
      exact ⟨fun h => absurd h hpose, fun _ => ⟨rfl, rfl⟩⟩

/-- The keypoint buffer of the detection that the body of the box loop builds for box
`i`: `3 * K` cells, triple `k` decoded from rows `4+num_classes+3k`, `+3k+1`, `+3k+2`. -/
theorem parse_box_keypoint_triples_aux (output_data : Int → ℚ) (num_features num_boxes
    model_type num_keypoints : Int) (conf_threshold scale_x scale_y : ℚ)
    (pad_left pad_top image_width image_height : Int) (alloc_ok : Bool) (i : Int)
    (err : ErrorState) (det : Detection)
    (hbox : (parse_box output_data num_boxes
      (parse_num_classes num_features model_type num_keypoints) model_type num_keypoints
      conf_threshold scale_x scale_y pad_left pad_top image_width image_height alloc_ok i
      err).1 = some det) :
    (model_type = MODEL_TYPE_YOLO_POSE ∧ num_keypoints > 0 → alloc_ok = true →
        det.num_keypoints = num_keypoints ∧
        ∃ kps, det.keypoints = some kps ∧ (kps.length : Int) = 3 * num_keypoints ∧
          ∀ k : Nat, (k : Int) < num_keypoints →
            kps[3 * k]? = some ((output_data
              ((4 + parse_num_classes num_features model_type num_keypoints + (k : Int) * 3 + 0) *
                num_boxes + i) - (pad_left : ℚ)) / scale_x / (image_width : ℚ)) ∧
            kps[3 * k + 1]? = some ((output_data
              ((4 + parse_num_classes num_features model_type num_keypoints + (k : Int) * 3 + 1) *
                num_boxes + i) - (pad_top : ℚ)) / scale_y / (image_height : ℚ)) ∧
            kps[3 * k + 2]? = some (output_data
              ((4 + parse_num_classes num_features model_type num_keypoints + (k : Int) * 3 + 2) *
                num_boxes + i))) ∧
      (¬ (model_type = MODEL_TYPE_YOLO_POSE ∧ num_keypoints > 0) →
        det.num_keypoints = 0 ∧ det.keypoints = none) := by
  obtain ⟨hpose, hplain⟩ := parse_box_keypoints _ _ _ _ _ _ _ _ _ _ _ _ _ _ _ det hbox
  refine ⟨?_, hplain⟩
  intro hp halloc
  obtain ⟨hnum, hkps⟩ := hpose hp halloc
  obtain ⟨hlen, _, htriples⟩ := keypoint_loop_spec output_data num_boxes i
    (4 + parse_num_classes num_features model_type num_keypoints) scale_x scale_y pad_left
    pad_top image_width image_height num_keypoints.toNat 0
    (List.replicate (num_keypoints * 3).toNat 0)
  simp only [Nat.cast_zero] at hlen htriples
  refine ⟨hnum, _, hkps, ?_, ?_⟩
  · rw [hlen, List.length_replicate]
    omega
  · intro k hk
    exact htriples k (Nat.zero_le _) (by omega) (by rw [List.length_replicate]; omega)

/-- Every error that ends the preprocessing loop is an invalid-argument error. -/
theorem batch_preprocess_loop_error (image_data_list : Int → Option (Int → Nat))
    (image_widths image_heights : Int → Int) (w h image_size : Int) (err : ErrorState) :
    ∀ (n : Nat) (i0 : Int) (st : (Int → ℚ) × List Transform) (e : ErrorState),
      batch_preprocess_loop image_data_list image_widths image_heights w h image_size err
        n i0 st = Except.error e →
      e.code = ONNX_ERROR_INVALID_ARGUMENT := by
  intro n
  induction n with
  | zero =>
    intro i0 st e h
    simp [batch_preprocess_loop] at h
  | succ n ih =>
    intro i0 st e h
    simp only [batch_preprocess_loop] at h
    split at h
    · simp only [Except.error.injEq] at h
      rw [← h]
      rfl
    · split at h
      · rename_i hv
        simp only [Except.error.injEq] at h
        rw [← h]
        unfold validate_image_dimensions at hv ⊢
        split
        · rfl
        · rename_i hc
          rw [if_neg hc] at hv
          exact absurd hv (by simp)
      · exact ih _ _ e h

/-- An invalid image in the range of the preprocessing loop ends it with an error. -/
theorem batch_preprocess_loop_invalid (image_data_list : Int → Option (Int → Nat))
    (image_widths image_heights : Int → Int) (w h image_size : Int) (err : ErrorState) :
    ∀ (n : Nat) (i0 : Int) (st : (Int → ℚ) × List Transform),
      (∃ i, i0 ≤ i ∧ i < i0 + n ∧
        (image_data_list i = none ∨ image_widths i ≤ 1 ∨ image_heights i ≤ 1)) →
      ∃ e, batch_preprocess_loop image_data_list image_widths image_heights w h image_size
        err n i0 st = Except.error e := by
  intro n
  induction n with
  | zero =>
    intro i0 st hbad
    obtain ⟨i, h1, h2, _⟩ := hbad
    simp only [Nat.cast_zero, add_zero] at h2
    omega
  | succ n ih =>
    intro i0 st hbad
    obtain ⟨i, h1, h2, h3⟩ := hbad
    simp only [batch_preprocess_loop]
    split
    · exact ⟨_, rfl⟩
    · rename_i image himg
      split
      · exact ⟨_, rfl⟩
      · rename_i hv
        apply ih
        by_cases hi : i = i0
        · subst hi
          exfalso
          rcases h3 with h3 | h3
          · rw [himg] at h3
            exact absurd h3 (by simp)
          · apply hv
            unfold validate_image_dimensions
            rw [if_pos h3]
        · exact ⟨i, by omega, by push_cast at h2 ⊢; omega, h3⟩

/-- With an invalid image in the batch, `onnx_detect_batch` ends at the allocation of the
input buffer or in the preprocessing loop. -/
theorem onnx_detect_batch_invalid_image_aux (ort : OrtApi) (alloc : Allocator)
    (sort : List Detection → List Detection) (model : OnnxModel)
    (images : Int → Option (Int → Nat)) (num_images : Int) (widths heights : Int → Int)
    (conf_threshold nms_threshold : ℚ) (model_type num_keypoints : Int)
    (hN : 1 ≤ num_images)
    (hbad : ∃ i, 0 ≤ i ∧ i < num_images ∧
      (images i = none ∨ widths i ≤ 1 ∨ heights i ≤ 1)) :
    ∃ e, e.code = ONNX_ERROR_INVALID_ARGUMENT ∧
      onnx_detect_batch ort alloc sort (some model) (some images) num_images (some widths)
        (some heights) conf_threshold nms_threshold model_type num_keypoints =
        if alloc.input_buffer = false then
          { result := none,
            error := set_last_error ONNX_ERROR_ALLOCATION_FAILED "分配输入缓冲区失败",
            run_calls := 0 }
        else { result := none, error := e, run_calls := 0 } := by
  have hpos : ¬ num_images ≤ 0 := by omega
  obtain ⟨e, he⟩ := batch_preprocess_loop_invalid images widths heights model.input_width
    model.input_height (3 * model.input_width * model.input_height) clear_last_error
    num_images.toNat 0
    (fun _ => 0, List.replicate num_images.toNat ⟨0, 0, 0, 0⟩)
    (by
      obtain ⟨i, h1, h2, h3⟩ := hbad
      exact ⟨i, h1, by omega, h3⟩)
  refine ⟨e, batch_preprocess_loop_error _ _ _ _ _ _ _ _ _ _ e he, ?_⟩
  unfold onnx_detect_batch
  simp only [if_neg hpos]
  rw [he]

/-- The first guard of `onnx_detect_batch` is silent whatever the other arguments. -/
theorem onnx_detect_batch_first_guard (ort : OrtApi) (alloc : Allocator)
    (sort : List Detection → List Detection) (handle : Option OnnxModel)
    (image_data_list : Option (Int → Option (Int → Nat))) (num_images : Int)
    (image_widths image_heights : Option (Int → Int)) (conf_threshold nms_threshold : ℚ)
    (model_type num_keypoints : Int)
    (h : handle = none ∨ image_data_list = none ∨ num_images ≤ 0) :
    (onnx_detect_batch ort alloc sort handle image_data_list num_images image_widths
        image_heights conf_threshold nms_threshold model_type num_keypoints).result = none ∧
      (onnx_detect_batch ort alloc sort handle image_data_list num_images image_widths
        image_heights conf_threshold nms_threshold model_type num_keypoints).error =
        clear_last_error := by
  unfold onnx_detect_batch
  cases handle with
  | none => exact ⟨rfl, rfl⟩
  | some model =>
    cases image_data_list with
    | none => exact ⟨rfl, rfl⟩
    | some images =>
      have hN : num_images ≤ 0 := by
        rcases h with h | h | h
        · exact absurd h (by simp)
        · exact absurd h (by simp)
        · exact h
      simp only [if_pos hN, and_self]

/-- Claim C19 fails on the code: with a null handle, with a null image list, and with
`num_images ≤ 0`, `onnx_detect_batch` returns the null sentinel and leaves the error code
`ONNX_OK` and an empty message. -/
theorem onnx_detect_batch_silent_failure :
    ((onnx_detect_batch ort_one_box alloc_all sort_by_confidence none
          (some (fun _ => some (fun _ => 0))) 1 (some (fun _ => 4)) (some (fun _ => 2))
          (1/2) (3/10) MODEL_TYPE_YOLO 0).result = none ∧
        (onnx_detect_batch ort_one_box alloc_all sort_by_confidence none
          (some (fun _ => some (fun _ => 0))) 1 (some (fun _ => 4)) (some (fun _ => 2))
          (1/2) (3/10) MODEL_TYPE_YOLO 0).error = { code := 0, message := "" }) ∧
      ((onnx_detect_batch ort_one_box alloc_all sort_by_confidence (some model_8x8)
          none 1 (some (fun _ => 4)) (some (fun _ => 2))
          (1/2) (3/10) MODEL_TYPE_YOLO 0).result = none ∧
        (onnx_detect_batch ort_one_box alloc_all sort_by_confidence (some model_8x8)
          none 1 (some (fun _ => 4)) (some (fun _ => 2))
          (1/2) (3/10) MODEL_TYPE_YOLO 0).error = { code := 0, message := "" }) ∧
      ((onnx_detect_batch ort_one_box alloc_all sort_by_confidence (some model_8x8)
          (some (fun _ => some (fun _ => 0))) 0 (some (fun _ => 4)) (some (fun _ => 2))
          (1/2) (3/10) MODEL_TYPE_YOLO 0).result = none ∧
        (onnx_detect_batch ort_one_box alloc_all sort_by_confidence (some model_8x8)
          (some (fun _ => some (fun _ => 0))) 0 (some (fun _ => 4)) (some (fun _ => 2))
          (1/2) (3/10) MODEL_TYPE_YOLO 0).error = { code := 0, message := "" }) := by
  have hclear : clear_last_error = { code := 0, message := "" } := rfl
  have h1 := onnx_detect_batch_first_guard ort_one_box alloc_all sort_by_confidence none
    (some (fun _ => some (fun _ => 0))) 1 (some (fun _ => 4)) (some (fun _ => 2))
    (1/2) (3/10) MODEL_TYPE_YOLO 0 (Or.inl rfl)
  have h2 := onnx_detect_batch_first_guard ort_one_box alloc_all sort_by_confidence
    (some model_8x8) none 1 (some (fun _ => 4)) (some (fun _ => 2))
    (1/2) (3/10) MODEL_TYPE_YOLO 0 (Or.inr (Or.inl rfl))
  have h3 := onnx_detect_batch_first_guard ort_one_box alloc_all sort_by_confidence
    (some model_8x8) (some (fun _ => some (fun _ => 0))) 0 (some (fun _ => 4))
    (some (fun _ => 2)) (1/2) (3/10) MODEL_TYPE_YOLO 0 (Or.inr (Or.inr (le_refl _)))
  rw [hclear] at h1 h2 h3
  exact ⟨h1, h2, h3⟩

theorem handle_status_code (status : Option String) (context : String) (err : ErrorState)
    (h : (handle_status status context err).1 = false) :
    (handle_status status context err).2.code = ONNX_ERROR_RUNTIME_FAILURE := by
  unfold handle_status at h ⊢
  cases status with
  | none => simp at h
  | some msg => rfl

/-- Behind the first guard every null return of `onnx_detect_batch` sets a non-zero
error code: invalid argument, allocation failure or runtime failure. -/
theorem onnx_detect_batch_null_reported (ort : OrtApi) (alloc : Allocator)
    (sort : List Detection → List Detection) (model : OnnxModel)
    (images : Int → Option (Int → Nat)) (num_images : Int)
    (image_widths image_heights : Option (Int → Int)) (conf_threshold nms_threshold : ℚ)
    (model_type num_keypoints : Int) (hN : 0 < num_images)
    (hnull : (onnx_detect_batch ort alloc sort (some model) (some images) num_images
      image_widths image_heights conf_threshold nms_threshold model_type
      num_keypoints).result = none) :
    (onnx_detect_batch ort alloc sort (some model) (some images) num_images
        image_widths image_heights conf_threshold nms_threshold model_type
        num_keypoints).error.code = ONNX_ERROR_INVALID_ARGUMENT ∨
      (onnx_detect_batch ort alloc sort (some model) (some images) num_images
        image_widths image_heights conf_threshold nms_threshold model_type
        num_keypoints).error.code = ONNX_ERROR_ALLOCATION_FAILED ∨
      (onnx_detect_batch ort alloc sort (some model) (some images) num_images
        image_widths image_heights conf_threshold nms_threshold model_type
        num_keypoints).error.code = ONNX_ERROR_RUNTIME_FAILURE := by
  have hpos : ¬ num_images ≤ 0 := by omega
  revert hnull
  unfold onnx_detect_batch
  simp only [if_neg hpos]
  rcases image_widths with _ | widths
  · intro _; exact Or.inl rfl
  rcases image_heights with _ | heights
  · intro _; exact Or.inl rfl
  simp only []
  cases alloc.input_buffer with
  | false => intro _; exact Or.inr (Or.inl rfl)
  | true =>
    simp only [Bool.true_eq_false, if_false]
    cases hloop : batch_preprocess_loop images widths heights model.input_width
        model.input_height (3 * model.input_width * model.input_height) clear_last_error
        num_images.toNat 0
        (fun _ => 0, List.replicate num_images.toNat ⟨0, 0, 0, 0⟩) with
    | error e =>
      intro _
      exact Or.inl (batch_preprocess_loop_error _ _ _ _ _ _ _ _ _ _ e hloop)
    | ok st =>
      obtain ⟨input_data, transforms⟩ := st
      simp only []
      generalize ort model input_data [num_images, 3, model.input_height, model.input_width] = c
      obtain ⟨s1, s2, s3, s4, s5, s6, od, dims⟩ := c
      rcases s1 with _ | m1
      swap
      · intro _; exact Or.inr (Or.inr rfl)
      rcases s2 with _ | m2
      swap
      · intro _; exact Or.inr (Or.inr rfl)
      rcases s3 with _ | m3
      swap
      · intro _; exact Or.inr (Or.inr rfl)
      rcases s4 with _ | m4
      swap
      · intro _; exact Or.inr (Or.inr rfl)
      rcases s5 with _ | m5
      swap
      · intro _; exact Or.inr (Or.inr rfl)
      simp only [handle_status, Bool.true_eq_false, if_false]
      cases alloc.batch_result with
      | false => intro _; exact Or.inr (Or.inl rfl)
      | true =>
        cases alloc.results_array with
        | false => intro _; exact Or.inr (Or.inl rfl)
        | true =>
          simp only [Bool.true_eq_false, if_false]
          intro hnull
          exfalso
          split at hnull <;> simp at hnull

/-- A non-null envelope returned by `onnx_detect_batch` has a non-null `results` array
and `num_images` as passed. -/
theorem onnx_detect_batch_result_shape (ort : OrtApi) (alloc : Allocator)
    (sort : List Detection → List Detection) (handle : Option OnnxModel)
    (image_data_list : Option (Int → Option (Int → Nat))) (num_images : Int)
    (image_widths image_heights : Option (Int → Int)) (conf_threshold nms_threshold : ℚ)
    (model_type num_keypoints : Int) (batch_res : BatchDetectionResult)
    (hres : (onnx_detect_batch ort alloc sort handle image_data_list num_images image_widths
      image_heights conf_threshold nms_threshold model_type num_keypoints).result =
      some batch_res) :
    (∃ results, batch_res.results = some results) ∧ batch_res.num_images = num_images ∧
      0 < num_images := by
  revert hres
  unfold onnx_detect_batch
  rcases handle with _ | model
  · intro h; simp at h
  rcases image_data_list with _ | images
  · intro h; simp at h
  simp only []
  by_cases hpos : num_images ≤ 0
  · rw [if_pos hpos]
    intro h; simp at h
  rw [if_neg hpos]
  rcases image_widths with _ | widths
  · intro h; simp at h
  rcases image_heights with _ | heights
  · intro h; simp at h
  simp only []
  cases alloc.input_buffer with
  | false => intro h; simp at h
  | true =>
    simp only [Bool.true_eq_false, if_false]
    cases hloop : batch_preprocess_loop images widths heights model.input_width
        model.input_height (3 * model.input_width * model.input_height) clear_last_error
        num_images.toNat 0
        (fun _ => 0, List.replicate num_images.toNat ⟨0, 0, 0, 0⟩) with
    | error e => intro h; simp at h
    | ok st =>
      obtain ⟨input_data, transforms⟩ := st
      simp only []
      generalize ort model input_data [num_images, 3, model.input_height, model.input_width] = c
      obtain ⟨s1, s2, s3, s4, s5, s6, od, dims⟩ := c
      rcases s1 with _ | m1
      swap
      · intro h; simp [handle_status] at h
      rcases s2 with _ | m2
      swap
      · intro h; simp [handle_status] at h
      rcases s3 with _ | m3
      swap
      · intro h; simp [handle_status] at h
      rcases s4 with _ | m4
      swap
      · intro h; simp [handle_status] at h
      rcases s5 with _ | m5
      swap
      · intro h; simp [handle_status] at h
      simp only [handle_status, Bool.true_eq_false, if_false]
      cases alloc.batch_result with
      | false => intro h; simp at h
      | true =>
        cases alloc.results_array with
        | false => intro h; simp at h
        | true =>
          simp only [Bool.true_eq_false, if_false]
          intro h
          split at h
          · simp only [Option.some.injEq] at h
            rw [← h]
            exact ⟨⟨_, rfl⟩, rfl, by omega⟩
          · simp only [Option.some.injEq] at h
            rw [← h]
            exact ⟨⟨_, rfl⟩, rfl, by omega⟩

/-- A batch of one whose image is invalid returns null. -/
theorem onnx_detect_batch_one_invalid (ort : OrtApi) (alloc : Allocator)
    (sort : List Detection → List Detection) (handle : Option OnnxModel)
    (image_data : Option (Int → Nat)) (image_width image_height : Int)
    (conf_threshold nms_threshold : ℚ) (model_type num_keypoints : Int)
    (hbad : image_data = none ∨ image_width ≤ 1 ∨ image_height ≤ 1) :
    (onnx_detect_batch ort alloc sort handle (some (fun _ => image_data)) 1
      (some (fun _ => image_width)) (some (fun _ => image_height)) conf_threshold
      nms_threshold model_type num_keypoints).result = none := by
  rcases handle with _ | model
  · rfl
  · obtain ⟨e, _, heq⟩ := onnx_detect_batch_invalid_image_aux ort alloc sort model
      (fun _ => image_data) 1 (fun _ => image_width) (fun _ => image_height) conf_threshold
      nms_threshold model_type num_keypoints (le_refl _) ⟨0, le_refl _, by decide, hbad⟩
    rw [heq]
    split <;> rfl

/-- When the allocation of the single result succeeds, `onnx_detect` returns null exactly
when `onnx_detect_batch` on the one-element batch returns null, and otherwise returns
slot 0 of the batch envelope. -/
theorem onnx_detect_eq_batch_of_one (ort : OrtApi) (alloc : Allocator)
    (sort : List Detection → List Detection) (handle : Option OnnxModel)
    (image_data : Option (Int → Nat)) (image_width image_height : Int)
    (conf_threshold nms_threshold : ℚ) (model_type num_keypoints : Int)
    (halloc : alloc.single_result = true) :
    ((onnx_detect ort alloc sort handle image_data image_width image_height conf_threshold
          nms_threshold model_type num_keypoints).ret = DetectReturn.null ↔
        (onnx_detect_batch ort alloc sort handle (some (fun _ => image_data)) 1
          (some (fun _ => image_width)) (some (fun _ => image_height)) conf_threshold
          nms_threshold model_type num_keypoints).result = none) ∧
      (∀ batch_res,
        (onnx_detect_batch ort alloc sort handle (some (fun _ => image_data)) 1
          (some (fun _ => image_width)) (some (fun _ => image_height)) conf_threshold
          nms_threshold model_type num_keypoints).result = some batch_res →
        ∃ results, batch_res.results = some results ∧
          (onnx_detect ort alloc sort handle image_data image_width image_height
            conf_threshold nms_threshold model_type num_keypoints).ret =
            DetectReturn.result (results.getD 0 default)) := by
  rcases image_data with _ | image
  · have hb := onnx_detect_batch_one_invalid ort alloc sort handle none image_width
      image_height conf_threshold nms_threshold model_type num_keypoints (Or.inl rfl)
    refine ⟨⟨fun _ => hb, fun _ => rfl⟩, ?_⟩
    intro br hbr
    rw [hb] at hbr
    exact absurd hbr (by simp)
  · by_cases hdim : image_width ≤ 1 ∨ image_height ≤ 1
    · have hb := onnx_detect_batch_one_invalid ort alloc sort handle (some image) image_width
        image_height conf_threshold nms_threshold model_type num_keypoints (Or.inr hdim)
      have hd : (onnx_detect ort alloc sort handle (some image) image_width image_height
          conf_threshold nms_threshold model_type num_keypoints).ret = DetectReturn.null := by
        simp [onnx_detect, validate_image_dimensions, hdim]
      refine ⟨⟨fun _ => hb, fun _ => hd⟩, ?_⟩
      intro br hbr
      rw [hb] at hbr
      exact absurd hbr (by simp)
    · have hv : (validate_image_dimensions image_width image_height "detect"
          clear_last_error).1 = true := by
        simp [validate_image_dimensions, hdim]
      cases hb : (onnx_detect_batch ort alloc sort handle (some (fun _ => some image)) 1
          (some (fun _ => image_width)) (some (fun _ => image_height)) conf_threshold
          nms_threshold model_type num_keypoints).result with
      | none =>
        refine ⟨⟨fun _ => rfl, fun _ => ?_⟩, ?_⟩
        · simp [onnx_detect, hv, hb]
        · intro br hbr
          exact absurd hbr (by simp)
      | some br =>
        obtain ⟨⟨results, hresults⟩, hnum, _⟩ := onnx_detect_batch_result_shape _ _ _ _ _ _ _ _
          _ _ _ _ br hb
        have hd : (onnx_detect ort alloc sort handle (some image) image_width image_height
            conf_threshold nms_threshold model_type num_keypoints).ret =
            DetectReturn.result (results.getD 0 default) := by
          simp [onnx_detect, hv, hb, halloc, hresults, hnum]
        refine ⟨⟨fun h => ?_, fun h => absurd h (by simp)⟩, ?_⟩
        · rw [hd] at h
          exact absurd h (by simp)
        · intro br2 hbr2
          simp only [Option.some.injEq] at hbr2
          subst hbr2
          exact ⟨results, hresults, hd⟩

/-- Claim C20 fails on the code: `onnx_detect` does not check the `malloc` of the single
result.  When that allocation fails, a call whose one-element batch returns a non-null
envelope does not return slot 0 of the envelope (nor null): it writes through the null
pointer and has no defined result. -/
theorem onnx_detect_unchecked_allocation :
    (onnx_detect_batch ort_one_box alloc_no_single sort_by_confidence (some model_8x8)
        (some (fun _ => some (fun _ => 0))) 1 (some (fun _ => 4)) (some (fun _ => 2)) (1/2)
        (3/10) MODEL_TYPE_YOLO 0).result.isSome = true ∧
      (onnx_detect ort_one_box alloc_no_single sort_by_confidence (some model_8x8)
        (some (fun _ => 0)) 4 2 (1/2) (3/10) MODEL_TYPE_YOLO 0).ret =
        DetectReturn.null_store := by
  constructor
  · simp [onnx_detect_batch, batch_preprocess_loop, validate_image_dimensions, handle_status,
      ort_one_box, alloc_no_single, alloc_all]
  · simp [onnx_detect, onnx_detect_batch, batch_preprocess_loop, validate_image_dimensions,
      handle_status, ort_one_box, alloc_no_single, alloc_all]

/-! ## Claim on the build without the inference runtime -/

/-- Claim C22: in the build without the inference runtime every result-producing entry
point fails fast whatever its arguments: `onnx_init` returns false, `onnx_load_model`,
`onnx_detect` and `onnx_detect_batch` return null, and each leaves the error code
`ONNX_ERROR_RUNTIME_NOT_FOUND` with a non-empty message; `onnx_get_input_size` returns
false with `ONNX_ERROR_INVALID_ARGUMENT` when an output pointer is null, and otherwise
writes `width = height = 0` and reports `ONNX_ERROR_RUNTIME_NOT_FOUND`; `onnx_cleanup`
and `onnx_unload_model` leave the error state `(ONNX_OK, "")`. -/
theorem stub_entry_points_fail_fast (handle : Option OnnxModel) (model_path : Option String)
    (use_gpu : Bool) (image_data : Option (Int → Nat))
    (image_data_list : Option (Int → Option (Int → Nat))) (num_images : Int)
    (image_widths image_heights : Option (Int → Int)) (image_width image_height : Int)
    (conf_threshold nms_threshold : ℚ) (model_type num_keypoints : Int)
    (width height : Option Int) (w0 h0 : Int) :
    (Stub.onnx_init.1 = false ∧
        Stub.onnx_init.2.code = ONNX_ERROR_RUNTIME_NOT_FOUND ∧
        Stub.onnx_init.2.message ≠ "") ∧
      ((Stub.onnx_load_model model_path use_gpu).1 = none ∧
        (Stub.onnx_load_model model_path use_gpu).2.code = ONNX_ERROR_RUNTIME_NOT_FOUND ∧
        (Stub.onnx_load_model model_path use_gpu).2.message ≠ "") ∧
      ((Stub.onnx_detect handle image_data image_width image_height conf_threshold
          nms_threshold model_type num_keypoints).1 = none ∧
        (Stub.onnx_detect handle image_data image_width image_height conf_threshold
          nms_threshold model_type num_keypoints).2.code = ONNX_ERROR_RUNTIME_NOT_FOUND ∧
        (Stub.onnx_detect handle image_data image_width image_height conf_threshold
          nms_threshold model_type num_keypoints).2.message ≠ "") ∧
      ((Stub.onnx_detect_batch handle image_data_list num_images image_widths image_heights
          conf_threshold nms_threshold model_type num_keypoints).1 = none ∧
        (Stub.onnx_detect_batch handle image_data_list num_images image_widths image_heights
          conf_threshold nms_threshold model_type num_keypoints).2.code =
          ONNX_ERROR_RUNTIME_NOT_FOUND ∧
        (Stub.onnx_detect_batch handle image_data_list num_images image_widths image_heights
          conf_threshold nms_threshold model_type num_keypoints).2.message ≠ "") ∧
      ((width = none ∨ height = none) →
        (Stub.onnx_get_input_size handle width height).1 = false ∧
        (Stub.onnx_get_input_size handle width height).2.2.2.code =
          ONNX_ERROR_INVALID_ARGUMENT) ∧
      ((Stub.onnx_get_input_size handle (some w0) (some h0)).1 = false ∧
        (Stub.onnx_get_input_size handle (some w0) (some h0)).2.1 = some 0 ∧
        (Stub.onnx_get_input_size handle (some w0) (some h0)).2.2.1 = some 0 ∧
        (Stub.onnx_get_input_size handle (some w0) (some h0)).2.2.2.code =
          ONNX_ERROR_RUNTIME_NOT_FOUND) ∧
      Stub.onnx_cleanup = { code := ONNX_OK, message := "" } ∧
      Stub.onnx_unload_model handle = { code := ONNX_OK, message := "" } := by
  have hmsg : ("ONNX Runtime 未找到" : String) ≠ "" := by decide
  refine ⟨⟨rfl, rfl, hmsg⟩, ⟨rfl, rfl, hmsg⟩, ⟨rfl, rfl, hmsg⟩, ⟨rfl, rfl, hmsg⟩, ?_,
    ⟨rfl, rfl, rfl, rfl⟩, rfl, rfl⟩
  intro hnull
  rcases width with _ | w
  · exact ⟨rfl, rfl⟩
  · rcases height with _ | h
    · exact ⟨rfl, rfl⟩
    · rcases hnull with h1 | h1 <;> exact absurd h1 (by simp)

theorem stub_entry_points_fail_fast_witness :
    ((none : Option Int) = none ∨ (none : Option Int) = none) ∧
      (Stub.onnx_get_input_size none none none).1 = false ∧
      (Stub.onnx_get_input_size none none none).2.2.2.code = ONNX_ERROR_INVALID_ARGUMENT ∧
      (Stub.onnx_get_input_size none (some (-1)) (some (-1))).2.1 = some 0 ∧
      (Stub.onnx_get_input_size none (some (-1)) (some (-1))).2.2.2.code =
        ONNX_ERROR_RUNTIME_NOT_FOUND ∧
      (Stub.onnx_detect none none 0 0 (1/2) (4/10) 0 0).1 = none ∧
      (Stub.onnx_detect none none 0 0 (1/2) (4/10) 0 0).2.code =
        ONNX_ERROR_RUNTIME_NOT_FOUND ∧
      (Stub.onnx_detect_batch none none 0 none none (1/2) (4/10) 0 0).2.code =
        ONNX_ERROR_RUNTIME_NOT_FOUND :=
  have h := stub_entry_points_fail_fast none (some "fake.onnx") false none none 0 none none 0 0
    (1/2) (4/10) 0 0 none none (-1) (-1)
  ⟨Or.inl rfl, (h.2.2.2.2.1 (Or.inl rfl)).1, (h.2.2.2.2.1 (Or.inl rfl)).2,
    h.2.2.2.2.2.1.2.1, h.2.2.2.2.2.1.2.2.2, h.2.2.1.1, h.2.2.1.2.1, h.2.2.2.1.2.1⟩

/-! ## Claim on the reads of `parse_yolov8_output` -/

/-- A cell of row `row < num_features` and box `i < num_boxes` lies inside the slice. -/
theorem row_index_in_slice (row num_boxes i num_features : Int) (h0 : 0 ≤ row)
    (h1 : row < num_features) (h2 : 0 ≤ i) (h3 : i < num_boxes) :
    0 ≤ row * num_boxes + i ∧ row * num_boxes + i < num_features * num_boxes := by
  have hnb : 0 ≤ num_boxes := by omega
  have hmul : row * num_boxes ≤ (num_features - 1) * num_boxes :=
    Int.mul_le_mul_of_nonneg_right (by omega) hnb
  have hpos : 0 ≤ row * num_boxes := Int.mul_nonneg h0 hnb
  have hexp : (num_features - 1) * num_boxes = num_features * num_boxes - num_boxes := by ring
  constructor
  · omega
  · omega

theorem mem_best_class_reads (num_boxes i : Int) :
    ∀ (n : Nat) (c0 r : Int), r ∈ best_class_reads num_boxes i n c0 →
      ∃ c, c0 ≤ c ∧ c < c0 + n ∧ r = (4 + c) * num_boxes + i := by
  intro n
  induction n with
  | zero =>
    intro c0 r h
    simp [best_class_reads] at h
  | succ n ih =>
    intro c0 r h
    simp only [best_class_reads, List.mem_cons] at h
    rcases h with h | h
    · exact ⟨c0, le_refl _, by push_cast; omega, h⟩
    · obtain ⟨c, h1, h2, h3⟩ := ih (c0 + 1) r h
      exact ⟨c, by omega, by push_cast; omega, h3⟩

theorem mem_keypoint_reads (num_boxes i kpt_start : Int) :
    ∀ (n : Nat) (k0 r : Int), r ∈ keypoint_reads num_boxes i kpt_start n k0 →
      ∃ k j, k0 ≤ k ∧ k < k0 + n ∧ 0 ≤ j ∧ j ≤ 2 ∧
        r = (kpt_start + k * 3 + j) * num_boxes + i := by
  intro n
  induction n with
  | zero =>
    intro k0 r h
    simp [keypoint_reads] at h
  | succ n ih =>
    intro k0 r h
    simp only [keypoint_reads, List.mem_cons] at h
    rcases h with h | h | h | h
    · exact ⟨k0, 0, le_refl _, by push_cast; omega, le_refl _, by decide, h⟩
    · exact ⟨k0, 1, le_refl _, by push_cast; omega, by decide, by decide, h⟩
    · exact ⟨k0, 2, le_refl _, by push_cast; omega, by decide, le_refl _, h⟩
    · obtain ⟨k, j, h1, h2, h3, h4, h5⟩ := ih (k0 + 1) r h
      exact ⟨k, j, by omega, by push_cast; omega, h3, h4, h5⟩

theorem mem_parse_loop_reads (output_data : Int → ℚ) (num_boxes num_classes model_type
    num_keypoints : Int) (conf_threshold : ℚ) (alloc_keypoints : Int → Bool) :
    ∀ (n : Nat) (i0 : Int) (trace : List Int) (r : Int),
      r ∈ parse_loop_reads output_data num_boxes num_classes model_type num_keypoints
        conf_threshold alloc_keypoints n i0 trace →
      r ∈ trace ∨ ∃ i, i0 ≤ i ∧ i < i0 + n ∧
        r ∈ parse_box_reads output_data num_boxes num_classes model_type num_keypoints
          conf_threshold (alloc_keypoints i) i := by
  intro n
  induction n with
  | zero =>
    intro i0 trace r h
    exact Or.inl h
  | succ n ih =>
    intro i0 trace r h
    simp only [parse_loop_reads] at h
    rcases ih (i0 + 1) _ r h with h1 | ⟨i, h1, h2, h3⟩
    · rcases List.mem_append.mp h1 with h1 | h1
      · exact Or.inl h1
      · exact Or.inr ⟨i0, le_refl _, by push_cast; omega, h1⟩
    · exact Or.inr ⟨i, by omega, by push_cast; omega, h3⟩

/-- When the class count needs no clamp (the count computed from `num_features` is at
least 1), every index read by `parse_yolov8_output` lies inside the slice
`[0, num_features * num_boxes)`. -/
theorem parse_reads_in_slice (output_data : Int → ℚ) (num_features num_boxes model_type
    num_keypoints : Int) (conf_threshold : ℚ) (alloc_keypoints : Int → Bool)
    (hcount : 1 ≤ (if model_type = MODEL_TYPE_YOLO_POSE ∧ num_keypoints > 0 then
      num_features - 4 - num_keypoints * 3 else num_features - 4))
    (r : Int)
    (hr : r ∈ parse_yolov8_output_reads output_data num_features num_boxes model_type
      num_keypoints conf_threshold alloc_keypoints) :
    0 ≤ r ∧ r < num_features * num_boxes := by
  unfold parse_yolov8_output_reads at hr
  rcases mem_parse_loop_reads _ _ _ _ _ _ _ _ _ _ r hr with h | ⟨i, hi0, hi1, hbox⟩
  · simp at h
  have hi : i < num_boxes := by omega
  have hnc : parse_num_classes num_features model_type num_keypoints =
      (if model_type = MODEL_TYPE_YOLO_POSE ∧ num_keypoints > 0 then
        num_features - 4 - num_keypoints * 3 else num_features - 4) := by
    unfold parse_num_classes
    simp only []
    rw [if_neg (by omega)]
  have hnf : 5 ≤ num_features := by
    split at hcount <;> omega
  have hncle : parse_num_classes num_features model_type num_keypoints ≤ num_features - 4 := by
    rw [hnc]
    split <;> omega
  have hgeo : ∀ x ∈ [0 * num_boxes + i, 1 * num_boxes + i, 2 * num_boxes + i,
      3 * num_boxes + i], 0 ≤ x ∧ x < num_features * num_boxes := by
    intro x hx
    simp only [List.mem_cons, List.mem_singleton, List.not_mem_nil, or_false] at hx
    rcases hx with hx | hx | hx | hx <;> rw [hx]
    · exact row_index_in_slice 0 num_boxes i num_features (by decide) (by omega) hi0 hi
    · exact row_index_in_slice 1 num_boxes i num_features (by decide) (by omega) hi0 hi
    · exact row_index_in_slice 2 num_boxes i num_features (by decide) (by omega) hi0 hi
    · exact row_index_in_slice 3 num_boxes i num_features (by decide) (by omega) hi0 hi
  have hscore : ∀ x ∈ best_class_reads num_boxes i
      (parse_num_classes num_features model_type num_keypoints).toNat 0,
      0 ≤ x ∧ x < num_features * num_boxes := by
    intro x hx
    obtain ⟨c, hc0, hc1, hxc⟩ := mem_best_class_reads _ _ _ _ _ hx
    rw [hxc]
    exact row_index_in_slice (4 + c) num_boxes i num_features (by omega) (by omega) hi0 hi
  have hkp : model_type = MODEL_TYPE_YOLO_POSE ∧ num_keypoints > 0 →
      ∀ x ∈ keypoint_reads num_boxes i
        (4 + parse_num_classes num_features model_type num_keypoints) num_keypoints.toNat 0,
      0 ≤ x ∧ x < num_features * num_boxes := by
    intro hpose x hx
    obtain ⟨k, j, hk0, hk1, hj0, hj1, hxk⟩ := mem_keypoint_reads _ _ _ _ _ _ hx
    rw [hxk]
    have hnc2 : parse_num_classes num_features model_type num_keypoints =
        num_features - 4 - num_keypoints * 3 := by rw [hnc, if_pos hpose]
    have hpos := parse_num_classes_pos num_features model_type num_keypoints
    exact row_index_in_slice _ num_boxes i num_features (by omega) (by omega) hi0 hi
  unfold parse_box_reads at hbox
  simp only [] at hbox
  split at hbox
  · rcases List.mem_append.mp hbox with h | h
    · exact hgeo r h
    · exact hscore r h
  · split at hbox
    · rename_i hpose
      split at hbox
      · rcases List.mem_append.mp hbox with h | h
        · rcases List.mem_append.mp h with h | h
          · exact hgeo r h
          · exact hscore r h
        · exact hkp hpose r h
      · rcases List.mem_append.mp hbox with h | h
        · exact hgeo r h
        · exact hscore r h
    · rcases List.mem_append.mp hbox with h | h
      · exact hgeo r h
      · exact hscore r h

/-- Claim C24 fails on the code: for a plain detector with `num_features = 4` and
`num_boxes = 1` the class count is clamped to 1 and the class scan reads index
`4 * 1 + 0 = 4`, which is not smaller than `num_features * num_boxes = 4`; with
`num_features = 1` the geometry rows 1 to 3 are outside the slice as well. -/
theorem parse_reads_outside_slice :
    parse_yolov8_output_reads (fun _ => 0) 4 1 MODEL_TYPE_YOLO 0 (1/2) (fun _ => true) =
        [0, 1, 2, 3, 4] ∧
      ¬ ((4 : Int) < 4 * 1) ∧
      parse_yolov8_output_reads (fun _ => 0) 1 1 MODEL_TYPE_YOLO 0 (1/2) (fun _ => true) =
        [0, 1, 2, 3, 4] ∧
      ¬ ((1 : Int) < 1 * 1) := by
  refine ⟨?_, by decide, ?_, by decide⟩
  · norm_num [parse_yolov8_output_reads, parse_loop_reads, parse_box_reads, parse_num_classes,
      best_class_reads, best_class_loop, MODEL_TYPE_YOLO, MODEL_TYPE_YOLO_POSE]
  · norm_num [parse_yolov8_output_reads, parse_loop_reads, parse_box_reads, parse_num_classes,
      best_class_reads, best_class_loop, MODEL_TYPE_YOLO, MODEL_TYPE_YOLO_POSE]

/-! ## Claim on the sampling indices of `preprocess_image_to_buffer` -/

theorem source_index_bounds (W H src_x src_y c : Int) (hx0 : 0 ≤ src_x) (hx1 : src_x ≤ W - 2)
    (hy0 : 0 ≤ src_y) (hy1 : src_y ≤ H - 2) (hc0 : 0 ≤ c) (hc1 : c ≤ 2) :
    (0 ≤ (src_y * W + src_x) * 4 + c ∧ (src_y * W + src_x) * 4 + c < 4 * W * H) ∧
    (0 ≤ (src_y * W + src_x + 1) * 4 + c ∧ (src_y * W + src_x + 1) * 4 + c < 4 * W * H) ∧
    (0 ≤ ((src_y + 1) * W + src_x) * 4 + c ∧ ((src_y + 1) * W + src_x) * 4 + c < 4 * W * H) ∧
    (0 ≤ ((src_y + 1) * W + src_x + 1) * 4 + c ∧
      ((src_y + 1) * W + src_x + 1) * 4 + c < 4 * W * H) := by
  have hW : 0 ≤ W := by omega
  have hP0 : 0 ≤ src_y * W := Int.mul_nonneg hy0 hW
  have hP1 : src_y * W ≤ (H - 2) * W := Int.mul_le_mul_of_nonneg_right hy1 hW
  have e1 : (H - 2) * W = W * H - 2 * W := by ring
  have e2 : (src_y + 1) * W = src_y * W + W := by ring
  have e3 : 4 * W * H = 4 * (W * H) := by ring
  rw [e2, e3]
  rw [e1] at hP1
  refine ⟨⟨?_, ?_⟩, ⟨?_, ?_⟩, ⟨?_, ?_⟩, ⟨?_, ?_⟩⟩ <;> omega

theorem dest_index_bounds (tw th x y pad_left pad_top nw nh c : Int) (hx0 : 0 ≤ x)
    (hx1 : x < nw) (hy0 : 0 ≤ y) (hy1 : y < nh) (hl0 : 0 ≤ pad_left) (hl1 : nw + pad_left ≤ tw)
    (ht0 : 0 ≤ pad_top) (ht1 : nh + pad_top ≤ th) (hc0 : 0 ≤ c) (hc1 : c ≤ 2) :
    0 ≤ c * (tw * th) + ((y + pad_top) * tw + (x + pad_left)) ∧
      c * (tw * th) + ((y + pad_top) * tw + (x + pad_left)) < 3 * tw * th := by
  have htw : 0 ≤ tw := by omega
  have hth : 0 ≤ th := by omega
  have hS : 0 ≤ tw * th := Int.mul_nonneg htw hth
  have hc : c * (tw * th) ≤ 2 * (tw * th) := Int.mul_le_mul_of_nonneg_right hc1 hS
  have hc' : 0 ≤ c * (tw * th) := Int.mul_nonneg hc0 hS
  have hy : (y + pad_top) * tw ≤ (th - 1) * tw := Int.mul_le_mul_of_nonneg_right (by omega) htw
  have hy' : 0 ≤ (y + pad_top) * tw := Int.mul_nonneg (by omega) htw
  have e1 : (th - 1) * tw = tw * th - tw := by ring
  have e2 : 3 * tw * th = 3 * (tw * th) := by ring
  rw [e1] at hy
  rw [e2]
  constructor <;> omega

/-- The source position of a destination row or column is a valid position that has a
successor: it lies in `[0, size - 2]`. -/
theorem source_coord_bounds (pos : Int) (ratio : ℚ) (size : Int) (hpos : 0 ≤ pos)
    (hratio : 0 < ratio) (hsize : 2 ≤ size) :
    0 ≤ (source_coord pos ratio size).1 ∧ (source_coord pos ratio size).1 ≤ size - 2 := by
  have hq : 0 ≤ (pos : ℚ) / ratio := div_nonneg (by exact_mod_cast hpos) hratio.le
  have hfloor : 0 ≤ float_to_int ((pos : ℚ) / ratio) := by
    rw [float_to_int_of_nonneg hq]
    exact Int.floor_nonneg.mpr hq
  unfold source_coord
  simp only []
  split
  · constructor <;> simp only [] <;> omega
  · constructor <;> simp only [] <;> omega

/-- The clamp at the last row or column: position `size - 2` with fraction 1. -/
theorem source_coord_clamp (pos : Int) (ratio : ℚ) (size : Int)
    (h : float_to_int ((pos : ℚ) / ratio) ≥ size - 1) :
    source_coord pos ratio size = (size - 2, 1) := by
  unfold source_coord
  simp only []
  rw [if_pos h]

theorem channel_loop_in_bounds (image_data : Int → Nat) (image_width image_height
    target_width target_height src_x src_y : Int) (x_lerp y_lerp : ℚ) (dst_idx : Int)
    (hx0 : 0 ≤ src_x) (hx1 : src_x ≤ image_width - 2) (hy0 : 0 ≤ src_y)
    (hy1 : src_y ≤ image_height - 2)
    (hdst : ∀ c : Int, 0 ≤ c → c ≤ 2 →
      0 ≤ c * (target_width * target_height) + dst_idx ∧
      c * (target_width * target_height) + dst_idx < 3 * target_width * target_height) :
    ∀ (n : Nat) (c : Int) (st : PixelState), 0 ≤ c → c + n ≤ 3 →
      (∀ r ∈ st.reads, 0 ≤ r ∧ r < 4 * image_width * image_height) →
      (∀ w ∈ st.writes, 0 ≤ w ∧ w < 3 * target_width * target_height) →
      (∀ r ∈ (channel_loop image_data image_width src_x src_y x_lerp y_lerp
          (target_width * target_height) dst_idx n c st).reads,
        0 ≤ r ∧ r < 4 * image_width * image_height) ∧
      (∀ w ∈ (channel_loop image_data image_width src_x src_y x_lerp y_lerp
          (target_width * target_height) dst_idx n c st).writes,
        0 ≤ w ∧ w < 3 * target_width * target_height) := by
  intro n
  induction n with
  | zero =>
    intro c st _ _ hr hw
    exact ⟨hr, hw⟩
  | succ n ih =>
    intro c st hc0 hc1 hr hw
    simp only [channel_loop]
    have hc2 : c ≤ 2 := by push_cast at hc1; omega
    obtain ⟨b00, b01, b10, b11⟩ := source_index_bounds image_width image_height src_x src_y c
      hx0 hx1 hy0 hy1 hc0 hc2
    apply ih (c + 1) _ (by omega) (by push_cast at hc1 ⊢; omega)
    · intro r hmem
      simp only [write_channel, List.mem_append, List.mem_cons, List.mem_singleton,
        List.not_mem_nil, or_false] at hmem
      rcases hmem with h | h | h | h | h
      · exact hr r h
      · rw [h]; exact b00
      · rw [h]; exact b01
      · rw [h]; exact b10
      · rw [h]; exact b11
    · intro w hmem
      simp only [write_channel, List.mem_append, List.mem_singleton] at hmem
      rcases hmem with h | h
      · exact hw w h
      · rw [h]; exact hdst c hc0 hc2

theorem column_loop_in_bounds (image_data : Int → Nat) (image_width image_height
    target_width target_height : Int) (ratio : ℚ) (new_width new_height pad_left pad_top
    y src_y : Int) (y_lerp : ℚ) (hratio : 0 < ratio) (hW : 2 ≤ image_width)
    (hy0 : 0 ≤ src_y) (hy1 : src_y ≤ image_height - 2)
    (hl0 : 0 ≤ pad_left) (hl1 : new_width + pad_left ≤ target_width)
    (ht0 : 0 ≤ pad_top) (ht1 : new_height + pad_top ≤ target_height)
    (hyr0 : 0 ≤ y) (hyr1 : y < new_height) :
    ∀ (n : Nat) (x : Int) (st : PixelState), 0 ≤ x → x + n ≤ new_width →
      (∀ r ∈ st.reads, 0 ≤ r ∧ r < 4 * image_width * image_height) →
      (∀ w ∈ st.writes, 0 ≤ w ∧ w < 3 * target_width * target_height) →
      (∀ r ∈ (column_loop image_data image_width target_width target_height ratio pad_left
          pad_top y src_y y_lerp n x st).reads,
        0 ≤ r ∧ r < 4 * image_width * image_height) ∧
      (∀ w ∈ (column_loop image_data image_width target_width target_height ratio pad_left
          pad_top y src_y y_lerp n x st).writes,
        0 ≤ w ∧ w < 3 * target_width * target_height) := by
  intro n
  induction n with
  | zero =>
    intro x st _ _ hr hw
    exact ⟨hr, hw⟩
  | succ n ih =>
    intro x st hx0 hx1 hr hw
    simp only [column_loop]
    have hxlt : x < new_width := by push_cast at hx1; omega
    obtain ⟨hs0, hs1⟩ := source_coord_bounds x ratio image_width hx0 hratio hW
    have hstep := channel_loop_in_bounds image_data image_width image_height target_width
      target_height (source_coord x ratio image_width).1 src_y
      (source_coord x ratio image_width).2 y_lerp ((y + pad_top) * target_width + (x + pad_left))
      hs0 hs1 hy0 hy1
      (fun c hc0 hc2 => dest_index_bounds target_width target_height x y pad_left pad_top
        new_width new_height c hx0 hxlt hyr0 hyr1 hl0 hl1 ht0 ht1 hc0 hc2)
      3 0 st (le_refl _) (by decide) hr hw
    exact ih (x + 1) _ (by omega) (by push_cast at hx1 ⊢; omega) hstep.1 hstep.2

theorem row_loop_in_bounds (image_data : Int → Nat) (image_width image_height
    target_width target_height : Int) (ratio : ℚ) (new_width new_height pad_left pad_top : Int)
    (hratio : 0 < ratio) (hW : 2 ≤ image_width) (hH : 2 ≤ image_height)
    (hnw : 0 ≤ new_width)
    (hl0 : 0 ≤ pad_left) (hl1 : new_width + pad_left ≤ target_width)
    (ht0 : 0 ≤ pad_top) (ht1 : new_height + pad_top ≤ target_height) :
    ∀ (n : Nat) (y : Int) (st : PixelState), 0 ≤ y → y + n ≤ new_height →
      (∀ r ∈ st.reads, 0 ≤ r ∧ r < 4 * image_width * image_height) →
      (∀ w ∈ st.writes, 0 ≤ w ∧ w < 3 * target_width * target_height) →
      (∀ r ∈ (row_loop image_data image_width image_height target_width target_height ratio
          new_width pad_left pad_top n y st).reads,
        0 ≤ r ∧ r < 4 * image_width * image_height) ∧
      (∀ w ∈ (row_loop image_data image_width image_height target_width target_height ratio
          new_width pad_left pad_top n y st).writes,
        0 ≤ w ∧ w < 3 * target_width * target_height) := by
  intro n
  induction n with
  | zero =>
    intro y st _ _ hr hw
    exact ⟨hr, hw⟩
  | succ n ih =>
    intro y st hy0 hy1 hr hw
    simp only [row_loop]
    have hylt : y < new_height := by push_cast at hy1; omega
    obtain ⟨hs0, hs1⟩ := source_coord_bounds y ratio image_height hy0 hratio hH
    have hstep := column_loop_in_bounds image_data image_width image_height target_width
      target_height ratio new_width new_height pad_left pad_top y
      (source_coord y ratio image_height).1 (source_coord y ratio image_height).2
      hratio hW hs0 hs1 hl0 hl1 ht0 ht1 hy0 hylt new_width.toNat 0 st (le_refl _)
      (by omega) hr hw
    exact ih (y + 1) _ (by omega) (by push_cast at hy1 ⊢; omega) hstep.1 hstep.2

/-- The pads keep the scaled image inside the target. -/
theorem letterbox_pads (image_width image_height target_width target_height : Int)
    (hw : 2 ≤ image_width) (hh : 2 ≤ image_height) (htw : 1 ≤ target_width)
    (hth : 1 ≤ target_height) :
    (0 ≤ Int.tdiv (target_width -
        letterbox_new_width image_width image_height target_width target_height) 2 ∧
      letterbox_new_width image_width image_height target_width target_height +
        Int.tdiv (target_width -
          letterbox_new_width image_width image_height target_width target_height) 2 ≤
        target_width) ∧
      (0 ≤ Int.tdiv (target_height -
        letterbox_new_height image_width image_height target_width target_height) 2 ∧
      letterbox_new_height image_width image_height target_width target_height +
        Int.tdiv (target_height -
          letterbox_new_height image_width image_height target_width target_height) 2 ≤
        target_height) := by
  have hnw := letterbox_new_width_le hw hh htw hth
  have hnh := letterbox_new_height_le hw hh htw hth
  rw [Int.tdiv_eq_ediv (by omega) (by decide), Int.tdiv_eq_ediv (by omega) (by decide)]
  constructor <;> constructor <;> omega

/-- Letterbox sampling in exact arithmetic with unbounded integers.  For every image of width `W ≥ 2` and
height `H ≥ 2` and every target of width `tw ≥ 1` and height `th ≥ 1`: every index of
`image_data` read by `preprocess_image_to_buffer` lies in `[0, 4*W*H)` and every index
written by its sampling loops lies in `[0, 3*tw*th)`; for every destination pixel
`(x, y)` with `x < new_width`, `y < new_height` and every channel `c < 3` the four source
indices `idx00`, `idx01`, `idx10`, `idx11` lie in `[0, 4*W*H)` and the destination index
`c*tw*th + (y+pad_top)*tw + (x+pad_left)` lies in `[0, 3*tw*th)`; at the last source row
or column the clamp gives position `size - 2` with fraction 1, and with fraction 1 the
value written is taken from the last column (row) only. -/
theorem letterbox_sampling_in_bounds (image : Int → Nat) (buf : Int → ℚ)
    (image_width image_height target_width target_height : Int)
    (hw : 2 ≤ image_width) (hh : 2 ≤ image_height) (htw : 1 ≤ target_width)
    (hth : 1 ≤ target_height) :
    (∀ r ∈ (preprocess_image_to_buffer (some image) image_width image_height target_width
        target_height (some buf)).reads, 0 ≤ r ∧ r < 4 * image_width * image_height) ∧
      (∀ w ∈ (preprocess_image_to_buffer (some image) image_width image_height target_width
        target_height (some buf)).writes, 0 ≤ w ∧ w < 3 * target_width * target_height) ∧
      (∀ x y c : Int, 0 ≤ x →
        x < letterbox_new_width image_width image_height target_width target_height →
        0 ≤ y →
        y < letterbox_new_height image_width image_height target_width target_height →
        0 ≤ c → c < 3 →
        (0 ≤ ((source_coord y (letterbox_ratio image_width image_height target_width
              target_height) image_height).1 * image_width +
            (source_coord x (letterbox_ratio image_width image_height target_width
              target_height) image_width).1) * 4 + c ∧
          ((source_coord y (letterbox_ratio image_width image_height target_width
              target_height) image_height).1 * image_width +
            (source_coord x (letterbox_ratio image_width image_height target_width
              target_height) image_width).1) * 4 + c < 4 * image_width * image_height) ∧
        (0 ≤ ((source_coord y (letterbox_ratio image_width image_height target_width
              target_height) image_height).1 * image_width +
            (source_coord x (letterbox_ratio image_width image_height target_width
              target_height) image_width).1 + 1) * 4 + c ∧
          ((source_coord y (letterbox_ratio image_width image_height target_width
              target_height) image_height).1 * image_width +
            (source_coord x (letterbox_ratio image_width image_height target_width
              target_height) image_width).1 + 1) * 4 + c < 4 * image_width * image_height) ∧
        (0 ≤ (((source_coord y (letterbox_ratio image_width image_height target_width
              target_height) image_height).1 + 1) * image_width +
            (source_coord x (letterbox_ratio image_width image_height target_width
              target_height) image_width).1) * 4 + c ∧
          (((source_coord y (letterbox_ratio image_width image_height target_width
              target_height) image_height).1 + 1) * image_width +
            (source_coord x (letterbox_ratio image_width image_height target_width
              target_height) image_width).1) * 4 + c < 4 * image_width * image_height) ∧
        (0 ≤ (((source_coord y (letterbox_ratio image_width image_height target_width
              target_height) image_height).1 + 1) * image_width +
            (source_coord x (letterbox_ratio image_width image_height target_width
              target_height) image_width).1 + 1) * 4 + c ∧
          (((source_coord y (letterbox_ratio image_width image_height target_width
              target_height) image_height).1 + 1) * image_width +
            (source_coord x (letterbox_ratio image_width image_height target_width
              target_height) image_width).1 + 1) * 4 + c < 4 * image_width * image_height) ∧
        0 ≤ c * target_width * target_height +
            (y + Int.tdiv (target_height - letterbox_new_height image_width image_height
              target_width target_height) 2) * target_width +
            (x + Int.tdiv (target_width - letterbox_new_width image_width image_height
              target_width target_height) 2) ∧
        c * target_width * target_height +
            (y + Int.tdiv (target_height - letterbox_new_height image_width image_height
              target_width target_height) 2) * target_width +
            (x + Int.tdiv (target_width - letterbox_new_width image_width image_height
              target_width target_height) 2) < 3 * target_width * target_height) ∧
      (∀ (pos : Int) (ratio : ℚ) (size : Int),
        float_to_int ((pos : ℚ) / ratio) ≥ size - 1 →
        source_coord pos ratio size = (size - 2, 1)) ∧
      (∀ (src_x src_y : Int) (y_lerp : ℚ) (c_stride dst_idx c : Int) (st : PixelState),
        (write_channel image image_width src_x src_y 1 y_lerp c_stride dst_idx c st).buffer
            (c * c_stride + dst_idx) =
          (image ((src_y * image_width + src_x + 1) * 4 + c) : ℚ) / 255 * (1 - y_lerp) +
            (image (((src_y + 1) * image_width + src_x + 1) * 4 + c) : ℚ) / 255 * y_lerp) ∧
      (∀ (src_x src_y : Int) (x_lerp : ℚ) (c_stride dst_idx c : Int) (st : PixelState),
        (write_channel image image_width src_x src_y x_lerp 1 c_stride dst_idx c st).buffer
            (c * c_stride + dst_idx) =
          (image (((src_y + 1) * image_width + src_x) * 4 + c) : ℚ) / 255 * (1 - x_lerp) +
            (image (((src_y + 1) * image_width + src_x + 1) * 4 + c) : ℚ) / 255 * x_lerp) := by
  have hcond : ¬ (target_width ≤ 0 ∨ target_height ≤ 0 ∨ image_width ≤ 1 ∨ image_height ≤ 1) := by
    omega
  have hratio := letterbox_ratio_pos hw hh htw hth
  have hnw := letterbox_new_width_le hw hh htw hth
  have hnh := letterbox_new_height_le hw hh htw hth
  obtain ⟨⟨hl0, hl1⟩, ⟨ht0, ht1⟩⟩ := letterbox_pads image_width image_height target_width
    target_height hw hh htw hth
  have hloops := row_loop_in_bounds image image_width image_height target_width
    target_height (letterbox_ratio image_width image_height target_width target_height)
    (letterbox_new_width image_width image_height target_width target_height)
    (letterbox_new_height image_width image_height target_width target_height)
    (Int.tdiv (target_width -
      letterbox_new_width image_width image_height target_width target_height) 2)
    (Int.tdiv (target_height -
      letterbox_new_height image_width image_height target_width target_height) 2)
    hratio hw hh hnw.1 hl0 hl1 ht0 ht1
    (letterbox_new_height image_width image_height target_width target_height).toNat 0
    { buffer := fill_loop (114 / 255) (3 * (target_width * target_height)).toNat 0 buf,
      reads := [], writes := [] }
    (le_refl _) (by omega) (by simp) (by simp)
  refine ⟨?_, ?_, ?_, source_coord_clamp, ?_, ?_⟩
  · simp only [preprocess_image_to_buffer, if_neg hcond]
    exact hloops.1
  · simp only [preprocess_image_to_buffer, if_neg hcond]
    exact hloops.2
  · intro x y c hx0 hx1 hy0 hy1 hc0 hc1
    obtain ⟨hsx0, hsx1⟩ := source_coord_bounds x
      (letterbox_ratio image_width image_height target_width target_height) image_width
      hx0 hratio hw
    obtain ⟨hsy0, hsy1⟩ := source_coord_bounds y
      (letterbox_ratio image_width image_height target_width target_height) image_height
      hy0 hratio hh
    obtain ⟨b00, b01, b10, b11⟩ := source_index_bounds image_width image_height _ _ c
      hsx0 hsx1 hsy0 hsy1 hc0 (by omega)
    have hdst := dest_index_bounds target_width target_height x y _ _ _ _ c hx0 hx1 hy0 hy1
      hl0 hl1 ht0 ht1 hc0 (by omega)
    have hform : ∀ a b : Int, c * target_width * target_height + a * target_width + b =
        c * (target_width * target_height) + (a * target_width + b) := by
      intro a b; ring
    rw [hform]
    exact ⟨b00, b01, b10, b11, hdst.1, hdst.2⟩
  · intro src_x src_y y_lerp c_stride dst_idx c st
    simp only [write_channel, if_true]
    ring
  · intro src_x src_y x_lerp c_stride dst_idx c st
    simp only [write_channel, if_true]
    ring

theorem letterbox_sampling_in_bounds_witness :
    ((7 : Int) < letterbox_new_width 4 2 8 8) ∧ ((3 : Int) < letterbox_new_height 4 2 8 8) ∧
      float_to_int (((7 : Int) : ℚ) / letterbox_ratio 4 2 8 8) ≥ 4 - 1 ∧
      source_coord 7 (letterbox_ratio 4 2 8 8) 4 = (4 - 2, 1) ∧
      (∀ r ∈ (preprocess_image_to_buffer (some (fun _ => 0)) 4 2 8 8
        (some (fun _ => 0))).reads, 0 ≤ r ∧ r < 4 * 4 * 2) ∧
      (∀ w ∈ (preprocess_image_to_buffer (some (fun _ => 0)) 4 2 8 8
        (some (fun _ => 0))).writes, 0 ≤ w ∧ w < 3 * 8 * 8) ∧
      (0 ≤ (((source_coord 3 (letterbox_ratio 4 2 8 8) 2).1 + 1) * 4 +
          (source_coord 7 (letterbox_ratio 4 2 8 8) 4).1 + 1) * 4 + 2 ∧
        (((source_coord 3 (letterbox_ratio 4 2 8 8) 2).1 + 1) * 4 +
          (source_coord 7 (letterbox_ratio 4 2 8 8) 4).1 + 1) * 4 + 2 < 4 * 4 * 2) :=
  have h := letterbox_sampling_in_bounds (fun _ => 0) (fun _ => 0) 4 2 8 8 (by decide)
    (by decide) (by decide) (by decide)
  have hx : (7 : Int) < letterbox_new_width 4 2 8 8 := by
    norm_num [letterbox_new_width, letterbox_ratio, float_to_int]
  have hy : (3 : Int) < letterbox_new_height 4 2 8 8 := by
    norm_num [letterbox_new_height, letterbox_ratio, float_to_int]
  have hclamp : float_to_int (((7 : Int) : ℚ) / letterbox_ratio 4 2 8 8) ≥ 4 - 1 := by
    norm_num [letterbox_ratio, float_to_int, Int.le_floor]
  ⟨hx, hy, hclamp, h.2.2.2.1 7 _ 4 hclamp, h.1, h.2.1,
    (h.2.2.1 7 3 2 (by decide) hx (by decide) hy (by decide) (by decide)).2.2.2.1⟩

/-! ## The loops of `onnx_detect_batch` on a valid batch -/

/-- The detections decoded from a slice do not depend on the incoming error state. -/
theorem parse_yolov8_output_fst_err (output_data : Int → ℚ) (num_features num_boxes
    model_type num_keypoints : Int) (conf_threshold scale_x scale_y : ℚ)
    (pad_left pad_top image_width image_height : Int) (alloc_keypoints : Int → Bool)
    (err err2 : ErrorState) :
    (parse_yolov8_output output_data num_features num_boxes model_type num_keypoints
        conf_threshold scale_x scale_y pad_left pad_top image_width image_height
        alloc_keypoints err).1 =
      (parse_yolov8_output output_data num_features num_boxes model_type num_keypoints
        conf_threshold scale_x scale_y pad_left pad_top image_width image_height
        alloc_keypoints err2).1 := by
  rw [parse_yolov8_output_fst, parse_yolov8_output_fst]

/-- The transform written by `preprocess_image_to_buffer` depends on the sizes only. -/
theorem preprocess_transform_indep (image image2 : Int → Nat) (buf buf2 : Int → ℚ)
    (image_width image_height target_width target_height : Int) :
    (preprocess_image_to_buffer (some image) image_width image_height target_width
        target_height (some buf)).transform =
      (preprocess_image_to_buffer (some image2) image_width image_height target_width
        target_height (some buf2)).transform := by
  unfold preprocess_image_to_buffer
  simp only []
  split <;> rfl

/-- The result loop keeps the length of `results`, leaves the slots in front of `i0` and
stores in every slot `j` of its range the NMS of the detections decoded from slice `j`. -/
theorem batch_results_loop_spec (alloc : Allocator) (sort : List Detection → List Detection)
    (output_data : Int → ℚ) (num_features num_boxes stride_per_image : Int)
    (image_widths image_heights : Int → Int) (transforms : List Transform)
    (conf_threshold nms_threshold : ℚ) (model_type num_keypoints : Int) :
    ∀ (n i0 : Nat) (st : List DetectionResult × ErrorState),
      (batch_results_loop alloc sort output_data num_features num_boxes stride_per_image
          image_widths image_heights transforms conf_threshold nms_threshold model_type
          num_keypoints n (i0 : Int) st).1.length = st.1.length ∧
      (∀ j : Nat, j < i0 →
        (batch_results_loop alloc sort output_data num_features num_boxes stride_per_image
          image_widths image_heights transforms conf_threshold nms_threshold model_type
          num_keypoints n (i0 : Int) st).1[j]? = st.1[j]?) ∧
      (∀ j : Nat, i0 ≤ j → j < i0 + n → j < st.1.length →
        alloc.detections (j : Int) = true →
        (batch_results_loop alloc sort output_data num_features num_boxes stride_per_image
          image_widths image_heights transforms conf_threshold nms_threshold model_type
          num_keypoints n (i0 : Int) st).1[j]? =
          some (result_slot (onnx_nms sort
            (parse_yolov8_output (fun k => output_data ((j : Int) * stride_per_image + k))
              num_features num_boxes model_type num_keypoints conf_threshold
              (transforms.getD j default).scale_x (transforms.getD j default).scale_y
              (transforms.getD j default).pad_left (transforms.getD j default).pad_top
              (image_widths (j : Int)) (image_heights (j : Int)) (alloc.keypoints (j : Int))
              clear_last_error).1 nms_threshold))) := by
  intro n
  induction n with
  | zero =>
    intro i0 st
    refine ⟨rfl, fun _ _ => rfl, ?_⟩
    intro j h1 h2
    omega
  | succ n ih =>
    intro i0 st
    simp only [batch_results_loop]
    have hcast : ((i0 : Int) + 1) = ((i0 + 1 : Nat) : Int) := by push_cast; rfl
    have htoNat : (i0 : Int).toNat = i0 := Int.toNat_natCast i0
    rw [hcast, htoNat]
    refine ⟨?_, ?_, ?_⟩
    · rw [(ih (i0 + 1) _).1]
      simp only [List.length_set]
    · intro j hj
      rw [(ih (i0 + 1) _).2.1 j (by omega)]
      simp only [List.getElem?_set]
      rw [if_neg (by omega)]
    · intro j h1 h2 h3 halloc
      by_cases hj : j = i0
      · subst hj
        rw [(ih (j + 1) _).2.1 j (by omega), List.getElem?_set_self h3]
        congr 1
        rw [parse_yolov8_output_fst_err _ _ _ _ _ _ _ _ _ _ _ _ _ st.2 clear_last_error]
        simp only [halloc, if_true]
        unfold result_slot
        split
        · rename_i hc
          simp only [if_pos hc]
        · rename_i hc
          simp only [if_neg hc]
      · exact (ih (i0 + 1) _).2.2 j (by omega) (by omega)
          (by simpa only [List.length_set] using h3) halloc

/-- On a batch whose images are all valid the preprocessing loop runs to its end, keeps
the length of the vector of transforms, leaves the entries in front of `i0` and stores in
every entry `j` of its range the transform of image `j`. -/
theorem batch_preprocess_loop_valid (image_data_list : Int → Option (Int → Nat))
    (image_widths image_heights : Int → Int) (w h image_size : Int) (err : ErrorState) :
    ∀ (n i0 : Nat) (st : (Int → ℚ) × List Transform),
      (∀ j : Nat, i0 ≤ j → j < i0 + n →
        (image_data_list (j : Int)).isSome = true ∧ 1 < image_widths (j : Int) ∧
          1 < image_heights (j : Int)) →
      ∃ input transforms,
        batch_preprocess_loop image_data_list image_widths image_heights w h image_size err
          n (i0 : Int) st = Except.ok (input, transforms) ∧
        transforms.length = st.2.length ∧
        (∀ j : Nat, j < i0 → transforms[j]? = st.2[j]?) ∧
        (∀ j : Nat, i0 ≤ j → j < i0 + n → j < st.2.length →
          transforms[j]? = some (preprocess_image_to_buffer (image_data_list (j : Int))
            (image_widths (j : Int)) (image_heights (j : Int)) w h
            (some (fun _ => 0))).transform) := by
  intro n
  induction n with
  | zero =>
    intro i0 st _
    refine ⟨st.1, st.2, rfl, rfl, fun _ _ => rfl, ?_⟩
    intro j h1 h2
    omega
  | succ n ih =>
    intro i0 st hvalid
    obtain ⟨himg, hwd, hht⟩ := hvalid i0 (le_refl _) (by omega)
    obtain ⟨image, himage⟩ := Option.isSome_iff_exists.mp himg
    have hv : ¬ (validate_image_dimensions (image_widths (i0 : Int)) (image_heights (i0 : Int))
        "detect_batch" err).1 = false := by
      unfold validate_image_dimensions
      rw [if_neg (by omega)]
      simp
    have hcast : ((i0 : Int) + 1) = ((i0 + 1 : Nat) : Int) := by push_cast; rfl
    have htoNat : (i0 : Int).toNat = i0 := Int.toNat_natCast i0
    have harith : ∀ j : Nat, i0 ≤ j → j < i0 + (n + 1) → j ≠ i0 →
        i0 + 1 ≤ j ∧ j < i0 + 1 + n := by
      intro j h1 h2 h3
      omega
    simp only [batch_preprocess_loop, himage, if_neg hv]
    rw [hcast, htoNat]
    obtain ⟨input, transforms, hloop, hlen, hfront, hrange⟩ := ih (i0 + 1)
      ((match (preprocess_image_to_buffer (some image) (image_widths (i0 : Int))
          (image_heights (i0 : Int)) w h
          (some (fun k => st.1 ((i0 : Int) * image_size + k)))).buffer with
        | some b => fun k => b (k - (i0 : Int) * image_size)
        | none => st.1),
        st.2.set i0 (preprocess_image_to_buffer (some image) (image_widths (i0 : Int))
          (image_heights (i0 : Int)) w h
          (some (fun k => st.1 ((i0 : Int) * image_size + k)))).transform)
      (fun j h1 h2 => hvalid j (by omega) (by omega))
    refine ⟨input, transforms, hloop, ?_, ?_, ?_⟩
    · rw [hlen]
      simp only [List.length_set]
    · intro j hj
      rw [hfront j (Nat.lt_succ_of_lt hj)]
      simp only [List.getElem?_set]
      rw [if_neg (Nat.ne_of_gt hj)]
    · intro j h1 h2 h3
      by_cases hj : j = i0
      · subst hj
        rw [hfront j (Nat.lt_succ_self j), List.getElem?_set_self h3, himage]
        congr 1
        exact preprocess_transform_indep _ _ _ _ _ _ _ _
      · exact hrange j (harith j h1 h2 hj).1 (harith j h1 h2 hj).2
          (by simpa only [List.length_set] using h3)

/-- Shape and content of the envelope of a valid batch: when the images are valid, the
allocations of the call succeed and the runtime calls succeed with output dimensions
`[N, F, B]`, `F, B > 0`, the envelope has `N` slots and slot `j` is the `result_slot` of
the NMS of the detections decoded from the memory at offset `j * (F * B)` of the output
tensor, with the transform and the size of image `j`. -/
theorem onnx_detect_batch_slots_aux (ort : OrtApi) (alloc : Allocator)
    (sort : List Detection → List Detection) (model : OnnxModel)
    (images : Int → Option (Int → Nat)) (num_images : Int) (widths heights : Int → Int)
    (conf_threshold nms_threshold : ℚ) (model_type num_keypoints : Int) (F B : Int)
    (hN : 1 ≤ num_images)
    (hvalid : ∀ j : Nat, (j : Int) < num_images →
      (images (j : Int)).isSome = true ∧ 1 < widths (j : Int) ∧ 1 < heights (j : Int))
    (hF : 0 < F) (hB : 0 < B)
    (hin : alloc.input_buffer = true) (hbr : alloc.batch_result = true)
    (hra : alloc.results_array = true) (hdet : ∀ i, alloc.detections i = true)
    (hort : ∀ input transforms,
      batch_preprocess_loop images widths heights model.input_width model.input_height
        (3 * model.input_width * model.input_height) clear_last_error num_images.toNat 0
        (fun _ => 0, List.replicate num_images.toNat ⟨0, 0, 0, 0⟩) =
        Except.ok (input, transforms) →
      (ort model input [num_images, 3, model.input_height, model.input_width]).create_tensor =
          none ∧
        (ort model input [num_images, 3, model.input_height, model.input_width]).run = none ∧
        (ort model input [num_images, 3, model.input_height, model.input_width]).tensor_data =
          none ∧
        (ort model input [num_images, 3, model.input_height, model.input_width]).tensor_shape =
          none ∧
        (ort model input
          [num_images, 3, model.input_height, model.input_width]).dimensions_count = none ∧
        (ort model input [num_images, 3, model.input_height, model.input_width]).output_dims =
          [num_images, F, B]) :
    ∃ input transforms rs,
      batch_preprocess_loop images widths heights model.input_width model.input_height
        (3 * model.input_width * model.input_height) clear_last_error num_images.toNat 0
        (fun _ => 0, List.replicate num_images.toNat ⟨0, 0, 0, 0⟩) =
        Except.ok (input, transforms) ∧
      (onnx_detect_batch ort alloc sort (some model) (some images) num_images (some widths)
        (some heights) conf_threshold nms_threshold model_type num_keypoints).result =
        some { results := some rs, num_images := num_images } ∧
      (onnx_detect_batch ort alloc sort (some model) (some images) num_images (some widths)
        (some heights) conf_threshold nms_threshold model_type num_keypoints).run_calls = 1 ∧
      rs.length = num_images.toNat ∧
      ∀ j : Nat, (j : Int) < num_images →
        rs[j]? = some (result_slot (onnx_nms sort
          (parse_yolov8_output
            (fun k => (ort model input
              [num_images, 3, model.input_height, model.input_width]).output_data
              ((j : Int) * (F * B) + k))
            F B model_type num_keypoints conf_threshold
            (preprocess_image_to_buffer (images (j : Int)) (widths (j : Int))
              (heights (j : Int)) model.input_width model.input_height
              (some (fun _ => 0))).transform.scale_x
            (preprocess_image_to_buffer (images (j : Int)) (widths (j : Int))
              (heights (j : Int)) model.input_width model.input_height
              (some (fun _ => 0))).transform.scale_y
            (preprocess_image_to_buffer (images (j : Int)) (widths (j : Int))
              (heights (j : Int)) model.input_width model.input_height
              (some (fun _ => 0))).transform.pad_left
            (preprocess_image_to_buffer (images (j : Int)) (widths (j : Int))
              (heights (j : Int)) model.input_width model.input_height
              (some (fun _ => 0))).transform.pad_top
            (widths (j : Int)) (heights (j : Int)) (alloc.keypoints (j : Int))
            clear_last_error).1 nms_threshold)) := by
  have hpos : ¬ num_images ≤ 0 := by omega
  have harith : ∀ j : Nat, (j : Int) < num_images → j < num_images.toNat := by
    intro j hj
    omega
  have harith2 : ∀ j : Nat, j < 0 + num_images.toNat → (j : Int) < num_images := by
    intro j hj
    omega
  obtain ⟨input, transforms, hloop, hlen, _, hrange⟩ := batch_preprocess_loop_valid images
    widths heights model.input_width model.input_height
    (3 * model.input_width * model.input_height) clear_last_error num_images.toNat 0
    (fun _ => 0, List.replicate num_images.toNat ⟨0, 0, 0, 0⟩)
    (fun j _ h2 => hvalid j (harith2 j h2))
  obtain ⟨h1, h2, h3, h4, h5, hdims⟩ := hort input transforms hloop
  have hzero : ((0 : Nat) : Int) = 0 := rfl
  have hspec := batch_results_loop_spec alloc sort
    (ort model input [num_images, 3, model.input_height, model.input_width]).output_data
    F B (F * B) widths heights transforms conf_threshold nms_threshold model_type num_keypoints
    num_images.toNat 0
    (List.replicate num_images.toNat { detections := none, count := 0, capacity := 0 },
      (handle_status (ort model input
        [num_images, 3, model.input_height, model.input_width]).dimensions "GetDimensions"
        clear_last_error).2)
  rw [hzero] at hspec hloop
  obtain ⟨hrlen, _, hslots⟩ := hspec
  have hguard : [num_images, F, B].length ≥ 3 ∧ [num_images, F, B].getD 1 0 > 0 ∧
      [num_images, F, B].getD 2 0 > 0 := ⟨Nat.le_refl 3, hF, hB⟩
  refine ⟨input, transforms,
    (batch_results_loop alloc sort
      (ort model input [num_images, 3, model.input_height, model.input_width]).output_data
      F B (F * B) widths heights transforms conf_threshold nms_threshold model_type
      num_keypoints num_images.toNat 0
      (List.replicate num_images.toNat { detections := none, count := 0, capacity := 0 },
        (handle_status (ort model input
          [num_images, 3, model.input_height, model.input_width]).dimensions "GetDimensions"
          clear_last_error).2)).1, hloop, ?_, ?_, ?_, ?_⟩
  · unfold onnx_detect_batch
    simp only [if_neg hpos, hin, hloop, h1, h2, h3, h4, h5, hbr, hra, hdims, handle_status,
      Bool.true_eq_false, if_false, if_pos hguard]
    rfl
  · unfold onnx_detect_batch
    simp only [if_neg hpos, hin, hloop, h1, h2, h3, h4, h5, hbr, hra, hdims, handle_status,
      Bool.true_eq_false, if_false, if_pos hguard]
  · rw [hrlen]
    simp only [List.length_replicate]
  · intro j hj
    have hjn := harith j hj
    have htr : transforms.getD j default =
        (preprocess_image_to_buffer (images (j : Int)) (widths (j : Int)) (heights (j : Int))
          model.input_width model.input_height (some (fun _ => 0))).transform := by
      have := hrange j (Nat.zero_le _) (by rw [Nat.zero_add]; exact hjn)
        (by simp only [List.length_replicate]; exact hjn)
      rw [List.getD_eq_getElem?_getD, this]
      rfl
    have hs := hslots j (Nat.zero_le _) (by rw [Nat.zero_add]; exact hjn)
      (by simp only [List.length_replicate]; exact hjn) (hdet _)
    rw [htr] at hs
    exact hs

/-! ## Ownership of the detections extracted by `onnx_detect` -/

/-- Slot 0 of a `results` array after the move: no detections and count 0. -/
theorem emptied_slot_aux (results : List DetectionResult) :
    ((results.set 0 { results.getD 0 default with detections := none, count := 0 }).getD 0
        default).detections = none ∧
      ((results.set 0 { results.getD 0 default with detections := none, count := 0 }).getD 0
        default).count = 0 := by
  cases results with
  | nil => exact ⟨rfl, rfl⟩
  | cons r rest => exact ⟨rfl, rfl⟩

/-- Releasing an envelope of one image whose slot 0 holds no detections releases the
`results` array and the envelope, nothing else. -/
theorem free_emptied_envelope_aux (results : List DetectionResult)
    (hempty : (results.getD 0 default).detections = none) :
    onnx_free_batch_result (some { results := some results, num_images := 1 }) =
      [Freed.results results, Freed.batch_envelope] := by
  have hone : Int.toNat 1 = 1 := rfl
  have hzero : Int.toNat 0 = 0 := rfl
  unfold onnx_free_batch_result
  simp only [hone]
  unfold free_results_loop
  simp only [hzero, hempty]
  unfold free_results_loop
  rfl

/-- Claim C23: in `onnx_detect`, once the single result is allocated and the batch of one
has returned an envelope, the returned result is slot 0 of the envelope as the batch call
left it (same detection sequence, same count); the envelope handed to
`onnx_free_batch_result` has `detections = null` and `count = 0` in slot 0; that call
releases the `results` array and the envelope only, so no detection sequence and no
keypoint buffer; and both release functions release nothing on a null pointer. -/
theorem onnx_detect_moves_ownership (ort : OrtApi) (alloc : Allocator)
    (sort : List Detection → List Detection) (handle : Option OnnxModel)
    (image_data : Option (Int → Nat)) (image_width image_height : Int)
    (conf_threshold nms_threshold : ℚ) (model_type num_keypoints : Int)
    (batch_res : BatchDetectionResult)
    (halloc : alloc.single_result = true)
    (hbatch : (onnx_detect_batch ort alloc sort handle (some (fun _ => image_data)) 1
      (some (fun _ => image_width)) (some (fun _ => image_height)) conf_threshold
      nms_threshold model_type num_keypoints).result = some batch_res) :
    ∃ results emptied,
      batch_res.results = some results ∧
      (extract_single batch_res).1 = results.getD 0 default ∧
      (onnx_detect ort alloc sort handle image_data image_width image_height conf_threshold
        nms_threshold model_type num_keypoints).ret =
        DetectReturn.result (extract_single batch_res).1 ∧
      (extract_single batch_res).2.results = some emptied ∧
      (emptied.getD 0 default).detections = none ∧
      (emptied.getD 0 default).count = 0 ∧
      onnx_free_batch_result (some (extract_single batch_res).2) =
        [Freed.results emptied, Freed.batch_envelope] ∧
      (∀ f ∈ onnx_free_batch_result (some (extract_single batch_res).2),
        (∀ buffer, f ≠ Freed.detections buffer) ∧ (∀ buffer, f ≠ Freed.keypoints buffer)) ∧
      onnx_free_batch_result none = [] ∧ onnx_free_result none = [] := by
  obtain ⟨⟨results, hresults⟩, hnum, _⟩ := onnx_detect_batch_result_shape _ _ _ _ _ _ _ _ _ _
    _ _ batch_res hbatch
  obtain ⟨results2, hresults2, hret⟩ := (onnx_detect_eq_batch_of_one ort alloc sort handle
    image_data image_width image_height conf_threshold nms_threshold model_type num_keypoints
    halloc).2 batch_res hbatch
  have hsame : results2 = results := by
    rw [hresults] at hresults2
    exact (Option.some.inj hresults2).symm
  subst hsame
  obtain ⟨rs, n⟩ := batch_res
  simp only at hresults hnum
  subst hresults
  subst hnum
  have hfst : (extract_single { results := some results2, num_images := 1 }).1 =
      results2.getD 0 default := by
    simp [extract_single]
  have hsnd : (extract_single { results := some results2, num_images := 1 }).2 =
      { results := some (results2.set 0
          { results2.getD 0 default with detections := none, count := 0 }),
        num_images := 1 } := by
    simp [extract_single]
  have hslot := emptied_slot_aux results2
  have hfree := free_emptied_envelope_aux _ hslot.1
  refine ⟨results2, results2.set 0
    { results2.getD 0 default with detections := none, count := 0 }, rfl, hfst, ?_, ?_,
    hslot.1, hslot.2, ?_, ?_, rfl, rfl⟩
  · rw [hfst]
    exact hret
  · rw [hsnd]
  · rw [hsnd]
    exact hfree
  · rw [hsnd, hfree]
    intro f hf
    simp only [List.mem_cons, List.mem_singleton, List.mem_nil_iff, or_false] at hf
    rcases hf with rfl | rfl
    · exact ⟨fun _ h => Freed.noConfusion h, fun _ h => Freed.noConfusion h⟩
    · exact ⟨fun _ h => Freed.noConfusion h, fun _ h => Freed.noConfusion h⟩

/-! ## The batch of one on the test runtime -/

/-- The transform of a `4 × 2` image in an `8 × 8` input: scale 2, pads `(0, 2)`. -/
theorem preprocess_transform_4_2_aux (image : Int → Nat) :
    (preprocess_image_to_buffer (some image) 4 2 8 8 (some (fun _ => 0))).transform =
      ⟨2, 2, 0, 2⟩ := by
  have htdiv : Int.tdiv 4 2 = 2 := rfl
  norm_num [preprocess_image_to_buffer, letterbox_ratio, letterbox_new_width,
    letterbox_new_height, float_to_int, htdiv]

/-- The envelope of the batch of one `4 × 2` image on the runtime `ort_one_box`: one
slot holding the detection `det_one_box`. -/
theorem batch_one_box_aux :
    (onnx_detect_batch ort_one_box alloc_all sort_by_confidence (some model_8x8)
      (some (fun _ => some (fun _ => 0))) 1 (some (fun _ => 4)) (some (fun _ => 2)) (1/2)
      (3/10) MODEL_TYPE_YOLO 0).result = some envelope_one_box := by
  obtain ⟨input, transforms, rs, _, hres, _, hlen, hslots⟩ := onnx_detect_batch_slots_aux
    ort_one_box alloc_all sort_by_confidence model_8x8 (fun _ => some (fun _ => 0)) 1
    (fun _ => 4) (fun _ => 2) (1/2) (3/10) MODEL_TYPE_YOLO 0 5 1 (by decide)
    (fun _ _ => ⟨rfl, show (1 : Int) < 4 by decide, show (1 : Int) < 2 by decide⟩) (by decide)
    (by decide) rfl rfl rfl (fun _ => rfl) (fun _ _ _ => ⟨rfl, rfl, rfl, rfl, rfl, rfl⟩)
  have h0 := hslots 0 (by decide)
  have hslice : (fun k => (ort_one_box model_8x8 input
      [1, 3, model_8x8.input_height, model_8x8.input_width]).output_data
      (((0 : Nat) : Int) * (5 * 1) + k)) = slice_one_box := by
    funext k
    simp [ort_one_box, slice_one_box]
  have hparse : (parse_yolov8_output slice_one_box 5 1 MODEL_TYPE_YOLO 0 (1/2) 2 2 0 2 4 2
      (alloc_all.keypoints ((0 : Nat) : Int)) clear_last_error).1 = [det_one_box] := by
    rw [parse_yolov8_output_fst]
    have hone : Int.toNat 1 = 1 := rfl
    rw [hone]
    simp only [List.range_succ, List.range_zero, List.nil_append, List.filterMap_cons,
      List.filterMap_nil]
    have hb := parse_box_slice_one_box clear_last_error
    simp only [alloc_all, Nat.cast_zero] at hb ⊢
    rw [hb]
  have hnms : onnx_nms sort_by_confidence [det_one_box] (3/10) = [det_one_box] := by
    simp [onnx_nms, sort_by_confidence, insert_by_confidence, nms_outer, nms_inner]
  rw [hslice] at h0
  have htr := preprocess_transform_4_2_aux (fun _ => 0)
  simp only [model_8x8] at h0
  rw [htr] at h0
  simp only [] at h0
  rw [hparse, hnms] at h0
  rw [hres]
  have hone : Int.toNat 1 = 1 := rfl
  rw [hone] at hlen
  match rs, hlen, h0 with
  | [r], _, h0 =>
    simp only [List.getElem?_cons_zero, Option.some.injEq] at h0
    rw [h0]
    rfl

/-- Witness of `onnx_detect_moves_ownership` on the batch of one of `batch_one_box_aux`:
the envelope as returned would release the detection sequence `[det_one_box]`, the
emptied envelope does not, and `onnx_free_result` of the returned result releases it. -/
theorem onnx_detect_moves_ownership_witness :
    alloc_all.single_result = true ∧
      (onnx_detect_batch ort_one_box alloc_all sort_by_confidence (some model_8x8)
        (some (fun _ => some (fun _ => 0))) 1 (some (fun _ => 4)) (some (fun _ => 2)) (1/2)
        (3/10) MODEL_TYPE_YOLO 0).result = some envelope_one_box ∧
      Freed.detections [det_one_box] ∈ onnx_free_batch_result (some envelope_one_box) ∧
      onnx_free_result (some slot_one_box) =
        [Freed.detections [det_one_box], Freed.single_envelope] ∧
      ∃ results emptied,
        envelope_one_box.results = some results ∧
        (extract_single envelope_one_box).1 = results.getD 0 default ∧
        (onnx_detect ort_one_box alloc_all sort_by_confidence (some model_8x8)
          (some (fun _ => 0)) 4 2 (1/2) (3/10) MODEL_TYPE_YOLO 0).ret =
          DetectReturn.result (extract_single envelope_one_box).1 ∧
        (extract_single envelope_one_box).2.results = some emptied ∧
        (emptied.getD 0 default).detections = none ∧
        (emptied.getD 0 default).count = 0 ∧
        onnx_free_batch_result (some (extract_single envelope_one_box).2) =
          [Freed.results emptied, Freed.batch_envelope] ∧
        (∀ f ∈ onnx_free_batch_result (some (extract_single envelope_one_box).2),
          (∀ buffer, f ≠ Freed.detections buffer) ∧
            (∀ buffer, f ≠ Freed.keypoints buffer)) ∧
        onnx_free_batch_result none = [] ∧ onnx_free_result none = [] :=
  have hfree : Freed.detections [det_one_box] ∈
      onnx_free_batch_result (some envelope_one_box) := by
    simp [onnx_free_batch_result, free_results_loop, free_keypoints_loop, det_one_box,
      make_det, envelope_one_box, slot_one_box, show Int.toNat 1 = 1 from rfl]
  have hsingle : onnx_free_result (some slot_one_box) =
      [Freed.detections [det_one_box], Freed.single_envelope] := by
    simp [onnx_free_result, free_keypoints_loop, det_one_box, make_det, slot_one_box,
      show Int.toNat 1 = 1 from rfl]
  ⟨rfl, batch_one_box_aux, hfree, hsingle,
    onnx_detect_moves_ownership ort_one_box alloc_all sort_by_confidence (some model_8x8)
      (some (fun _ => 0)) 4 2 (1/2) (3/10) MODEL_TYPE_YOLO 0 envelope_one_box rfl
      batch_one_box_aux⟩

/-! ## The decoder depends on the cells it reads only -/

/-- The class scan gives the same result on two memories that agree on the cells it
reads. -/
theorem best_class_loop_congr_aux (output_data output_data2 : Int → ℚ) (num_boxes i : Int) :
    ∀ (n : Nat) (c : Int) (best : Int × ℚ),
      (∀ r ∈ best_class_reads num_boxes i n c, output_data r = output_data2 r) →
      best_class_loop output_data num_boxes i n c best =
        best_class_loop output_data2 num_boxes i n c best := by
  intro n
  induction n with
  | zero =>
    intro c best _
    rfl
  | succ n ih =>
    intro c best h
    unfold best_class_loop
    simp only []
    rw [h ((4 + c) * num_boxes + i) (List.mem_cons_self _ _)]
    exact ih (c + 1) _ (fun r hr => h r (List.mem_cons_of_mem _ hr))

/-- The keypoint loop gives the same result on two memories that agree on the cells it
reads. -/
theorem keypoint_loop_congr_aux (output_data output_data2 : Int → ℚ)
    (num_boxes i kpt_start : Int) (scale_x scale_y : ℚ)
    (pad_left pad_top image_width image_height : Int) :
    ∀ (n : Nat) (k : Int) (keypoints : List ℚ),
      (∀ r ∈ keypoint_reads num_boxes i kpt_start n k, output_data r = output_data2 r) →
      keypoint_loop output_data num_boxes i kpt_start scale_x scale_y pad_left pad_top
          image_width image_height n k keypoints =
        keypoint_loop output_data2 num_boxes i kpt_start scale_x scale_y pad_left pad_top
          image_width image_height n k keypoints := by
  intro n
  induction n with
  | zero =>
    intro k keypoints _
    rfl
  | succ n ih =>
    intro k keypoints h
    unfold keypoint_loop
    simp only []
    rw [h ((kpt_start + k * 3 + 0) * num_boxes + i) (List.mem_cons_self _ _),
      h ((kpt_start + k * 3 + 1) * num_boxes + i)
        (List.mem_cons_of_mem _ (List.mem_cons_self _ _)),
      h ((kpt_start + k * 3 + 2) * num_boxes + i)
        (List.mem_cons_of_mem _ (List.mem_cons_of_mem _ (List.mem_cons_self _ _)))]
    exact ih (k + 1) _ (fun r hr =>
      h r (List.mem_cons_of_mem _ (List.mem_cons_of_mem _ (List.mem_cons_of_mem _ hr))))

/-- The body of the box loop gives the same detection on two memories that agree on the
cells it reads. -/
theorem parse_box_congr_aux (output_data output_data2 : Int → ℚ)
    (num_boxes num_classes model_type num_keypoints : Int)
    (conf_threshold scale_x scale_y : ℚ) (pad_left pad_top image_width image_height : Int)
    (alloc_ok : Bool) (i : Int) (err : ErrorState)
    (h : ∀ r ∈ parse_box_reads output_data num_boxes num_classes model_type num_keypoints
      conf_threshold alloc_ok i, output_data r = output_data2 r) :
    parse_box output_data num_boxes num_classes model_type num_keypoints conf_threshold
        scale_x scale_y pad_left pad_top image_width image_height alloc_ok i err =
      parse_box output_data2 num_boxes num_classes model_type num_keypoints conf_threshold
        scale_x scale_y pad_left pad_top image_width image_height alloc_ok i err := by
  have hfront : ∀ r ∈ [0 * num_boxes + i, 1 * num_boxes + i, 2 * num_boxes + i,
      3 * num_boxes + i] ++ best_class_reads num_boxes i num_classes.toNat 0,
      output_data r = output_data2 r := by
    intro r hr
    apply h
    unfold parse_box_reads
    simp only []
    split
    · exact hr
    · split
      · split
        · exact List.mem_append_left _ hr
        · exact hr
      · exact hr
  have hbest := best_class_loop_congr_aux output_data output_data2 num_boxes i
    num_classes.toNat 0 (0, 0) (fun r hr => hfront r (List.mem_append_right _ hr))
  have h0 := hfront (0 * num_boxes + i) (List.mem_append_left _ (List.mem_cons_self _ _))
  have h1 := hfront (1 * num_boxes + i)
    (List.mem_append_left _ (List.mem_cons_of_mem _ (List.mem_cons_self _ _)))
  have h2 := hfront (2 * num_boxes + i) (List.mem_append_left _
    (List.mem_cons_of_mem _ (List.mem_cons_of_mem _ (List.mem_cons_self _ _))))
  have h3 := hfront (3 * num_boxes + i) (List.mem_append_left _ (List.mem_cons_of_mem _
    (List.mem_cons_of_mem _ (List.mem_cons_of_mem _ (List.mem_cons_self _ _)))))
  unfold parse_box
  simp only []
  rw [← hbest, ← h0, ← h1, ← h2, ← h3]
  by_cases hconf : (best_class_loop output_data num_boxes i num_classes.toNat 0 (0, 0)).2 <
      conf_threshold
  · rw [if_pos hconf, if_pos hconf]
  · rw [if_neg hconf, if_neg hconf]
    by_cases hpose : model_type = MODEL_TYPE_YOLO_POSE ∧ num_keypoints > 0
    · rw [if_pos hpose, if_pos hpose]
      cases halloc : alloc_ok with
      | false => rfl
      | true =>
        have hkp : ∀ r ∈ keypoint_reads num_boxes i (4 + num_classes) num_keypoints.toNat 0,
            output_data r = output_data2 r := by
          intro r hr
          apply h
          unfold parse_box_reads
          simp only []
          rw [if_neg hconf, if_pos hpose, halloc, if_pos rfl]
          exact List.mem_append_right _ hr
        rw [keypoint_loop_congr_aux output_data output_data2 num_boxes i (4 + num_classes)
          scale_x scale_y pad_left pad_top image_width image_height num_keypoints.toNat 0 _
          hkp]
    · rw [if_neg hpose, if_neg hpose]

/-- The trace of the box loop keeps the trace so far and holds the reads of every box of
its range. -/
theorem parse_box_reads_subset_aux (output_data : Int → ℚ) (num_boxes num_classes model_type
    num_keypoints : Int) (conf_threshold : ℚ) (alloc_keypoints : Int → Bool) :
    ∀ (n : Nat) (i0 : Int) (trace : List Int),
      (∀ r ∈ trace, r ∈ parse_loop_reads output_data num_boxes num_classes model_type
        num_keypoints conf_threshold alloc_keypoints n i0 trace) ∧
      (∀ j : Nat, j < n →
        ∀ r ∈ parse_box_reads output_data num_boxes num_classes model_type num_keypoints
          conf_threshold (alloc_keypoints (i0 + (j : Int))) (i0 + (j : Int)),
        r ∈ parse_loop_reads output_data num_boxes num_classes model_type num_keypoints
          conf_threshold alloc_keypoints n i0 trace) := by
  intro n
  induction n with
  | zero =>
    intro i0 trace
    exact ⟨fun r hr => hr, fun j hj => absurd hj (Nat.not_lt_zero j)⟩
  | succ n ih =>
    intro i0 trace
    have hstep := ih (i0 + 1) (trace ++ parse_box_reads output_data num_boxes num_classes
      model_type num_keypoints conf_threshold (alloc_keypoints i0) i0)
    constructor
    · intro r hr
      unfold parse_loop_reads
      exact hstep.1 r (List.mem_append_left _ hr)
    · intro j hj r hr
      unfold parse_loop_reads
      cases j with
      | zero =>
        simp only [Nat.cast_zero, add_zero] at hr
        exact hstep.1 r (List.mem_append_right _ hr)
      | succ j =>
        have hidx : i0 + ((j + 1 : Nat) : Int) = i0 + 1 + (j : Int) := by
          push_cast
          ring
        rw [hidx] at hr
        exact hstep.2 j (Nat.lt_of_succ_lt_succ hj) r hr

/-- The detections decoded by `parse_yolov8_output` are the same on two memories that
agree on the cells it reads. -/
theorem parse_yolov8_output_congr_aux (output_data output_data2 : Int → ℚ)
    (num_features num_boxes model_type num_keypoints : Int)
    (conf_threshold scale_x scale_y : ℚ) (pad_left pad_top image_width image_height : Int)
    (alloc_keypoints : Int → Bool) (err err2 : ErrorState)
    (h : ∀ r ∈ parse_yolov8_output_reads output_data num_features num_boxes model_type
      num_keypoints conf_threshold alloc_keypoints, output_data r = output_data2 r) :
    (parse_yolov8_output output_data num_features num_boxes model_type num_keypoints
        conf_threshold scale_x scale_y pad_left pad_top image_width image_height
        alloc_keypoints err).1 =
      (parse_yolov8_output output_data2 num_features num_boxes model_type num_keypoints
        conf_threshold scale_x scale_y pad_left pad_top image_width image_height
        alloc_keypoints err2).1 := by
  rw [parse_yolov8_output_fst, parse_yolov8_output_fst]
  apply List.filterMap_congr
  intro j hj
  have hjn : j < num_boxes.toNat := List.mem_range.mp hj
  have hsub := (parse_box_reads_subset_aux output_data num_boxes
    (parse_num_classes num_features model_type num_keypoints) model_type num_keypoints
    conf_threshold alloc_keypoints num_boxes.toNat 0 []).2 j hjn
  simp only [zero_add] at hsub
  rw [parse_box_congr_aux output_data output_data2 num_boxes
    (parse_num_classes num_features model_type num_keypoints) model_type num_keypoints
    conf_threshold scale_x scale_y pad_left pad_top image_width image_height
    (alloc_keypoints (j : Int)) (j : Int) clear_last_error
    (fun r hr => h r (hsub r hr))]

/-! ## Slot `j` of the envelope and slice `j` of the output tensor -/

/-- When the class count needs no clamp, slot `j` of the envelope is the same for two
batches of `N` valid images and two runtimes, provided image `j` has the same size in
both and the two output tensors agree on slice `j`, the cells
`[j * F * B, (j + 1) * F * B)`. -/
theorem onnx_detect_batch_slot_local_aux (ort ort2 : OrtApi) (alloc : Allocator)
    (sort : List Detection → List Detection) (model : OnnxModel)
    (images images2 : Int → Option (Int → Nat)) (num_images : Int)
    (widths heights widths2 heights2 : Int → Int)
    (conf_threshold nms_threshold : ℚ) (model_type num_keypoints : Int) (F B : Int)
    (hN : 1 ≤ num_images)
    (hvalid : ∀ j : Nat, (j : Int) < num_images →
      (images (j : Int)).isSome = true ∧ 1 < widths (j : Int) ∧ 1 < heights (j : Int))
    (hvalid2 : ∀ j : Nat, (j : Int) < num_images →
      (images2 (j : Int)).isSome = true ∧ 1 < widths2 (j : Int) ∧ 1 < heights2 (j : Int))
    (hB : 0 < B)
    (hcount : 1 ≤ (if model_type = MODEL_TYPE_YOLO_POSE ∧ num_keypoints > 0 then
      F - 4 - num_keypoints * 3 else F - 4))
    (hin : alloc.input_buffer = true) (hbr : alloc.batch_result = true)
    (hra : alloc.results_array = true) (hdet : ∀ i, alloc.detections i = true)
    (hort : ∀ input,
      (ort model input [num_images, 3, model.input_height, model.input_width]).create_tensor =
          none ∧
        (ort model input [num_images, 3, model.input_height, model.input_width]).run = none ∧
        (ort model input [num_images, 3, model.input_height, model.input_width]).tensor_data =
          none ∧
        (ort model input [num_images, 3, model.input_height, model.input_width]).tensor_shape =
          none ∧
        (ort model input
          [num_images, 3, model.input_height, model.input_width]).dimensions_count = none ∧
        (ort model input [num_images, 3, model.input_height, model.input_width]).output_dims =
          [num_images, F, B])
    (hort2 : ∀ input,
      (ort2 model input [num_images, 3, model.input_height, model.input_width]).create_tensor =
          none ∧
        (ort2 model input [num_images, 3, model.input_height, model.input_width]).run = none ∧
        (ort2 model input [num_images, 3, model.input_height, model.input_width]).tensor_data =
          none ∧
        (ort2 model input [num_images, 3, model.input_height, model.input_width]).tensor_shape =
          none ∧
        (ort2 model input
          [num_images, 3, model.input_height, model.input_width]).dimensions_count = none ∧
        (ort2 model input [num_images, 3, model.input_height, model.input_width]).output_dims =
          [num_images, F, B])
    (j : Nat) (hj : (j : Int) < num_images)
    (hw : widths (j : Int) = widths2 (j : Int)) (hh : heights (j : Int) = heights2 (j : Int))
    (hslice : ∀ input input2 k, 0 ≤ k → k < F * B →
      (ort model input [num_images, 3, model.input_height, model.input_width]).output_data
          ((j : Int) * (F * B) + k) =
        (ort2 model input2 [num_images, 3, model.input_height, model.input_width]).output_data
          ((j : Int) * (F * B) + k)) :
    ∃ rs rs2,
      (onnx_detect_batch ort alloc sort (some model) (some images) num_images (some widths)
        (some heights) conf_threshold nms_threshold model_type num_keypoints).result =
        some { results := some rs, num_images := num_images } ∧
      (onnx_detect_batch ort2 alloc sort (some model) (some images2) num_images (some widths2)
        (some heights2) conf_threshold nms_threshold model_type num_keypoints).result =
        some { results := some rs2, num_images := num_images } ∧
      rs[j]? = rs2[j]? := by
  have hF : 0 < F := by
    split at hcount <;> omega
  obtain ⟨input, _, rs, _, hres, _, _, hslots⟩ := onnx_detect_batch_slots_aux ort alloc sort
    model images num_images widths heights conf_threshold nms_threshold model_type
    num_keypoints F B hN hvalid hF hB hin hbr hra hdet (fun input _ _ => hort input)
  obtain ⟨input2, _, rs2, _, hres2, _, _, hslots2⟩ := onnx_detect_batch_slots_aux ort2 alloc
    sort model images2 num_images widths2 heights2 conf_threshold nms_threshold model_type
    num_keypoints F B hN hvalid2 hF hB hin hbr hra hdet (fun input _ _ => hort2 input)
  refine ⟨rs, rs2, hres, hres2, ?_⟩
  rw [hslots j hj, hslots2 j hj]
  obtain ⟨image, himage⟩ := Option.isSome_iff_exists.mp (hvalid j hj).1
  obtain ⟨image2, himage2⟩ := Option.isSome_iff_exists.mp (hvalid2 j hj).1
  rw [himage, himage2, ← hw, ← hh,
    preprocess_transform_indep image2 image (fun _ => 0) (fun _ => 0)]
  congr 3
  apply parse_yolov8_output_congr_aux
  intro r hr
  have hin := parse_reads_in_slice _ F B model_type num_keypoints conf_threshold _ hcount r hr
  exact hslice input input2 r hin.1 hin.2

/-- Claim C21 fails on the code when the class count is clamped (`F ≤ 4`): slot `i` then
depends on the slice of image `i + 1`.  Two runs on the same batch of two `4 × 2` images
with an output tensor of shape `[2, 4, 1]`: the two tensors agree on slice 0 (cells 0 to
3) and differ in cell 4 only, the first cell of slice 1; slot 0 of the first run is empty
and slot 0 of the second holds one detection of confidence `9/10`, the value of cell 4. -/
theorem batch_slot_reads_next_slice :
    (∀ (model : OnnxModel) (input : Int → ℚ) (shape : List Int),
      (ort_short_rows 0 model input shape).output_dims = [2, 4, 1] ∧
      (ort_short_rows (9/10) model input shape).output_dims = [2, 4, 1] ∧
      [0, 1, 2, 3].map (fun k =>
        (ort_short_rows 0 model input shape).output_data (0 * (4 * 1) + k)) = [0, 0, 0, 0] ∧
      [0, 1, 2, 3].map (fun k =>
        (ort_short_rows (9/10) model input shape).output_data (0 * (4 * 1) + k)) =
        [0, 0, 0, 0] ∧
      (ort_short_rows 0 model input shape).output_data (1 * (4 * 1) + 0) = 0 ∧
      (ort_short_rows (9/10) model input shape).output_data (1 * (4 * 1) + 0) = 9/10) ∧
      ∃ ra rb,
        (onnx_detect_batch (ort_short_rows 0) alloc_all sort_by_confidence (some model_8x8)
          (some (fun _ => some (fun _ => 0))) 2 (some (fun _ => 4)) (some (fun _ => 2)) (1/2)
          (3/10) MODEL_TYPE_YOLO 0).result = some { results := some ra, num_images := 2 } ∧
        (onnx_detect_batch (ort_short_rows (9/10)) alloc_all sort_by_confidence
          (some model_8x8) (some (fun _ => some (fun _ => 0))) 2 (some (fun _ => 4))
          (some (fun _ => 2)) (1/2) (3/10) MODEL_TYPE_YOLO 0).result =
          some { results := some rb, num_images := 2 } ∧
        ra[0]? = some (result_slot []) ∧
        rb[0]? = some (result_slot [make_det 0 (9/10) 0 (-1/2) 0 0]) := by
  have hrun : ∀ v : ℚ, ∃ rs,
      (onnx_detect_batch (ort_short_rows v) alloc_all sort_by_confidence (some model_8x8)
        (some (fun _ => some (fun _ => 0))) 2 (some (fun _ => 4)) (some (fun _ => 2)) (1/2)
        (3/10) MODEL_TYPE_YOLO 0).result = some { results := some rs, num_images := 2 } ∧
      rs[0]? = some (result_slot (onnx_nms sort_by_confidence
        (parse_yolov8_output (fun k => if k = 4 then v else 0) 4 1 MODEL_TYPE_YOLO 0 (1/2)
          2 2 0 2 4 2 (fun _ => true) clear_last_error).1 (3/10))) := by
    intro v
    obtain ⟨input, _, rs, _, hres, _, _, hslots⟩ := onnx_detect_batch_slots_aux
      (ort_short_rows v) alloc_all sort_by_confidence model_8x8 (fun _ => some (fun _ => 0)) 2
      (fun _ => 4) (fun _ => 2) (1/2) (3/10) MODEL_TYPE_YOLO 0 4 1 (by decide)
      (fun _ _ => ⟨rfl, show (1 : Int) < 4 by decide, show (1 : Int) < 2 by decide⟩)
      (by decide) (by decide) rfl rfl rfl (fun _ => rfl)
      (fun _ _ _ => ⟨rfl, rfl, rfl, rfl, rfl, rfl⟩)
    have h0 := hslots 0 (by decide)
    have hslice : (fun k => (ort_short_rows v model_8x8 input
        [2, 3, model_8x8.input_height, model_8x8.input_width]).output_data
        (((0 : Nat) : Int) * (4 * 1) + k)) = (fun k => if k = 4 then v else 0) := by
      funext k
      simp [ort_short_rows]
    rw [hslice] at h0
    have htr := preprocess_transform_4_2_aux (fun _ => 0)
    simp only [model_8x8] at h0
    rw [htr] at h0
    exact ⟨rs, hres, h0⟩
  have hone : Int.toNat 1 = 1 := rfl
  have hparse0 : (parse_yolov8_output (fun k => if k = 4 then (0 : ℚ) else 0) 4 1
      MODEL_TYPE_YOLO 0 (1/2) 2 2 0 2 4 2 (fun _ => true) clear_last_error).1 = [] := by
    rw [parse_yolov8_output_fst, hone]
    norm_num [List.range_succ, parse_box, parse_num_classes, best_class_loop,
      MODEL_TYPE_YOLO, MODEL_TYPE_YOLO_POSE]
  have hparse1 : (parse_yolov8_output (fun k => if k = 4 then (9/10 : ℚ) else 0) 4 1
      MODEL_TYPE_YOLO 0 (1/2) 2 2 0 2 4 2 (fun _ => true) clear_last_error).1 =
      [make_det 0 (9/10) 0 (-1/2) 0 0] := by
    have hbox : (parse_box (fun k => if k = 4 then (9/10 : ℚ) else 0) 1
        (parse_num_classes 4 MODEL_TYPE_YOLO 0) MODEL_TYPE_YOLO 0 (1/2) 2 2 0 2 4 2 true
        ((0 : Nat) : Int) clear_last_error).1 = some (make_det 0 (9/10) 0 (-1/2) 0 0) := by
      norm_num [parse_box, parse_num_classes, best_class_loop, make_det, MODEL_TYPE_YOLO,
        MODEL_TYPE_YOLO_POSE]
    rw [parse_yolov8_output_fst, hone]
    simp only [List.range_succ, List.range_zero, List.nil_append, List.filterMap_cons,
      List.filterMap_nil, hbox]
  have hnms0 : onnx_nms sort_by_confidence [] (3/10) = [] := by
    simp [onnx_nms, sort_by_confidence, nms_outer]
  have hnms1 : onnx_nms sort_by_confidence [make_det 0 (9/10) 0 (-1/2) 0 0] (3/10) =
      [make_det 0 (9/10) 0 (-1/2) 0 0] := by
    simp [onnx_nms, sort_by_confidence, insert_by_confidence, nms_outer, nms_inner]
  obtain ⟨ra, hra, hra0⟩ := hrun 0
  obtain ⟨rb, hrb, hrb0⟩ := hrun (9/10)
  rw [hparse0, hnms0] at hra0
  rw [hparse1, hnms1] at hrb0
  refine ⟨fun model input shape => ⟨rfl, rfl, ?_, ?_, ?_, ?_⟩, ra, rb, hra, hrb, hra0, hrb0⟩
  · simp [ort_short_rows]
  · simp [ort_short_rows]
  · simp [ort_short_rows]
  · simp [ort_short_rows]

/-! ## Rounding to binary32 -/

theorem round_half_even_intCast (n : Int) : round_half_even (n : ℚ) = n := by
  unfold round_half_even
  simp

theorem round_half_even_eq (q : ℚ) (m : Int) (hlo : (m : ℚ) - 1/2 < q)
    (hhi : q < (m : ℚ) + 1/2) : round_half_even q = m := by
  unfold round_half_even
  simp only []
  by_cases hq : (m : ℚ) ≤ q
  · have hf : ⌊q⌋ = m := by
      rw [Int.floor_eq_iff]
      constructor
      · exact hq
      · linarith
    rw [hf, if_pos (by linarith)]
  · have hq2 : q < (m : ℚ) := lt_of_not_le hq
    have hf : ⌊q⌋ = m - 1 := by
      rw [Int.floor_eq_iff]
      push_cast
      constructor
      · linarith
      · linarith
    rw [hf]
    push_cast
    rw [if_neg (by linarith), if_pos (by linarith)]
    ring

theorem round_half_even_tie (m : Int) :
    round_half_even ((m : ℚ) + 1/2) = if m % 2 = 0 then m else m + 1 := by
  unfold round_half_even
  simp only []
  have hf : ⌊(m : ℚ) + 1/2⌋ = m := by
    rw [Int.floor_eq_iff]
    constructor <;> linarith
  rw [hf, if_neg (by linarith), if_neg (by linarith)]

theorem round_half_even_nonneg (q : ℚ) (hq : 0 ≤ q) : 0 ≤ round_half_even q := by
  unfold round_half_even
  simp only []
  have hf : 0 ≤ ⌊q⌋ := Int.floor_nonneg.mpr hq
  split_ifs <;> omega

theorem abs_round_half_even_sub (q : ℚ) : |(round_half_even q : ℚ) - q| ≤ 1/2 := by
  unfold round_half_even
  simp only []
  have h1 : (⌊q⌋ : ℚ) ≤ q := Int.floor_le q
  have h2 : q < (⌊q⌋ : ℚ) + 1 := Int.lt_floor_add_one q
  rw [abs_le]
  split_ifs with ha hb hc
  · constructor <;> linarith
  · push_cast; constructor <;> linarith
  · constructor <;> linarith
  · push_cast; constructor <;> linarith

theorem two_zpow_pos (e : Int) : (0 : ℚ) < (2 : ℚ) ^ e := zpow_pos (by norm_num) e

theorem ulp_exponent_eq (q : ℚ) (e : Int) (hq : q ≠ 0) (he : -149 ≤ e)
    (hhi : |q| < (2 : ℚ) ^ (e + 24)) (hlo : e = -149 ∨ (2 : ℚ) ^ (e + 23) ≤ |q|) :
    ulp_exponent q = e := by
  have hpos : 0 < |q| := abs_pos.mpr hq
  have h2 : ((2 : ℕ) : ℚ) = 2 := by norm_num
  have hlog_lt : Int.log 2 |q| < e + 24 := by
    rw [← Int.lt_zpow_iff_log_lt (by norm_num) hpos, h2]
    exact hhi
  unfold ulp_exponent
  rcases hlo with h | h
  · subst h
    rw [max_eq_right (by omega)]
  · have hlog_ge : e + 23 ≤ Int.log 2 |q| := by
      rw [← Int.zpow_le_iff_le_log (by norm_num) hpos, h2]
      exact h
    have : Int.log 2 |q| - 23 = e := by omega
    rw [this, max_eq_left he]

theorem round_binary32_zero : round_binary32 0 = 0 := by
  unfold round_binary32
  simp [round_half_even]

/-- Evaluation of `round_binary32`: `m * 2 ^ e` is the binary32 number nearest to `q`. -/
theorem round_binary32_eq (q : ℚ) (m e : Int) (hq : q ≠ 0) (he : -149 ≤ e)
    (hhi : |q| < (2 : ℚ) ^ (e + 24)) (hlo : e = -149 ∨ (2 : ℚ) ^ (e + 23) ≤ |q|)
    (hm1 : (m : ℚ) - 1/2 < q / (2 : ℚ) ^ e) (hm2 : q / (2 : ℚ) ^ e < (m : ℚ) + 1/2) :
    round_binary32 q = (m : ℚ) * (2 : ℚ) ^ e := by
  unfold round_binary32
  rw [ulp_exponent_eq q e hq he hhi hlo, round_half_even_eq _ m hm1 hm2]

/-- Evaluation of `round_binary32` at a tie. -/
theorem round_binary32_eq_tie (q : ℚ) (m e : Int) (hq : q ≠ 0) (he : -149 ≤ e)
    (hhi : |q| < (2 : ℚ) ^ (e + 24)) (hlo : e = -149 ∨ (2 : ℚ) ^ (e + 23) ≤ |q|)
    (hm : q / (2 : ℚ) ^ e = (m : ℚ) + 1/2) :
    round_binary32 q = ((if m % 2 = 0 then m else m + 1 : Int) : ℚ) * (2 : ℚ) ^ e := by
  unfold round_binary32
  rw [ulp_exponent_eq q e hq he hhi hlo, hm, round_half_even_tie]

/-- A number `m * 2 ^ e` with `|m| < 2 ^ 24` and `e ≥ -149` is not changed by rounding. -/
theorem round_binary32_of_rep (m e : Int) (hm : |m| < 2 ^ 24) (he : -149 ≤ e) :
    round_binary32 ((m : ℚ) * (2 : ℚ) ^ e) = (m : ℚ) * (2 : ℚ) ^ e := by
  by_cases hm0 : m = 0
  · subst hm0
    simp [round_binary32_zero]
  have h2e := two_zpow_pos e
  have hq : (m : ℚ) * (2 : ℚ) ^ e ≠ 0 := by
    apply mul_ne_zero
    · exact_mod_cast hm0
    · exact ne_of_gt h2e
  have hpos : 0 < |(m : ℚ) * (2 : ℚ) ^ e| := abs_pos.mpr hq
  have h2 : ((2 : ℕ) : ℚ) = 2 := by norm_num
  have habs : |(m : ℚ) * (2 : ℚ) ^ e| < (2 : ℚ) ^ (e + 24) := by
    rw [abs_mul, abs_of_pos h2e, zpow_add₀ (by norm_num : (2 : ℚ) ≠ 0), mul_comm]
    apply mul_lt_mul_of_pos_left _ h2e
    have : (|m| : ℚ) < 2 ^ 24 := by exact_mod_cast hm
    rw [← Int.cast_abs]
    exact_mod_cast this
  have hlog_lt : Int.log 2 |(m : ℚ) * (2 : ℚ) ^ e| < e + 24 := by
    rw [← Int.lt_zpow_iff_log_lt (by norm_num) hpos, h2]
    exact habs
  have hE : ulp_exponent ((m : ℚ) * (2 : ℚ) ^ e) ≤ e := by
    unfold ulp_exponent
    exact max_le (by omega) he
  unfold round_binary32
  generalize ulp_exponent ((m : ℚ) * (2 : ℚ) ^ e) = E at hE
  obtain ⟨k, hk⟩ : ∃ k : Nat, e = E + k := ⟨(e - E).toNat, by omega⟩
  have hdiv : (m : ℚ) * (2 : ℚ) ^ e / (2 : ℚ) ^ E = ((m * 2 ^ k : Int) : ℚ) := by
    rw [hk, zpow_add₀ (by norm_num : (2 : ℚ) ≠ 0), zpow_natCast]
    push_cast
    field_simp
    ring
  rw [hdiv, round_half_even_intCast, hk, zpow_add₀ (by norm_num : (2 : ℚ) ≠ 0), zpow_natCast]
  push_cast
  ring


theorem round_binary32_nonneg (q : ℚ) (hq : 0 ≤ q) : 0 ≤ round_binary32 q := by
  unfold round_binary32
  have h2e := two_zpow_pos (ulp_exponent q)
  have ht : 0 ≤ q / (2 : ℚ) ^ ulp_exponent q := div_nonneg hq h2e.le
  have hr : (0 : ℚ) ≤ (round_half_even (q / (2 : ℚ) ^ ulp_exponent q) : ℚ) := by
    exact_mod_cast round_half_even_nonneg _ ht
  exact mul_nonneg hr h2e.le

/-- The result of rounding is a binary32 number: `m * 2 ^ e` with `|m| < 2 ^ 24` and
`e ≥ -149`. -/
theorem round_binary32_rep (q : ℚ) :
    ∃ m e : Int, |m| < 2 ^ 24 ∧ -149 ≤ e ∧ round_binary32 q = (m : ℚ) * (2 : ℚ) ^ e := by
  by_cases hq : q = 0
  · subst hq
    exact ⟨0, 0, by decide, by decide, by simp [round_binary32_zero]⟩
  have hpos : 0 < |q| := abs_pos.mpr hq
  have h2 : ((2 : ℕ) : ℚ) = 2 := by norm_num
  have hE : -149 ≤ ulp_exponent q := le_max_right _ _
  have hElog : Int.log 2 |q| - 23 ≤ ulp_exponent q := le_max_left _ _
  have hlt : |q| < (2 : ℚ) ^ (ulp_exponent q + 24) := by
    have h1 : |q| < ((2 : ℕ) : ℚ) ^ (Int.log 2 |q| + 1) :=
      Int.lt_zpow_succ_log_self (by norm_num) |q|
    rw [h2] at h1
    exact lt_of_lt_of_le h1 (zpow_le_zpow_right₀ (by norm_num) (by omega))
  have h2e := two_zpow_pos (ulp_exponent q)
  have ht : |q / (2 : ℚ) ^ ulp_exponent q| < 2 ^ 24 := by
    rw [abs_div, abs_of_pos h2e, div_lt_iff₀ h2e]
    rw [zpow_add₀ (by norm_num : (2 : ℚ) ≠ 0)] at hlt
    have h24 : (2 : ℚ) ^ (24 : Int) = 2 ^ 24 := by norm_num
    rw [h24, mul_comm] at hlt
    exact hlt
  have herr := abs_round_half_even_sub (q / (2 : ℚ) ^ ulp_exponent q)
  have hn : |round_half_even (q / (2 : ℚ) ^ ulp_exponent q)| ≤ 2 ^ 24 := by
    have h3 : |(round_half_even (q / (2 : ℚ) ^ ulp_exponent q) : ℚ)| < 2 ^ 24 + 1 := by
      rw [abs_lt] at ht ⊢
      rw [abs_le] at herr
      constructor <;> linarith [herr.1, herr.2, ht.1, ht.2]
    have h4 : ((|round_half_even (q / (2 : ℚ) ^ ulp_exponent q)| : Int) : ℚ) <
        ((2 ^ 24 + 1 : Int) : ℚ) := by
      push_cast
      norm_num at h3 ⊢
      exact h3
    have h5 : |round_half_even (q / (2 : ℚ) ^ ulp_exponent q)| < 2 ^ 24 + 1 := by
      exact_mod_cast h4
    omega
  unfold round_binary32
  generalize round_half_even (q / (2 : ℚ) ^ ulp_exponent q) = n at hn
  generalize ulp_exponent q = E at hE
  by_cases hlt24 : |n| < 2 ^ 24
  · exact ⟨n, E, hlt24, hE, rfl⟩
  · have habs : |n| = 2 ^ 24 := by omega
    rcases abs_eq (by norm_num : (0 : Int) ≤ 2 ^ 24) |>.mp habs with h | h
    · refine ⟨2 ^ 23, E + 1, by decide, by omega, ?_⟩
      rw [h, zpow_add₀ (by norm_num : (2 : ℚ) ≠ 0)]
      push_cast
      ring
    · refine ⟨-2 ^ 23, E + 1, by decide, by omega, ?_⟩
      rw [h, zpow_add₀ (by norm_num : (2 : ℚ) ≠ 0)]
      push_cast
      ring

theorem round_binary32_idem (q : ℚ) : round_binary32 (round_binary32 q) = round_binary32 q := by
  obtain ⟨m, e, hm, he, h⟩ := round_binary32_rep q
  rw [h, round_binary32_of_rep m e hm he]

/-- Doubling a binary32 number is exact. -/
theorem round_binary32_double (q : ℚ) :
    round_binary32 (round_binary32 q + round_binary32 q) = round_binary32 q + round_binary32 q := by
  obtain ⟨m, e, hm, he, h⟩ := round_binary32_rep q
  have h2 : (m : ℚ) * (2 : ℚ) ^ e + (m : ℚ) * (2 : ℚ) ^ e = (m : ℚ) * (2 : ℚ) ^ (e + 1) := by
    rw [zpow_add₀ (by norm_num : (2 : ℚ) ≠ 0)]
    ring
  rw [h, h2, round_binary32_of_rep m (e + 1) hm (by omega)]

/-- The relative error of rounding a number of the normal range is at most `2 ^ -24`. -/
theorem round_binary32_rel_error (q : ℚ) (hq : (2 : ℚ) ^ (-126 : Int) ≤ |q|) :
    |round_binary32 q - q| ≤ |q| / 2 ^ 24 := by
  have hpos : 0 < |q| := lt_of_lt_of_le (two_zpow_pos _) hq
  have h2 : ((2 : ℕ) : ℚ) = 2 := by norm_num
  have hlog : -126 ≤ Int.log 2 |q| := by
    rw [← Int.zpow_le_iff_le_log (by norm_num) hpos, h2]
    exact hq
  have hE : ulp_exponent q = Int.log 2 |q| - 23 := by
    unfold ulp_exponent
    exact max_eq_left (by omega)
  have hle : (2 : ℚ) ^ (Int.log 2 |q|) ≤ |q| := by
    have := Int.zpow_log_le_self (b := 2) (by norm_num) hpos
    rw [h2] at this
    exact this
  unfold round_binary32
  rw [hE]
  have h2e := two_zpow_pos (Int.log 2 |q| - 23)
  have herr := abs_round_half_even_sub (q / (2 : ℚ) ^ (Int.log 2 |q| - 23))
  have hfac : (round_half_even (q / (2 : ℚ) ^ (Int.log 2 |q| - 23)) : ℚ) *
      (2 : ℚ) ^ (Int.log 2 |q| - 23) - q =
      ((round_half_even (q / (2 : ℚ) ^ (Int.log 2 |q| - 23)) : ℚ) -
        q / (2 : ℚ) ^ (Int.log 2 |q| - 23)) * (2 : ℚ) ^ (Int.log 2 |q| - 23) := by
    field_simp
  rw [hfac, abs_mul, abs_of_pos h2e]
  have hsplit : (2 : ℚ) ^ (Int.log 2 |q|) = (2 : ℚ) ^ (Int.log 2 |q| - 23) * 2 ^ 23 := by
    have : Int.log 2 |q| = (Int.log 2 |q| - 23) + 23 := by ring
    conv_lhs => rw [this]
    rw [zpow_add₀ (by norm_num : (2 : ℚ) ≠ 0)]
    norm_num
  rw [hsplit] at hle
  calc |(round_half_even (q / (2 : ℚ) ^ (Int.log 2 |q| - 23)) : ℚ) -
        q / (2 : ℚ) ^ (Int.log 2 |q| - 23)| * (2 : ℚ) ^ (Int.log 2 |q| - 23)
      ≤ 1 / 2 * (2 : ℚ) ^ (Int.log 2 |q| - 23) := mul_le_mul_of_nonneg_right herr h2e.le
    _ = ((2 : ℚ) ^ (Int.log 2 |q| - 23) * 2 ^ 23) / 2 ^ 24 := by ring
    _ ≤ |q| / 2 ^ 24 := by
      apply div_le_div_of_nonneg_right hle
      norm_num


/-! ## Evaluation of float operations -/


theorem f32_of_rat_zero : F32.of_rat 0 = F32.fin 0 := by
  unfold F32.of_rat
  rw [round_binary32_zero]
  norm_num

/-- Evaluation of `F32.of_rat`: `m * 2 ^ e = v` is the binary32 number nearest to `q`. -/
theorem f32_of_rat_eval (q v : ℚ) (m e : Int)
    (h : q ≠ 0 ∧ -149 ≤ e ∧ (-(2 : ℚ) ^ (e + 24) < q ∧ q < (2 : ℚ) ^ (e + 24)) ∧
      (e = -149 ∨ (2 : ℚ) ^ (e + 23) ≤ q ∨ q ≤ -(2 : ℚ) ^ (e + 23)) ∧
      (m : ℚ) - 1/2 < q / (2 : ℚ) ^ e ∧ q / (2 : ℚ) ^ e < (m : ℚ) + 1/2 ∧
      (m : ℚ) * (2 : ℚ) ^ e = v ∧ -(2 : ℚ) ^ 128 < v ∧ v < (2 : ℚ) ^ 128) :
    F32.of_rat q = F32.fin v := by
  obtain ⟨hq, he, hhi, hlo, hm1, hm2, hv, hv1, hv2⟩ := h
  have hr : round_binary32 q = v := by
    rw [← hv]
    apply round_binary32_eq q m e hq he (abs_lt.mpr hhi) _ hm1 hm2
    rcases hlo with h | h | h
    · exact Or.inl h
    · exact Or.inr (le_trans h (le_abs_self q))
    · exact Or.inr (le_trans (le_neg_of_le_neg h) (neg_le_abs q))
  unfold F32.of_rat
  simp only [hr]
  rw [if_neg (not_le.mpr hv2), if_neg (not_le.mpr hv1)]

/-- Evaluation of `F32.of_rat` at a tie: `q` lies halfway between `m * 2 ^ e` and
`(m + 1) * 2 ^ e`, and the one with the even significand is taken. -/
theorem f32_of_rat_eval_tie (q v : ℚ) (m e : Int)
    (h : q ≠ 0 ∧ -149 ≤ e ∧ (-(2 : ℚ) ^ (e + 24) < q ∧ q < (2 : ℚ) ^ (e + 24)) ∧
      (e = -149 ∨ (2 : ℚ) ^ (e + 23) ≤ q ∨ q ≤ -(2 : ℚ) ^ (e + 23)) ∧
      q / (2 : ℚ) ^ e = (m : ℚ) + 1/2 ∧
      ((if m % 2 = 0 then m else m + 1 : Int) : ℚ) * (2 : ℚ) ^ e = v ∧
      -(2 : ℚ) ^ 128 < v ∧ v < (2 : ℚ) ^ 128) :
    F32.of_rat q = F32.fin v := by
  obtain ⟨hq, he, hhi, hlo, hm, hv, hv1, hv2⟩ := h
  have hr : round_binary32 q = v := by
    rw [← hv]
    apply round_binary32_eq_tie q m e hq he (abs_lt.mpr hhi) _ hm
    rcases hlo with h | h | h
    · exact Or.inl h
    · exact Or.inr (le_trans h (le_abs_self q))
    · exact Or.inr (le_trans (le_neg_of_le_neg h) (neg_le_abs q))
  unfold F32.of_rat
  simp only [hr]
  rw [if_neg (not_le.mpr hv2), if_neg (not_le.mpr hv1)]

/-- Evaluation of `F32.of_rat` at a binary32 number `m * 2 ^ e`. -/
theorem f32_of_rat_exact (q : ℚ) (m e : Int)
    (h : |m| < 2 ^ 24 ∧ -149 ≤ e ∧ (m : ℚ) * (2 : ℚ) ^ e = q ∧ -(2 : ℚ) ^ 128 < q ∧
      q < (2 : ℚ) ^ 128) :
    F32.of_rat q = F32.fin q := by
  obtain ⟨hm, he, hq, hv1, hv2⟩ := h
  have hr : round_binary32 q = q := by
    rw [← hq]
    exact round_binary32_of_rep m e hm he
  unfold F32.of_rat
  simp only [hr]
  rw [if_neg (not_le.mpr hv2), if_neg (not_le.mpr hv1)]

theorem f32_add_fin (a b : ℚ) : F32.add (F32.fin a) (F32.fin b) = F32.of_rat (a + b) := rfl

theorem f32_sub_fin (a b : ℚ) : F32.sub (F32.fin a) (F32.fin b) = F32.of_rat (a - b) := by
  show F32.of_rat (a + -b) = F32.of_rat (a - b)
  rw [sub_eq_add_neg]

theorem f32_mul_fin (a b : ℚ) : F32.mul (F32.fin a) (F32.fin b) = F32.of_rat (a * b) := rfl

theorem f32_div_fin (a b : ℚ) (hb : b ≠ 0) : F32.div (F32.fin a) (F32.fin b) = F32.of_rat (a / b) := by
  show (if b = 0 then _ else F32.of_rat (a / b)) = _
  rw [if_neg hb]

theorem f32_max_self_fin (a : ℚ) : F32.max (F32.fin a) (F32.fin a) = F32.fin a := by
  simp [F32.max, F32.lt]

theorem f32_min_self_fin (a : ℚ) : F32.min (F32.fin a) (F32.fin a) = F32.fin a := by
  simp [F32.min, F32.lt]

theorem f32_max_zero_pos (a : ℚ) (ha : 0 < a) : F32.max (F32.fin 0) (F32.fin a) = F32.fin a := by
  simp [F32.max, F32.lt, ha]


/-! ## `onnx_iou` in binary32 arithmetic -/

theorem f32_of_rat_is_binary32 (q : ℚ) (h : is_binary32 q) : F32.of_rat q = F32.fin q := by
  obtain ⟨hr, habs⟩ := h
  rw [abs_lt] at habs
  unfold F32.of_rat
  simp only [hr]
  rw [if_neg (not_le.mpr habs.2), if_neg (not_le.mpr habs.1)]

theorem f32_of_rat_nonneg (q : ℚ) (hq : 0 ≤ q) : F32.is_nonneg (F32.of_rat q) := by
  have hr := round_binary32_nonneg q hq
  have hpow : (0 : ℚ) < 2 ^ 128 := by positivity
  show F32.is_nonneg (if (2 : ℚ) ^ 128 ≤ round_binary32 q then F32.pinf
    else if round_binary32 q ≤ -(2 : ℚ) ^ 128 then F32.ninf else F32.fin (round_binary32 q))
  by_cases h1 : (2 : ℚ) ^ 128 ≤ round_binary32 q
  · rw [if_pos h1]
    exact trivial
  · have h2 : ¬ round_binary32 q ≤ -(2 : ℚ) ^ 128 := by
      intro h
      linarith
    rw [if_neg h1, if_neg h2]
    exact hr

theorem f32_max_zero_is_nonneg (v : F32) : F32.is_nonneg (F32.max (F32.fin 0) v) := by
  cases v with
  | fin b =>
    unfold F32.max F32.lt
    by_cases hb : (0 : ℚ) < b
    · simp only [hb, decide_True, if_true]
      exact hb.le
    · simp only [hb, decide_False, Bool.false_eq_true, if_false]
      exact le_refl _
  | pinf => exact trivial
  | ninf => exact le_refl (0 : ℚ)
  | nan => exact le_refl (0 : ℚ)

theorem f32_mul_is_nonneg (u v : F32) (hu : F32.is_nonneg u) (hv : F32.is_nonneg v) :
    F32.is_nonneg (F32.mul u v) ∨ F32.mul u v = F32.nan := by
  cases u with
  | fin a =>
    cases v with
    | fin b => exact Or.inl (f32_of_rat_nonneg _ (mul_nonneg hu hv))
    | pinf =>
      simp only [F32.mul]
      by_cases ha : a = 0
      · rw [if_pos ha]
        exact Or.inr rfl
      · have hapos : 0 < a := lt_of_le_of_ne hu (Ne.symm ha)
        rw [if_neg ha, if_pos hapos]
        exact Or.inl trivial
    | ninf => exact absurd hv (by simp [F32.is_nonneg])
    | nan => exact absurd hv (by simp [F32.is_nonneg])
  | pinf =>
    cases v with
    | fin b =>
      simp only [F32.mul]
      by_cases hb : b = 0
      · rw [if_pos hb]
        exact Or.inr rfl
      · have hbpos : 0 < b := lt_of_le_of_ne hv (Ne.symm hb)
        rw [if_neg hb, if_pos hbpos]
        exact Or.inl trivial
    | pinf => exact Or.inl trivial
    | ninf => exact absurd hv (by simp [F32.is_nonneg])
    | nan => exact absurd hv (by simp [F32.is_nonneg])
  | ninf => exact absurd hu (by simp [F32.is_nonneg])
  | nan => exact absurd hu (by simp [F32.is_nonneg])

theorem iou_inter_area_class_binary32 (a b : Binary32.Detection) :
    F32.is_nonneg (Binary32.iou_inter_area a b) ∨ Binary32.iou_inter_area a b = F32.nan := by
  unfold Binary32.iou_inter_area
  exact f32_mul_is_nonneg _ _ (f32_max_zero_is_nonneg _) (f32_max_zero_is_nonneg _)

theorem onnx_iou_eq_areas_binary32 (a b : Binary32.Detection) :
    Binary32.onnx_iou a b =
      if F32.lt (F32.fin 0) (Binary32.iou_union_area a b) then
        F32.div (Binary32.iou_inter_area a b) (Binary32.iou_union_area a b)
      else F32.fin 0 := rfl

/-- Claim C11, amended: in binary32 arithmetic, for every pair of detections (any field
values, infinities and NaN included) `onnx_iou` divides only by a union area that is
strictly positive, returns 0 when the union area is not positive (or is NaN), and its
result is never NaN and never negative. -/
theorem onnx_iou_never_negative (a b : Binary32.Detection) :
    F32.is_nonneg (Binary32.onnx_iou a b) ∧
      ((F32.lt (F32.fin 0) (Binary32.iou_union_area a b) = true ∧
          Binary32.onnx_iou a b =
            F32.div (Binary32.iou_inter_area a b) (Binary32.iou_union_area a b) ∧
          ((∃ u, 0 < u ∧ Binary32.iou_union_area a b = F32.fin u) ∨
            Binary32.iou_union_area a b = F32.pinf)) ∨
        (F32.lt (F32.fin 0) (Binary32.iou_union_area a b) = false ∧
          Binary32.onnx_iou a b = F32.fin 0)) := by
  have hinter := iou_inter_area_class_binary32 a b
  rw [onnx_iou_eq_areas_binary32]
  have hunion : Binary32.iou_union_area a b =
      F32.sub (F32.add (F32.mul a.width a.height) (F32.mul b.width b.height))
        (Binary32.iou_inter_area a b) := rfl
  generalize Binary32.iou_inter_area a b = inter at hinter hunion
  generalize F32.add (F32.mul a.width a.height) (F32.mul b.width b.height) = s at hunion
  generalize Binary32.iou_union_area a b = union at hunion
  cases union with
  | fin u =>
    by_cases hu : (0 : ℚ) < u
    · have hlt : F32.lt (F32.fin 0) (F32.fin u) = true := by simp [F32.lt, hu]
      rw [hlt, if_pos rfl]
      refine ⟨?_, Or.inl ⟨rfl, rfl, Or.inl ⟨u, hu, rfl⟩⟩⟩
      cases inter with
      | fin i =>
        rcases hinter with hi | hi
        · rw [f32_div_fin i u (ne_of_gt hu)]
          exact f32_of_rat_nonneg _ (div_nonneg hi hu.le)
        · exact absurd hi (by simp)
      | pinf =>
        cases s <;> simp [F32.sub, F32.add, F32.neg] at hunion
      | ninf =>
        rcases hinter with hi | hi
        · exact absurd hi (by simp [F32.is_nonneg])
        · exact absurd hi (by simp)
      | nan =>
        cases s <;> simp [F32.sub, F32.add, F32.neg] at hunion
    · have hlt : F32.lt (F32.fin 0) (F32.fin u) = false := by simp [F32.lt, hu]
      rw [hlt, if_neg Bool.false_ne_true]
      exact ⟨le_refl (0 : ℚ), Or.inr ⟨rfl, rfl⟩⟩
  | pinf =>
    have hlt : F32.lt (F32.fin 0) F32.pinf = true := rfl
    rw [hlt, if_pos rfl]
    refine ⟨?_, Or.inl ⟨rfl, rfl, Or.inr rfl⟩⟩
    cases inter with
    | fin i => exact le_refl (0 : ℚ)
    | pinf =>
      cases s <;> simp [F32.sub, F32.add, F32.neg] at hunion
    | ninf =>
      rcases hinter with hi | hi
      · exact absurd hi (by simp [F32.is_nonneg])
      · exact absurd hi (by simp)
    | nan =>
      cases s <;> simp [F32.sub, F32.add, F32.neg] at hunion
  | ninf =>
    have hlt : F32.lt (F32.fin 0) F32.ninf = false := rfl
    rw [hlt, if_neg Bool.false_ne_true]
    exact ⟨le_refl (0 : ℚ), Or.inr ⟨rfl, rfl⟩⟩
  | nan =>
    have hlt : F32.lt (F32.fin 0) F32.nan = false := rfl
    rw [hlt, if_neg Bool.false_ne_true]
    exact ⟨le_refl (0 : ℚ), Or.inr ⟨rfl, rfl⟩⟩


/-- Claim C11, as stated, fails: in binary32 arithmetic the result can exceed 1.  Two
identical boxes `(0.03, 0.03, 0.01, 0.01)` have IoU `4194307/4194304 = 1.00000072`: the
rounded corners make the computed overlap larger than the computed area.  For two
identical boxes `(1, 1, 1.3e-7, 1.3e-7)` the result is `9182731/524288`, above 17. -/
theorem onnx_iou_exceeds_one :
    Binary32.onnx_iou (Binary32.make_det 0 (9/10) (3/100) (3/100) (1/100) (1/100))
        (Binary32.make_det 0 (8/10) (3/100) (3/100) (1/100) (1/100)) = F32.fin (4194307/4194304) ∧
      (1 : ℚ) < (4194307/4194304) ∧
      Binary32.onnx_iou (Binary32.make_det 0 (9/10) 1 1 (13/100000000) (13/100000000))
        (Binary32.make_det 0 (8/10) 1 1 (13/100000000) (13/100000000)) = F32.fin (9182731/524288) ∧
      (17 : ℚ) < (9182731/524288) := by
  have hx :
      F32.of_rat (3/100) =
        F32.fin (16106127/536870912) := f32_of_rat_eval _ _ 16106127 (-29) (by norm_num)
  have hw :
      F32.of_rat (1/100) =
        F32.fin (5368709/536870912) := f32_of_rat_eval _ _ 10737418 (-30) (by norm_num)
  have h1 : F32.of_int 2 = F32.fin 2 := by
    show F32.of_rat ((2 : Int) : ℚ) = F32.fin 2
    exact f32_of_rat_eval _ _ 8388608 (-22) (by norm_num)
  have h2 : F32.div (F32.fin (5368709/536870912)) (F32.fin 2) = F32.fin (5368709/1073741824) := by
    rw [f32_div_fin _ _ (by norm_num)]
    exact f32_of_rat_eval _ _ 10737418 (-31) (by norm_num)
  have h3 :
      F32.sub (F32.fin (16106127/536870912)) (F32.fin (5368709/1073741824)) =
        F32.fin (3355443/134217728) := by
    rw [f32_sub_fin]
    exact f32_of_rat_eval_tie _ _ 13421772 (-29) (by norm_num)
  have h4 :
      F32.add (F32.fin (16106127/536870912)) (F32.fin (5368709/1073741824)) =
        F32.fin (9395241/268435456) := by
    rw [f32_add_fin]
    exact f32_of_rat_eval _ _ 9395241 (-28) (by norm_num)
  have h5 :
      F32.max (F32.fin (3355443/134217728)) (F32.fin (3355443/134217728)) =
        F32.fin (3355443/134217728) := by
    simp only [F32.max, F32.lt]
    norm_num
  have h6 :
      F32.min (F32.fin (9395241/268435456)) (F32.fin (9395241/268435456)) =
        F32.fin (9395241/268435456) := by
    simp only [F32.min, F32.lt]
    norm_num
  have h7 :
      F32.sub (F32.fin (9395241/268435456)) (F32.fin (3355443/134217728)) =
        F32.fin (2684355/268435456) := by
    rw [f32_sub_fin]
    exact f32_of_rat_eval _ _ 10737420 (-30) (by norm_num)
  have h8 : F32.max (F32.fin 0) (F32.fin (2684355/268435456)) = F32.fin (2684355/268435456) := by
    simp only [F32.max, F32.lt]
    norm_num
  have h9 :
      F32.mul (F32.fin (2684355/268435456)) (F32.fin (2684355/268435456)) =
        F32.fin (3435975/34359738368) := by
    rw [f32_mul_fin]
    exact f32_of_rat_eval _ _ 13743900 (-37) (by norm_num)
  have h10 :
      F32.mul (F32.fin (5368709/536870912)) (F32.fin (5368709/536870912)) =
        F32.fin (13743895/137438953472) := by
    rw [f32_mul_fin]
    exact f32_of_rat_eval _ _ 13743895 (-37) (by norm_num)
  have h11 :
      F32.add (F32.fin (13743895/137438953472)) (F32.fin (13743895/137438953472)) =
        F32.fin (13743895/68719476736) := by
    rw [f32_add_fin]
    exact f32_of_rat_eval _ _ 13743895 (-36) (by norm_num)
  have h12 :
      F32.sub (F32.fin (13743895/68719476736)) (F32.fin (3435975/34359738368)) =
        F32.fin (6871945/68719476736) := by
    rw [f32_sub_fin]
    exact f32_of_rat_eval _ _ 13743890 (-37) (by norm_num)
  have h13 : F32.lt (F32.fin 0) (F32.fin (6871945/68719476736)) = true := by
    simp only [F32.lt]
    norm_num
  have h14 :
      F32.div (F32.fin (3435975/34359738368)) (F32.fin (6871945/68719476736)) =
        F32.fin (4194307/4194304) := by
    rw [f32_div_fin _ _ (by norm_num)]
    exact f32_of_rat_eval _ _ 8388614 (-23) (by norm_num)
  have hx2 : F32.of_rat 1 = F32.fin 1 := f32_of_rat_eval _ _ 8388608 (-23) (by norm_num)
  have hw2 :
      F32.of_rat (13/100000000) =
        F32.fin (9147937/70368744177664) := f32_of_rat_eval _ _ 9147937 (-46) (by norm_num)
  have h101 : F32.of_int 2 = F32.fin 2 := by
    show F32.of_rat ((2 : Int) : ℚ) = F32.fin 2
    exact f32_of_rat_eval _ _ 8388608 (-22) (by norm_num)
  have h102 :
      F32.div (F32.fin (9147937/70368744177664)) (F32.fin 2) =
        F32.fin (9147937/140737488355328) := by
    rw [f32_div_fin _ _ (by norm_num)]
    exact f32_of_rat_eval _ _ 9147937 (-47) (by norm_num)
  have h103 :
      F32.sub (F32.fin 1) (F32.fin (9147937/140737488355328)) =
        F32.fin (16777215/16777216) := by
    rw [f32_sub_fin]
    exact f32_of_rat_eval _ _ 16777215 (-24) (by norm_num)
  have h104 :
      F32.add (F32.fin 1) (F32.fin (9147937/140737488355328)) =
        F32.fin (8388609/8388608) := by
    rw [f32_add_fin]
    exact f32_of_rat_eval _ _ 8388609 (-23) (by norm_num)
  have h105 :
      F32.max (F32.fin (16777215/16777216)) (F32.fin (16777215/16777216)) =
        F32.fin (16777215/16777216) := by
    simp only [F32.max, F32.lt]
    norm_num
  have h106 :
      F32.min (F32.fin (8388609/8388608)) (F32.fin (8388609/8388608)) =
        F32.fin (8388609/8388608) := by
    simp only [F32.min, F32.lt]
    norm_num
  have h107 :
      F32.sub (F32.fin (8388609/8388608)) (F32.fin (16777215/16777216)) =
        F32.fin (3/16777216) := by
    rw [f32_sub_fin]
    exact f32_of_rat_eval _ _ 12582912 (-46) (by norm_num)
  have h108 : F32.max (F32.fin 0) (F32.fin (3/16777216)) = F32.fin (3/16777216) := by
    simp only [F32.max, F32.lt]
    norm_num
  have h109 :
      F32.mul (F32.fin (3/16777216)) (F32.fin (3/16777216)) =
        F32.fin (9/281474976710656) := by
    rw [f32_mul_fin]
    exact f32_of_rat_eval _ _ 9437184 (-68) (by norm_num)
  have h110 :
      F32.mul (F32.fin (9147937/70368744177664)) (F32.fin (9147937/70368744177664)) =
        F32.fin (155875/9223372036854775808) := by
    rw [f32_mul_fin]
    exact f32_of_rat_eval _ _ 9976000 (-69) (by norm_num)
  have h111 :
      F32.add (F32.fin (155875/9223372036854775808)) (F32.fin (155875/9223372036854775808)) =
        F32.fin (155875/4611686018427387904) := by
    rw [f32_add_fin]
    exact f32_of_rat_eval _ _ 9976000 (-68) (by norm_num)
  have h112 :
      F32.sub (F32.fin (155875/4611686018427387904)) (F32.fin (9/281474976710656)) =
        F32.fin (8419/4611686018427387904) := by
    rw [f32_sub_fin]
    exact f32_of_rat_eval _ _ 8621056 (-72) (by norm_num)
  have h113 : F32.lt (F32.fin 0) (F32.fin (8419/4611686018427387904)) = true := by
    simp only [F32.lt]
    norm_num
  have h114 :
      F32.div (F32.fin (9/281474976710656)) (F32.fin (8419/4611686018427387904)) =
        F32.fin (9182731/524288) := by
    rw [f32_div_fin _ _ (by norm_num)]
    exact f32_of_rat_eval _ _ 9182731 (-19) (by norm_num)
  refine ⟨?_, by norm_num, ?_, by norm_num⟩
  · simp only [Binary32.onnx_iou, Binary32.make_det, hx, hw, h1, h2, h3, h4, h5, h6, h7, h8, h9, h10, h11, h12, h13, h14,
      if_true]
  · simp only [Binary32.onnx_iou, Binary32.make_det, hx2, hw2, h101, h102, h103, h104, h105, h106, h107, h108, h109, h110, h111, h112, h113, h114,
      if_true]
theorem f32_of_int_two : F32.of_int 2 = F32.fin 2 := by
  show F32.of_rat ((2 : Int) : ℚ) = F32.fin 2
  exact f32_of_rat_exact _ 1 1 (by norm_num)

/-- Evaluation of `is_binary32` at `m * 2 ^ e`. -/
theorem is_binary32_eval (q : ℚ) (m e : Int)
    (h : |m| < 2 ^ 24 ∧ -149 ≤ e ∧ (m : ℚ) * (2 : ℚ) ^ e = q ∧ -(2 : ℚ) ^ 128 < q ∧
      q < (2 : ℚ) ^ 128) : is_binary32 q := by
  obtain ⟨hm, he, hq, hv1, hv2⟩ := h
  refine ⟨?_, abs_lt.mpr ⟨hv1, hv2⟩⟩
  rw [← hq]
  exact round_binary32_of_rep m e hm he

/-- Evaluation of the conversion `(int)f` at a non-negative float inside the `int` range. -/
theorem f32_to_int_eval (q : ℚ) (n : Int)
    (h : 0 ≤ q ∧ (n : ℚ) ≤ q ∧ q < (n : ℚ) + 1 ∧ -2 ^ 31 ≤ n ∧ n < 2 ^ 31) :
    F32.to_int (F32.fin q) = n := by
  obtain ⟨h0, h1, h2, h3, h4⟩ := h
  have hf : ⌊q⌋ = n := by
    rw [Int.floor_eq_iff]
    exact ⟨h1, h2⟩
  unfold F32.to_int
  simp only []
  rw [if_pos h0, hf, if_pos ⟨h3, h4⟩]

/-- Claim C12 fails on the code: for a `299 × 299` image and a `640 × 640` target the
binary32 quotient `640 / 299` is rounded down to `4488887/2097152`, the product
`299 * ratio` is `10485759/16384 = 639.99994`, and the conversion to `int` truncates it:
`new_width = new_height = 639`, so neither side touches the target. -/
theorem letterbox_truncation_gap :
    Binary32.letterbox_ratio 299 299 640 640 = F32.fin (4488887/2097152) ∧
      F32.mul (F32.of_int 299) (Binary32.letterbox_ratio 299 299 640 640) =
        F32.fin (10485759/16384) ∧
      Binary32.letterbox_new_width 299 299 640 640 = 639 ∧
      Binary32.letterbox_new_height 299 299 640 640 = 639 ∧
      (Binary32.preprocess_image_to_buffer (some (fun _ => 0)) 299 299 640 640
        (some (fun _ => F32.fin 0))).transform = ⟨F32.fin (4488887/2097152), F32.fin (4488887/2097152), 0, 0⟩ ∧
      ¬ (Binary32.letterbox_new_width 299 299 640 640 = 640 ∨
        Binary32.letterbox_new_height 299 299 640 640 = 640) := by
  have hT : F32.of_int 640 = F32.fin 640 := by
    show F32.of_rat ((640 : Int) : ℚ) = F32.fin 640
    exact f32_of_rat_eval _ _ 10485760 (-14) (by norm_num)
  have hW : F32.of_int 299 = F32.fin 299 := by
    show F32.of_rat ((299 : Int) : ℚ) = F32.fin 299
    exact f32_of_rat_eval _ _ 9797632 (-15) (by norm_num)
  have hR : F32.div (F32.fin 640) (F32.fin 299) = F32.fin (4488887/2097152) := by
    rw [f32_div_fin _ _ (by norm_num)]
    exact f32_of_rat_eval _ _ 8977774 (-22) (by norm_num)
  have hmin :
      F32.min (F32.fin (4488887/2097152)) (F32.fin (4488887/2097152)) =
        F32.fin (4488887/2097152) := by
    simp only [F32.min, F32.lt]
    norm_num
  have hP : F32.mul (F32.fin 299) (F32.fin (4488887/2097152)) = F32.fin (10485759/16384) := by
    rw [f32_mul_fin]
    exact f32_of_rat_eval _ _ 10485759 (-14) (by norm_num)
  have hto : F32.to_int (F32.fin (10485759/16384)) = 639 := f32_to_int_eval _ 639 (by norm_num)
  have hratio : Binary32.letterbox_ratio 299 299 640 640 = F32.fin (4488887/2097152) := by
    simp only [Binary32.letterbox_ratio, hT, hW, hR, hmin]
  have hnw : Binary32.letterbox_new_width 299 299 640 640 = 639 := by
    simp only [Binary32.letterbox_new_width, hratio, hW, hP, hto]
  have hnh : Binary32.letterbox_new_height 299 299 640 640 = 639 := by
    simp only [Binary32.letterbox_new_height, hratio, hW, hP, hto]
  have hpad : Int.tdiv (Binary32.int_sub 640 639) 2 = 0 := by decide
  refine ⟨hratio, ?_, hnw, hnh, ?_, ?_⟩
  · rw [hratio, hW, hP]
  · have hguard : ¬ ((640 : Int) ≤ 0 ∨ (640 : Int) ≤ 0 ∨ (299 : Int) ≤ 1 ∨ (299 : Int) ≤ 1) := by
      decide
    simp only [Binary32.preprocess_image_to_buffer, if_neg hguard, hratio, hnw, hnh, hpad]
  · rw [hnw, hnh]
    decide

/-! ## The read log of the interpolation loops in machine arithmetic -/

theorem int_add_eq_binary32 (a b : Int) (h1 : -2 ^ 31 ≤ a + b) (h2 : a + b < 2 ^ 31) :
    Binary32.int_add a b = a + b := by
  unfold Binary32.int_add wrap_int32
  omega

theorem channel_loop_reads_mono_binary32 (image_data : Int → Nat)
    (image_width src_x src_y : Int) (x_lerp y_lerp : F32) (c_stride dst_idx : Int) (r : Int) :
    ∀ (n : Nat) (c : Int) (st : Binary32.PixelState), r ∈ st.reads →
      r ∈ (Binary32.channel_loop image_data image_width src_x src_y x_lerp y_lerp c_stride
        dst_idx n c st).reads := by
  intro n
  induction n with
  | zero =>
    intro c st h
    exact h
  | succ n ih =>
    intro c st h
    unfold Binary32.channel_loop
    apply ih
    unfold Binary32.write_channel
    exact List.mem_append_left _ h

theorem column_loop_reads_mono_binary32 (image_data : Int → Nat)
    (image_width target_width target_height : Int) (ratio : F32)
    (pad_left pad_top y src_y : Int) (y_lerp : F32) (r : Int) :
    ∀ (n : Nat) (x : Int) (st : Binary32.PixelState), r ∈ st.reads →
      r ∈ (Binary32.column_loop image_data image_width target_width target_height ratio
        pad_left pad_top y src_y y_lerp n x st).reads := by
  intro n
  induction n with
  | zero =>
    intro x st h
    exact h
  | succ n ih =>
    intro x st h
    unfold Binary32.column_loop
    apply ih
    exact channel_loop_reads_mono_binary32 _ _ _ _ _ _ _ _ r 3 0 st h

theorem row_loop_reads_mono_binary32 (image_data : Int → Nat)
    (image_width image_height target_width target_height : Int) (ratio : F32)
    (new_width pad_left pad_top : Int) (r : Int) :
    ∀ (n : Nat) (y : Int) (st : Binary32.PixelState), r ∈ st.reads →
      r ∈ (Binary32.row_loop image_data image_width image_height target_width target_height
        ratio new_width pad_left pad_top n y st).reads := by
  intro n
  induction n with
  | zero =>
    intro y st h
    exact h
  | succ n ih =>
    intro y st h
    unfold Binary32.row_loop
    apply ih
    exact column_loop_reads_mono_binary32 _ _ _ _ _ _ _ _ _ _ r _ 0 st h

/-- An index read by row `y0 + j` whatever the state it starts from is in the log of the
row loop that starts at `y0` and runs more than `j` iterations. -/
theorem row_loop_reads_nth_binary32 (image_data : Int → Nat)
    (image_width image_height target_width target_height : Int) (ratio : F32)
    (new_width pad_left pad_top : Int) (r : Int) :
    ∀ (n y0 : Nat) (st : Binary32.PixelState) (j : Nat), j < n → y0 + n < 2 ^ 31 →
      (∀ st2 : Binary32.PixelState,
        r ∈ (Binary32.column_loop image_data image_width target_width target_height ratio
          pad_left pad_top ((y0 + j : Nat) : Int)
          (Binary32.source_coord ((y0 + j : Nat) : Int) ratio image_height).1
          (Binary32.source_coord ((y0 + j : Nat) : Int) ratio image_height).2
          new_width.toNat 0 st2).reads) →
      r ∈ (Binary32.row_loop image_data image_width image_height target_width target_height
        ratio new_width pad_left pad_top n (y0 : Int) st).reads := by
  intro n
  induction n with
  | zero =>
    intro y0 st j hj
    exact absurd hj (Nat.not_lt_zero j)
  | succ n ih =>
    intro y0 st j hj hrange hread
    unfold Binary32.row_loop
    cases j with
    | zero =>
      apply row_loop_reads_mono_binary32
      exact hread st
    | succ j =>
      have hstep : Binary32.int_add (y0 : Int) 1 = ((y0 + 1 : Nat) : Int) := by
        rw [int_add_eq_binary32 _ _ (by omega) (by omega)]
        push_cast
        rfl
      simp only [hstep]
      apply ih (y0 + 1) _ j (Nat.lt_of_succ_lt_succ hj) (by omega)
      intro st2
      have hidx : y0 + 1 + j = y0 + (j + 1) := by omega
      rw [hidx]
      exact hread st2

/-- Claim C25 fails on the code: the source indices are computed in 32-bit `int`.  For a
`24800 × 24800` image and a `640 × 640` target, destination pixel `(x, y) = (0, 560)` lies
inside the loops (`new_width = new_height = 640`) and maps to source row 21700; the index
`idx00 = (21700 * 24800 + 0) * 4 + 0 = 2152640000` does not fit in 32 bits and wraps to
`-2142327296`, which `preprocess_image_to_buffer` reads from `image_data`. -/
theorem letterbox_index_wraps :
    Binary32.letterbox_new_width 24800 24800 640 640 = 640 ∧
      Binary32.letterbox_new_height 24800 24800 640 640 = 640 ∧
      Binary32.source_coord 0 (Binary32.letterbox_ratio 24800 24800 640 640) 24800 =
        (0, F32.fin 0) ∧
      Binary32.source_coord 560 (Binary32.letterbox_ratio 24800 24800 640 640) 24800 =
        (21700, F32.fin 0) ∧
      (21700 * 24800 + 0) * 4 + 0 = (2152640000 : Int) ∧
      wrap_int32 2152640000 = -2142327296 ∧
      (∀ (x_lerp y_lerp : F32) (c_stride dst_idx : Int) (st : Binary32.PixelState),
        (Binary32.write_channel (fun _ => 0) 24800 0 21700 x_lerp y_lerp c_stride dst_idx 0
          st).reads = st.reads ++ [-2142327296, -2142327292, -2142228096, -2142228092]) ∧
      (-2142327296 : Int) ∈ (Binary32.preprocess_image_to_buffer (some (fun _ => 0)) 24800 24800 640
        640 (some (fun _ => F32.fin 0))).reads ∧
      ¬ ((0 : Int) ≤ -2142327296) := by
  have hT : F32.of_int 640 = F32.fin 640 := by
    show F32.of_rat ((640 : Int) : ℚ) = F32.fin 640
    exact f32_of_rat_eval _ _ 10485760 (-14) (by norm_num)
  have hW : F32.of_int 24800 = F32.fin 24800 := by
    show F32.of_rat ((24800 : Int) : ℚ) = F32.fin 24800
    exact f32_of_rat_eval _ _ 12697600 (-9) (by norm_num)
  have hR : F32.div (F32.fin 640) (F32.fin 24800) = F32.fin (13854733/536870912) := by
    rw [f32_div_fin _ _ (by norm_num)]
    exact f32_of_rat_eval _ _ 13854733 (-29) (by norm_num)
  have hmin :
      F32.min (F32.fin (13854733/536870912)) (F32.fin (13854733/536870912)) =
        F32.fin (13854733/536870912) := by
    simp only [F32.min, F32.lt]
    norm_num
  have hP : F32.mul (F32.fin 24800) (F32.fin (13854733/536870912)) = F32.fin 640 := by
    rw [f32_mul_fin]
    exact f32_of_rat_eval _ _ 10485760 (-14) (by norm_num)
  have hY : F32.of_int 560 = F32.fin 560 := by
    show F32.of_rat ((560 : Int) : ℚ) = F32.fin 560
    exact f32_of_rat_eval _ _ 9175040 (-14) (by norm_num)
  have hS : F32.div (F32.fin 560) (F32.fin (13854733/536870912)) = F32.fin 21700 := by
    rw [f32_div_fin _ _ (by norm_num)]
    exact f32_of_rat_eval _ _ 11110400 (-9) (by norm_num)
  have hSY : F32.of_int 21700 = F32.fin 21700 := by
    show F32.of_rat ((21700 : Int) : ℚ) = F32.fin 21700
    exact f32_of_rat_eval _ _ 11110400 (-9) (by norm_num)
  have hL : F32.sub (F32.fin 21700) (F32.fin 21700) = F32.fin 0 := by
    rw [f32_sub_fin]
    have hz : (21700 - 21700 : ℚ) = 0 := by norm_num
    rw [hz]
    exact f32_of_rat_zero
  have hZ : F32.of_int 0 = F32.fin 0 := by
    show F32.of_rat ((0 : Int) : ℚ) = F32.fin 0
    rw [Int.cast_zero]
    exact f32_of_rat_zero
  have hS0 : F32.div (F32.fin 0) (F32.fin (13854733/536870912)) = F32.fin 0 := by
    rw [f32_div_fin _ _ (by norm_num)]
    have hz : (0 / (13854733/536870912) : ℚ) = 0 := by norm_num
    rw [hz]
    exact f32_of_rat_zero
  have hL0 : F32.sub (F32.fin 0) (F32.fin 0) = F32.fin 0 := by
    rw [f32_sub_fin]
    have hz : (0 - 0 : ℚ) = 0 := by norm_num
    rw [hz]
    exact f32_of_rat_zero
  have hto : F32.to_int (F32.fin 640) = 640 := f32_to_int_eval _ 640 (by norm_num)
  have hto0 : F32.to_int (F32.fin 0) = 0 := f32_to_int_eval _ 0 (by norm_num)
  have htoy : F32.to_int (F32.fin 21700) = 21700 := f32_to_int_eval _ 21700 (by norm_num)
  have hratio : Binary32.letterbox_ratio 24800 24800 640 640 = F32.fin (13854733/536870912) := by
    simp only [Binary32.letterbox_ratio, hT, hW, hR, hmin]
  have hnw : Binary32.letterbox_new_width 24800 24800 640 640 = 640 := by
    simp only [Binary32.letterbox_new_width, hratio, hW, hP, hto]
  have hnh : Binary32.letterbox_new_height 24800 24800 640 640 = 640 := by
    simp only [Binary32.letterbox_new_height, hratio, hW, hP, hto]
  have hs1 : Binary32.int_sub 24800 1 = 24799 := by decide
  have hsx : Binary32.source_coord 0 (F32.fin (13854733/536870912)) 24800 = (0, F32.fin 0) := by
    have hcmp : ¬ ((0 : Int) ≥ 24799) := by decide
    simp only [Binary32.source_coord, hZ, hS0, hto0, hL0, hs1, if_neg hcmp]
  have hsy : Binary32.source_coord 560 (F32.fin (13854733/536870912)) 24800 = (21700, F32.fin 0) := by
    have hcmp : ¬ ((21700 : Int) ≥ 24799) := by decide
    simp only [Binary32.source_coord, hY, hS, htoy, hSY, hL, hs1, if_neg hcmp]
  have hidx : ∀ (x_lerp y_lerp : F32) (c_stride dst_idx : Int) (st : Binary32.PixelState),
      (Binary32.write_channel (fun _ => 0) 24800 0 21700 x_lerp y_lerp c_stride dst_idx 0
        st).reads = st.reads ++ [-2142327296, -2142327292, -2142228096, -2142228092] := by
    intro x_lerp y_lerp c_stride dst_idx st
    have h00 : Binary32.int_add (Binary32.int_mul (Binary32.int_add
        (Binary32.int_mul 21700 24800) 0) 4) 0 = -2142327296 := by decide
    have h01 : Binary32.int_add (Binary32.int_mul (Binary32.int_add (Binary32.int_add
        (Binary32.int_mul 21700 24800) 0) 1) 4) 0 = -2142327292 := by decide
    have h10 : Binary32.int_add (Binary32.int_mul (Binary32.int_add (Binary32.int_mul
        (Binary32.int_add 21700 1) 24800) 0) 4) 0 = -2142228096 := by decide
    have h11 : Binary32.int_add (Binary32.int_mul (Binary32.int_add (Binary32.int_add
        (Binary32.int_mul (Binary32.int_add 21700 1) 24800) 0) 1) 4) 0 = -2142228092 := by decide
    simp only [Binary32.write_channel, h00, h01, h10, h11]
  have hguard : ¬ ((640 : Int) ≤ 0 ∨ (640 : Int) ≤ 0 ∨ (24800 : Int) ≤ 1 ∨ (24800 : Int) ≤ 1) := by
    decide
  have hmem : (-2142327296 : Int) ∈ (Binary32.preprocess_image_to_buffer (some (fun _ => 0)) 24800
      24800 640 640 (some (fun _ => F32.fin 0))).reads := by
    simp only [Binary32.preprocess_image_to_buffer, if_neg hguard, hnw, hnh]
    have h640 : Int.toNat 640 = 640 := rfl
    rw [h640]
    have hzero : (0 : Int) = ((0 : Nat) : Int) := rfl
    rw [hzero]
    apply row_loop_reads_nth_binary32 _ _ _ _ _ _ _ _ _ _ 640 0 _ 560 (by decide) (by decide)
    intro st2
    have hrow : ((0 + 560 : Nat) : Int) = 560 := rfl
    rw [hrow, hratio, hsy, h640]
    unfold Binary32.column_loop
    apply column_loop_reads_mono_binary32
    rw [hsx]
    unfold Binary32.channel_loop
    apply channel_loop_reads_mono_binary32
    rw [hidx]
    exact List.mem_append_right _ (List.mem_cons_self _ _)
  refine ⟨hnw, hnh, ?_, ?_, by decide, by decide, hidx, hmem, by decide⟩
  · rw [hratio]
    exact hsx
  · rw [hratio]
    exact hsy

/-! ## The rounding error of decoding -/

/-- Rounding a number of the normal range multiplies it by `1 + d` with `|d| ≤ 2 ^ -24`. -/
theorem round_binary32_factor (q : ℚ) (hq : (2 : ℚ) ^ (-126 : Int) ≤ |q|) :
    ∃ d : ℚ, |d| ≤ 1 / 2 ^ 24 ∧ round_binary32 q = q * (1 + d) := by
  have hpos : 0 < |q| := lt_of_lt_of_le (two_zpow_pos _) hq
  have hq0 : q ≠ 0 := abs_pos.mp hpos
  refine ⟨(round_binary32 q - q) / q, ?_, ?_⟩
  · rw [abs_div, div_le_iff₀ hpos]
    have h := round_binary32_rel_error q hq
    calc |round_binary32 q - q| ≤ |q| / 2 ^ 24 := h
      _ = 1 / 2 ^ 24 * |q| := by ring
  · field_simp

/-- A product of three factors `1 + d` with `|d| ≤ 2 ^ -24` differs from 1 by at most
`2 ^ -22`. -/
theorem three_factors_bound (d1 d2 d3 : ℚ) (h1 : |d1| ≤ 1 / 2 ^ 24) (h2 : |d2| ≤ 1 / 2 ^ 24)
    (h3 : |d3| ≤ 1 / 2 ^ 24) : |(1 + d1) * (1 + d2) * (1 + d3) - 1| ≤ 1 / 2 ^ 22 := by
  have e : (1 + d1) * (1 + d2) * (1 + d3) - 1 =
      d1 + d2 + d3 + d1 * d2 + d1 * d3 + d2 * d3 + d1 * d2 * d3 := by ring
  have u0 : (0 : ℚ) ≤ 1 / 2 ^ 24 := by positivity
  have a12 : |d1 * d2| ≤ 1 / 2 ^ 24 * (1 / 2 ^ 24) := by
    rw [abs_mul]
    exact mul_le_mul h1 h2 (abs_nonneg _) u0
  have a13 : |d1 * d3| ≤ 1 / 2 ^ 24 * (1 / 2 ^ 24) := by
    rw [abs_mul]
    exact mul_le_mul h1 h3 (abs_nonneg _) u0
  have a23 : |d2 * d3| ≤ 1 / 2 ^ 24 * (1 / 2 ^ 24) := by
    rw [abs_mul]
    exact mul_le_mul h2 h3 (abs_nonneg _) u0
  have a123 : |d1 * d2 * d3| ≤ 1 / 2 ^ 24 * (1 / 2 ^ 24) * (1 / 2 ^ 24) := by
    rw [abs_mul]
    exact mul_le_mul a12 h3 (abs_nonneg _) (by positivity)
  rw [e]
  have t1 := abs_add (d1 + d2 + d3 + d1 * d2 + d1 * d3 + d2 * d3) (d1 * d2 * d3)
  have t2 := abs_add (d1 + d2 + d3 + d1 * d2 + d1 * d3) (d2 * d3)
  have t3 := abs_add (d1 + d2 + d3 + d1 * d2) (d1 * d3)
  have t4 := abs_add (d1 + d2 + d3) (d1 * d2)
  have t5 := abs_add (d1 + d2) d3
  have t6 := abs_add d1 d2
  have hnum : (1 : ℚ) / 2 ^ 24 + 1 / 2 ^ 24 + 1 / 2 ^ 24 + 1 / 2 ^ 24 * (1 / 2 ^ 24) +
      1 / 2 ^ 24 * (1 / 2 ^ 24) + 1 / 2 ^ 24 * (1 / 2 ^ 24) +
      1 / 2 ^ 24 * (1 / 2 ^ 24) * (1 / 2 ^ 24) ≤ 1 / 2 ^ 22 := by norm_num
  linarith

/-- A factor `1 + d` with `|d| ≤ 2 ^ -24` lies between `1/2` and `2`. -/
theorem factor_bounds (d : ℚ) (h : |d| ≤ 1 / 2 ^ 24) : 1 / 2 ≤ |1 + d| ∧ |1 + d| ≤ 2 := by
  rw [abs_le] at h
  have hu : (1 : ℚ) / 2 ^ 24 ≤ 1 / 2 := by norm_num
  have hpos : 0 < 1 + d := by linarith [h.1]
  rw [abs_of_pos hpos]
  constructor <;> linarith [h.1, h.2]

theorem f32_of_rat_fin (q : ℚ) (h : |round_binary32 q| < 2 ^ 128) :
    F32.of_rat q = F32.fin (round_binary32 q) := by
  rw [abs_lt] at h
  show (if (2 : ℚ) ^ 128 ≤ round_binary32 q then F32.pinf
    else if round_binary32 q ≤ -(2 : ℚ) ^ 128 then F32.ninf
    else F32.fin (round_binary32 q)) = _
  rw [if_neg (not_le.mpr h.2), if_neg (not_le.mpr h.1)]

theorem two_factors_bounds (d1 d2 : ℚ) (h1 : |d1| ≤ 1 / 2 ^ 24) (h2 : |d2| ≤ 1 / 2 ^ 24) :
    1 / 2 ≤ |(1 + d1) * (1 + d2)| ∧ |(1 + d1) * (1 + d2)| ≤ 2 := by
  rw [abs_le] at h1 h2
  have hl1 : (1 : ℚ) - 1 / 2 ^ 24 ≤ 1 + d1 := by linarith [h1.1]
  have hl2 : (1 : ℚ) - 1 / 2 ^ 24 ≤ 1 + d2 := by linarith [h2.1]
  have hu1 : 1 + d1 ≤ 1 + 1 / 2 ^ 24 := by linarith [h1.2]
  have hu2 : 1 + d2 ≤ 1 + 1 / 2 ^ 24 := by linarith [h2.2]
  have hL : (0 : ℚ) ≤ 1 - 1 / 2 ^ 24 := by norm_num
  have hp1 : 0 ≤ 1 + d1 := le_trans hL hl1
  have hp2 : 0 ≤ 1 + d2 := le_trans hL hl2
  have hlow : ((1 : ℚ) - 1 / 2 ^ 24) * (1 - 1 / 2 ^ 24) ≤ (1 + d1) * (1 + d2) :=
    mul_le_mul hl1 hl2 hL hp1
  have hup : (1 + d1) * (1 + d2) ≤ ((1 : ℚ) + 1 / 2 ^ 24) * (1 + 1 / 2 ^ 24) :=
    mul_le_mul hu1 hu2 hp2 (by norm_num)
  have hn1 : (1 : ℚ) / 2 ≤ (1 - 1 / 2 ^ 24) * (1 - 1 / 2 ^ 24) := by norm_num
  have hn2 : ((1 : ℚ) + 1 / 2 ^ 24) * (1 + 1 / 2 ^ 24) ≤ 2 := by norm_num
  rw [abs_of_nonneg (mul_nonneg hp1 hp2)]
  exact ⟨le_trans hn1 hlow, le_trans hup hn2⟩

theorem two_factors_bound (d1 d2 : ℚ) (h1 : |d1| ≤ 1 / 2 ^ 24) (h2 : |d2| ≤ 1 / 2 ^ 24) :
    |(1 + d1) * (1 + d2) - 1| ≤ 1 / 2 ^ 22 := by
  have h := three_factors_bound d1 d2 0 h1 h2 (by norm_num)
  simpa using h

/-- Decoding of a centre coordinate in binary32: `(c - p) / s / W` with three roundings.
When the three exact values are in the normal range the result is finite and its
relative error is at most `2 ^ -22`. -/
theorem f32_decode_coord_error (c p s W : ℚ) (hs : 0 < s) (hW : 0 < W)
    (hp : is_binary32 p) (hWrep : is_binary32 W)
    (h1 : Binary32.in_normal_range (c - p)) (h2 : Binary32.in_normal_range ((c - p) / s))
    (h3 : Binary32.in_normal_range ((c - p) / s / W)) :
    ∃ q, F32.div (F32.div (F32.sub (F32.fin c) (F32.of_rat p)) (F32.fin s)) (F32.of_rat W) =
        F32.fin q ∧ |q - (c - p) / s / W| ≤ |(c - p) / s / W| / 2 ^ 22 := by
  have hk1 : (2 : ℚ) ^ (-126 : Int) = 2 ^ (-125 : Int) / 2 := by norm_num
  have hk0 : (0 : ℚ) ≤ 2 ^ (-125 : Int) := (two_zpow_pos _).le
  have hk2 : (2 : ℚ) ^ 126 * 2 < 2 ^ 128 := by norm_num
  obtain ⟨h1a, h1b⟩ := h1
  obtain ⟨h2a, h2b⟩ := h2
  obtain ⟨h3a, h3b⟩ := h3
  -- first rounding
  obtain ⟨d1, hd1, e1⟩ := round_binary32_factor (c - p)
    (le_trans (by norm_num : (2 : ℚ) ^ (-126 : Int) ≤ 2 ^ (-125 : Int)) h1a)
  have hf1 := factor_bounds d1 hd1
  have ht1 : |round_binary32 (c - p)| < 2 ^ 128 := by
    rw [e1, abs_mul]
    calc |c - p| * |1 + d1| ≤ |c - p| * 2 := mul_le_mul_of_nonneg_left hf1.2 (abs_nonneg _)
      _ < 2 ^ 128 := by linarith
  have hsub : F32.sub (F32.fin c) (F32.of_rat p) = F32.fin ((c - p) * (1 + d1)) := by
    rw [f32_of_rat_is_binary32 p hp, f32_sub_fin, f32_of_rat_fin _ ht1, e1]
  -- second rounding
  have hb1 : (c - p) * (1 + d1) / s = (c - p) / s * (1 + d1) := by ring
  have hb1lo : (2 : ℚ) ^ (-126 : Int) ≤ |(c - p) / s * (1 + d1)| := by
    rw [abs_mul, hk1]
    calc (2 : ℚ) ^ (-125 : Int) / 2 = 2 ^ (-125 : Int) * (1 / 2) := by ring
      _ ≤ |(c - p) / s| * |1 + d1| := mul_le_mul h2a hf1.1 (by norm_num) (abs_nonneg _)
  obtain ⟨d2, hd2, e2⟩ := round_binary32_factor ((c - p) / s * (1 + d1)) hb1lo
  have hf12 := two_factors_bounds d1 d2 hd1 hd2
  have ht2 : |round_binary32 ((c - p) / s * (1 + d1))| < 2 ^ 128 := by
    rw [e2, mul_assoc, abs_mul]
    calc |(c - p) / s| * |(1 + d1) * (1 + d2)| ≤ |(c - p) / s| * 2 :=
          mul_le_mul_of_nonneg_left hf12.2 (abs_nonneg _)
      _ < 2 ^ 128 := by linarith
  have hdiv1 : F32.div (F32.fin ((c - p) * (1 + d1))) (F32.fin s) =
      F32.fin ((c - p) / s * ((1 + d1) * (1 + d2))) := by
    rw [f32_div_fin _ _ (ne_of_gt hs), hb1, f32_of_rat_fin _ ht2, e2, mul_assoc]
  -- third rounding
  have hb2 : (c - p) / s * ((1 + d1) * (1 + d2)) / W =
      (c - p) / s / W * ((1 + d1) * (1 + d2)) := by ring
  have hb2lo : (2 : ℚ) ^ (-126 : Int) ≤ |(c - p) / s / W * ((1 + d1) * (1 + d2))| := by
    rw [abs_mul, hk1]
    calc (2 : ℚ) ^ (-125 : Int) / 2 = 2 ^ (-125 : Int) * (1 / 2) := by ring
      _ ≤ |(c - p) / s / W| * |(1 + d1) * (1 + d2)| :=
          mul_le_mul h3a hf12.1 (by norm_num) (abs_nonneg _)
  obtain ⟨d3, hd3, e3⟩ := round_binary32_factor ((c - p) / s / W * ((1 + d1) * (1 + d2))) hb2lo
  have hP := three_factors_bound d1 d2 d3 hd1 hd2 hd3
  have hPabs : |(1 + d1) * (1 + d2) * (1 + d3)| ≤ 2 := by
    have h := abs_sub_abs_le_abs_sub ((1 + d1) * (1 + d2) * (1 + d3)) 1
    rw [abs_one] at h
    have hn : (1 : ℚ) / 2 ^ 22 ≤ 1 := by norm_num
    linarith
  have hval : (c - p) / s / W * ((1 + d1) * (1 + d2)) * (1 + d3) =
      (c - p) / s / W * ((1 + d1) * (1 + d2) * (1 + d3)) := by ring
  have ht3 : |round_binary32 ((c - p) / s / W * ((1 + d1) * (1 + d2)))| < 2 ^ 128 := by
    rw [e3, hval, abs_mul]
    calc |(c - p) / s / W| * |(1 + d1) * (1 + d2) * (1 + d3)| ≤ |(c - p) / s / W| * 2 :=
          mul_le_mul_of_nonneg_left hPabs (abs_nonneg _)
      _ < 2 ^ 128 := by linarith
  refine ⟨(c - p) / s / W * ((1 + d1) * (1 + d2) * (1 + d3)), ?_, ?_⟩
  · rw [hsub, hdiv1, f32_of_rat_is_binary32 W hWrep, f32_div_fin _ _ (ne_of_gt hW), hb2,
      f32_of_rat_fin _ ht3, e3, hval]
  · have hfac : (c - p) / s / W * ((1 + d1) * (1 + d2) * (1 + d3)) - (c - p) / s / W =
        (c - p) / s / W * ((1 + d1) * (1 + d2) * (1 + d3) - 1) := by ring
    rw [hfac, abs_mul]
    calc |(c - p) / s / W| * |(1 + d1) * (1 + d2) * (1 + d3) - 1|
        ≤ |(c - p) / s / W| * (1 / 2 ^ 22) := mul_le_mul_of_nonneg_left hP (abs_nonneg _)
      _ = |(c - p) / s / W| / 2 ^ 22 := by ring

/-- Decoding of an extent in binary32: `w / s / W` with two roundings. -/
theorem f32_decode_extent_error (w s W : ℚ) (hs : 0 < s) (hW : 0 < W)
    (hWrep : is_binary32 W) (h2 : Binary32.in_normal_range (w / s))
    (h3 : Binary32.in_normal_range (w / s / W)) :
    ∃ q, F32.div (F32.div (F32.fin w) (F32.fin s)) (F32.of_rat W) = F32.fin q ∧
      |q - w / s / W| ≤ |w / s / W| / 2 ^ 22 := by
  have hk1 : (2 : ℚ) ^ (-126 : Int) = 2 ^ (-125 : Int) / 2 := by norm_num
  have hk0 : (0 : ℚ) ≤ 2 ^ (-125 : Int) := (two_zpow_pos _).le
  have hk2 : (2 : ℚ) ^ 126 * 2 < 2 ^ 128 := by norm_num
  obtain ⟨h2a, h2b⟩ := h2
  obtain ⟨h3a, h3b⟩ := h3
  obtain ⟨d1, hd1, e1⟩ := round_binary32_factor (w / s)
    (le_trans (by norm_num : (2 : ℚ) ^ (-126 : Int) ≤ 2 ^ (-125 : Int)) h2a)
  have hf1 := factor_bounds d1 hd1
  have ht1 : |round_binary32 (w / s)| < 2 ^ 128 := by
    rw [e1, abs_mul]
    calc |w / s| * |1 + d1| ≤ |w / s| * 2 := mul_le_mul_of_nonneg_left hf1.2 (abs_nonneg _)
      _ < 2 ^ 128 := by linarith
  have hdiv1 : F32.div (F32.fin w) (F32.fin s) = F32.fin (w / s * (1 + d1)) := by
    rw [f32_div_fin _ _ (ne_of_gt hs), f32_of_rat_fin _ ht1, e1]
  have hb2 : w / s * (1 + d1) / W = w / s / W * (1 + d1) := by ring
  have hb2lo : (2 : ℚ) ^ (-126 : Int) ≤ |w / s / W * (1 + d1)| := by
    rw [abs_mul, hk1]
    calc (2 : ℚ) ^ (-125 : Int) / 2 = 2 ^ (-125 : Int) * (1 / 2) := by ring
      _ ≤ |w / s / W| * |1 + d1| := mul_le_mul h3a hf1.1 (by norm_num) (abs_nonneg _)
  obtain ⟨d2, hd2, e2⟩ := round_binary32_factor (w / s / W * (1 + d1)) hb2lo
  have hf12 := two_factors_bounds d1 d2 hd1 hd2
  have hP := two_factors_bound d1 d2 hd1 hd2
  have ht2 : |round_binary32 (w / s / W * (1 + d1))| < 2 ^ 128 := by
    rw [e2, mul_assoc, abs_mul]
    calc |w / s / W| * |(1 + d1) * (1 + d2)| ≤ |w / s / W| * 2 :=
          mul_le_mul_of_nonneg_left hf12.2 (abs_nonneg _)
      _ < 2 ^ 128 := by linarith
  refine ⟨w / s / W * ((1 + d1) * (1 + d2)), ?_, ?_⟩
  · rw [hdiv1, f32_of_rat_is_binary32 W hWrep, f32_div_fin _ _ (ne_of_gt hW), hb2,
      f32_of_rat_fin _ ht2, e2, mul_assoc]
  · have hfac : w / s / W * ((1 + d1) * (1 + d2)) - w / s / W =
        w / s / W * ((1 + d1) * (1 + d2) - 1) := by ring
    rw [hfac, abs_mul]
    calc |w / s / W| * |(1 + d1) * (1 + d2) - 1|
        ≤ |w / s / W| * (1 / 2 ^ 22) := mul_le_mul_of_nonneg_left hP (abs_nonneg _)
      _ = |w / s / W| / 2 ^ 22 := by ring

/-! ## The decoder in machine arithmetic -/

theorem int_mul_eq_binary32 (a b : Int) (h1 : -2 ^ 31 ≤ a * b) (h2 : a * b < 2 ^ 31) :
    Binary32.int_mul a b = a * b := by
  unfold Binary32.int_mul wrap_int32
  omega

/-- The detection of a box does not depend on the incoming error state. -/
theorem parse_box_fst_binary32 (output_data : Int → F32) (num_boxes num_classes model_type
    num_keypoints : Int) (conf_threshold scale_x scale_y : F32)
    (pad_left pad_top image_width image_height : Int) (alloc_ok : Bool) (i : Int)
    (err err2 : ErrorState) :
    (Binary32.parse_box output_data num_boxes num_classes model_type num_keypoints
        conf_threshold scale_x scale_y pad_left pad_top image_width image_height alloc_ok i
        err).1 =
      (Binary32.parse_box output_data num_boxes num_classes model_type num_keypoints
        conf_threshold scale_x scale_y pad_left pad_top image_width image_height alloc_ok i
        err2).1 := by
  unfold Binary32.parse_box
  simp only []
  split
  · rfl
  · split
    · split <;> rfl
    · rfl

/-- The box loop collects the detections of the boxes in increasing index order. -/
theorem parse_loop_fst_binary32 (output_data : Int → F32) (num_boxes num_classes model_type
    num_keypoints : Int) (conf_threshold scale_x scale_y : F32)
    (pad_left pad_top image_width image_height : Int) (alloc_keypoints : Int → Bool) :
    ∀ (n s : Nat) (acc : List Binary32.Detection × ErrorState), s + n < 2 ^ 31 →
      (Binary32.parse_loop output_data num_boxes num_classes model_type num_keypoints
          conf_threshold scale_x scale_y pad_left pad_top image_width image_height
          alloc_keypoints n (s : Int) acc).1 =
        acc.1 ++ (List.range' s n).filterMap (fun (j : Nat) =>
          (Binary32.parse_box output_data num_boxes num_classes model_type num_keypoints
            conf_threshold scale_x scale_y pad_left pad_top image_width image_height
            (alloc_keypoints (j : Int)) (j : Int) clear_last_error).1) := by
  intro n
  induction n with
  | zero =>
    intro s acc _
    simp [Binary32.parse_loop]
  | succ n ih =>
    intro s acc hrange
    simp only [Binary32.parse_loop]
    have hcast : Binary32.int_add (s : Int) 1 = ((s + 1 : Nat) : Int) := by
      rw [int_add_eq_binary32 _ _ (by omega) (by omega)]
      push_cast
      rfl
    rw [hcast, ih (s + 1) _ (by omega)]
    rw [parse_box_fst_binary32 output_data num_boxes num_classes model_type num_keypoints
      conf_threshold scale_x scale_y pad_left pad_top image_width image_height
      (alloc_keypoints (s : Int)) (s : Int) acc.2 clear_last_error]
    rw [List.range'_succ, List.filterMap_cons]
    cases (Binary32.parse_box output_data num_boxes num_classes model_type num_keypoints
      conf_threshold scale_x scale_y pad_left pad_top image_width image_height
      (alloc_keypoints (s : Int)) (s : Int) clear_last_error).1 with
    | none => rfl
    | some det => simp

/-- The vector returned by `parse_yolov8_output` in machine arithmetic: the detections of
the boxes `0, 1, …, num_boxes - 1`, in this order, without the rejected boxes. -/
theorem parse_yolov8_output_fst_binary32 (output_data : Int → F32)
    (num_features num_boxes model_type num_keypoints : Int)
    (conf_threshold scale_x scale_y : F32)
    (pad_left pad_top image_width image_height : Int) (alloc_keypoints : Int → Bool)
    (err : ErrorState) (hsize : num_boxes < 2 ^ 31) :
    (Binary32.parse_yolov8_output output_data num_features num_boxes model_type num_keypoints
        conf_threshold scale_x scale_y pad_left pad_top image_width image_height
        alloc_keypoints err).1 =
      (List.range num_boxes.toNat).filterMap (fun (j : Nat) =>
        (Binary32.parse_box output_data num_boxes
          (Binary32.parse_num_classes num_features model_type num_keypoints) model_type
          num_keypoints conf_threshold scale_x scale_y pad_left pad_top image_width
          image_height (alloc_keypoints (j : Int)) (j : Int) clear_last_error).1) := by
  unfold Binary32.parse_yolov8_output
  have h := parse_loop_fst_binary32 output_data num_boxes
    (Binary32.parse_num_classes num_features model_type num_keypoints) model_type
    num_keypoints conf_threshold scale_x scale_y pad_left pad_top image_width image_height
    alloc_keypoints num_boxes.toNat 0 ([], err) (by omega)
  simp only [Nat.cast_zero, List.nil_append] at h
  rw [h, List.range_eq_range']

/-- A box inside the slice whose body yields a detection contributes it to the output. -/
theorem mem_parse_yolov8_output_binary32 (output_data : Int → F32)
    (num_features num_boxes model_type num_keypoints : Int)
    (conf_threshold scale_x scale_y : F32)
    (pad_left pad_top image_width image_height : Int) (alloc_keypoints : Int → Bool)
    (err err2 : ErrorState) (i : Int) (hi0 : 0 ≤ i) (hi : i < num_boxes)
    (hsize : num_boxes < 2 ^ 31) (det : Binary32.Detection)
    (hbox : (Binary32.parse_box output_data num_boxes
      (Binary32.parse_num_classes num_features model_type num_keypoints) model_type
      num_keypoints conf_threshold scale_x scale_y pad_left pad_top image_width image_height
      (alloc_keypoints i) i err2).1 = some det) :
    det ∈ (Binary32.parse_yolov8_output output_data num_features num_boxes model_type
      num_keypoints conf_threshold scale_x scale_y pad_left pad_top image_width image_height
      alloc_keypoints err).1 := by
  rw [parse_yolov8_output_fst_binary32 _ _ _ _ _ _ _ _ _ _ _ _ _ _ hsize, List.mem_filterMap]
  refine ⟨i.toNat, List.mem_range.mpr (by omega), ?_⟩
  have hcast : ((i.toNat : Nat) : Int) = i := Int.toNat_of_nonneg hi0
  rw [hcast, parse_box_fst_binary32 _ _ _ _ _ _ _ _ _ _ _ _ _ _ clear_last_error err2]
  exact hbox

/-- The box fields of the detection that the body of the box loop builds. -/
theorem parse_box_some_binary32 (output_data : Int → F32) (num_boxes num_classes model_type
    num_keypoints : Int) (conf_threshold scale_x scale_y : F32)
    (pad_left pad_top image_width image_height : Int) (alloc_ok : Bool) (i : Int)
    (err : ErrorState) (det : Binary32.Detection)
    (hbox : (Binary32.parse_box output_data num_boxes num_classes model_type num_keypoints
      conf_threshold scale_x scale_y pad_left pad_top image_width image_height alloc_ok i
      err).1 = some det) :
    det.x = F32.div (F32.div (F32.sub
        (output_data (Binary32.int_add (Binary32.int_mul 0 num_boxes) i))
        (F32.of_int pad_left)) scale_x) (F32.of_int image_width) ∧
      det.y = F32.div (F32.div (F32.sub
        (output_data (Binary32.int_add (Binary32.int_mul 1 num_boxes) i))
        (F32.of_int pad_top)) scale_y) (F32.of_int image_height) ∧
      det.width = F32.div (F32.div
        (output_data (Binary32.int_add (Binary32.int_mul 2 num_boxes) i)) scale_x)
        (F32.of_int image_width) ∧
      det.height = F32.div (F32.div
        (output_data (Binary32.int_add (Binary32.int_mul 3 num_boxes) i)) scale_y)
        (F32.of_int image_height) := by
  unfold Binary32.parse_box at hbox
  simp only [] at hbox
  split at hbox
  · exact absurd hbox (by simp)
  · split at hbox
    · split at hbox
      · simp only [Option.some.injEq] at hbox
        subst hbox
        exact ⟨rfl, rfl, rfl, rfl⟩
      · simp only [Option.some.injEq] at hbox
        subst hbox
        exact ⟨rfl, rfl, rfl, rfl⟩
    · simp only [Option.some.injEq] at hbox
      subst hbox
      exact ⟨rfl, rfl, rfl, rfl⟩

theorem f32_decode_coord_zero (c s W : ℚ) (hs : 0 < s) (hW : 0 < W) (hc : is_binary32 c)
    (hWrep : is_binary32 W) :
    F32.div (F32.div (F32.sub (F32.fin c) (F32.of_rat c)) (F32.fin s)) (F32.of_rat W) =
      F32.fin 0 := by
  rw [f32_of_rat_is_binary32 c hc, f32_sub_fin, sub_self, f32_of_rat_zero,
    f32_div_fin _ _ (ne_of_gt hs), zero_div, f32_of_rat_zero, f32_of_rat_is_binary32 W hWrep,
    f32_div_fin _ _ (ne_of_gt hW), zero_div, f32_of_rat_zero]

theorem f32_decode_extent_zero (s W : ℚ) (hs : 0 < s) (hW : 0 < W) (hWrep : is_binary32 W) :
    F32.div (F32.div (F32.fin 0) (F32.fin s)) (F32.of_rat W) = F32.fin 0 := by
  rw [f32_div_fin _ _ (ne_of_gt hs), zero_div, f32_of_rat_zero,
    f32_of_rat_is_binary32 W hWrep, f32_div_fin _ _ (ne_of_gt hW), zero_div, f32_of_rat_zero]

/-- Decoding of the centre coordinate placed at `xn * size * scale + pad`. -/
theorem f32_decode_coord_round_trip (xn scale : ℚ) (pad size : Int) (hs : 0 < scale)
    (hsize : 0 < size) (hp : is_binary32 (pad : ℚ)) (hsz : is_binary32 (size : ℚ))
    (hr : Binary32.coord_in_range xn (size : ℚ) scale) :
    ∃ q, F32.div (F32.div (F32.sub (F32.fin (xn * (size : ℚ) * scale + (pad : ℚ)))
        (F32.of_int pad)) (F32.fin scale)) (F32.of_int size) = F32.fin q ∧
      |q - xn| ≤ |xn| / 2 ^ 22 := by
  have hW : (0 : ℚ) < (size : ℚ) := by exact_mod_cast hsize
  have e1 : xn * (size : ℚ) * scale + (pad : ℚ) - (pad : ℚ) = xn * (size : ℚ) * scale := by ring
  have e2 : xn * (size : ℚ) * scale / scale = xn * (size : ℚ) := by
    field_simp
  have e3 : xn * (size : ℚ) / (size : ℚ) = xn := by
    field_simp
  rcases hr with h0 | ⟨h1, h2, h3⟩
  · subst h0
    refine ⟨0, ?_, by simp⟩
    have hz : (0 : ℚ) * (size : ℚ) * scale + (pad : ℚ) = (pad : ℚ) := by ring
    rw [hz]
    exact f32_decode_coord_zero _ scale _ hs hW hp hsz
  · obtain ⟨q, hq, hb⟩ := f32_decode_coord_error (xn * (size : ℚ) * scale + (pad : ℚ))
      (pad : ℚ) scale (size : ℚ) hs hW hp hsz (by rw [e1]; exact h1)
      (by rw [e1, e2]; exact h2) (by rw [e1, e2, e3]; exact h3)
    rw [e1, e2, e3] at hb
    exact ⟨q, hq, hb⟩

/-- Decoding of the extent `wn * size * scale`. -/
theorem f32_decode_extent_round_trip (wn scale : ℚ) (size : Int) (hs : 0 < scale)
    (hsize : 0 < size) (hsz : is_binary32 (size : ℚ))
    (hr : Binary32.extent_in_range wn (size : ℚ)) :
    ∃ q, F32.div (F32.div (F32.fin (wn * (size : ℚ) * scale)) (F32.fin scale))
        (F32.of_int size) = F32.fin q ∧ |q - wn| ≤ |wn| / 2 ^ 22 := by
  have hW : (0 : ℚ) < (size : ℚ) := by exact_mod_cast hsize
  have e2 : wn * (size : ℚ) * scale / scale = wn * (size : ℚ) := by
    field_simp
  have e3 : wn * (size : ℚ) / (size : ℚ) = wn := by
    field_simp
  rcases hr with h0 | ⟨h2, h3⟩
  · subst h0
    refine ⟨0, ?_, by simp⟩
    have hz : (0 : ℚ) * (size : ℚ) * scale = 0 := by ring
    rw [hz]
    exact f32_decode_extent_zero scale _ hs hW hsz
  · obtain ⟨q, hq, hb⟩ := f32_decode_extent_error (wn * (size : ℚ) * scale) scale (size : ℚ)
      hs hW hsz (by rw [e2]; exact h2) (by rw [e2, e3]; exact h3)
    rw [e2, e3] at hb
    exact ⟨q, hq, hb⟩

/-! ## Decoding in binary32 arithmetic -/

/-- Claim C13, as stated, fails in its floating-point half: the decoded box can differ
from the normalized box by more than `1e-4`.  With scale `2^-20`, `pad_left = 2^20` and
image width 1, the forward image of `xn = 0.5` is `2^20 + 2^-21`, which is stored as the
`float` `2^20`, and `parse_yolov8_output` decodes `x = 0`.  With the transform that
`preprocess_image_to_buffer` computes for a `2 × 20000` image in a `640 × 640` input
(`ratio = 8589935/268435456`, `pad_left = 320`), the forward image of `xn = 0.5` is stored
as `10486809/32768` and decoded to `x = 131125/262144 = 0.5002`, off by `2.02e-4`. -/
theorem decode_round_trip_exceeds_tolerance :
    Binary32.slice_far_pad 0 = F32.fin 1048576 ∧
      (Binary32.parse_yolov8_output Binary32.slice_far_pad 5 1 MODEL_TYPE_YOLO 0
        (F32.fin (1/2)) (F32.fin (1/1048576)) (F32.fin (1/1048576)) 1048576 0 1 1
        (fun _ => true) clear_last_error).1.map (fun d => d.x) = [F32.fin 0] ∧
      (1 / 10000 : ℚ) < 1/2 - 0 ∧
      (Binary32.preprocess_image_to_buffer (some (fun _ => 0)) 2 20000 640 640
        (some (fun _ => F32.fin 0))).transform =
        ⟨F32.fin (8589935/268435456), F32.fin (8589935/268435456), 320, 0⟩ ∧
      Binary32.slice_tall_image 0 = F32.fin (10486809/32768) ∧
      (Binary32.parse_yolov8_output Binary32.slice_tall_image 5 1 MODEL_TYPE_YOLO 0
        (F32.fin (1/2)) (F32.fin (8589935/268435456)) (F32.fin (8589935/268435456)) 320 0 2
        20000 (fun _ => true) clear_last_error).1.map (fun d => d.x) = [F32.fin (131125/262144)] ∧
      (1 / 10000 : ℚ) < (131125/262144) - 1/2 := by
  have hcxa :
      F32.of_rat (1/2 * 1 * (1/1048576) + 1048576) =
        F32.fin 1048576 := f32_of_rat_eval _ _ 8388608 (-3) (by norm_num)
  have hsca :
      F32.of_rat (9/10) =
        F32.fin (7549747/8388608) := f32_of_rat_eval _ _ 15099494 (-24) (by norm_num)
  have ea1 : F32.of_int 1048576 = F32.fin 1048576 := by
    show F32.of_rat ((1048576 : Int) : ℚ) = F32.fin 1048576
    exact f32_of_rat_eval _ _ 8388608 (-3) (by norm_num)
  have ea2 : F32.of_int 1 = F32.fin 1 := by
    show F32.of_rat ((1 : Int) : ℚ) = F32.fin 1
    exact f32_of_rat_eval _ _ 8388608 (-23) (by norm_num)
  have ea3 : F32.of_int 0 = F32.fin 0 := by
    show F32.of_rat ((0 : Int) : ℚ) = F32.fin 0
    rw [Int.cast_zero]
    exact f32_of_rat_zero
  have ea4 : F32.sub (F32.fin 1048576) (F32.fin 1048576) = F32.fin 0 := by
    rw [f32_sub_fin]
    have hz : (1048576 - 1048576 : ℚ) = 0 := by norm_num
    rw [hz]
    exact f32_of_rat_zero
  have ea5 : F32.div (F32.fin 0) (F32.fin (1/1048576)) = F32.fin 0 := by
    rw [f32_div_fin _ _ (by norm_num)]
    have hz : (0 / (1/1048576) : ℚ) = 0 := by norm_num
    rw [hz]
    exact f32_of_rat_zero
  have ea6 : F32.div (F32.fin 0) (F32.fin 1) = F32.fin 0 := by
    rw [f32_div_fin _ _ (by norm_num)]
    have hz : (0 / 1 : ℚ) = 0 := by norm_num
    rw [hz]
    exact f32_of_rat_zero
  have ea7 : F32.sub (F32.fin 0) (F32.fin 0) = F32.fin 0 := by
    rw [f32_sub_fin]
    have hz : (0 - 0 : ℚ) = 0 := by norm_num
    rw [hz]
    exact f32_of_rat_zero
  have ea8 : F32.lt (F32.fin 0) (F32.fin (7549747/8388608)) = true := by
    simp only [F32.lt]
    norm_num
  have ea9 : F32.lt (F32.fin (7549747/8388608)) (F32.fin (1/2)) = false := by
    simp only [F32.lt]
    norm_num
  have hcxb :
      F32.of_rat (1/2 * 2 * (8589935/268435456) + 320) =
        F32.fin (10486809/32768) := f32_of_rat_eval _ _ 10486809 (-15) (by norm_num)
  have hscb :
      F32.of_rat (9/10) =
        F32.fin (7549747/8388608) := f32_of_rat_eval _ _ 15099494 (-24) (by norm_num)
  have eb1 : F32.of_int 320 = F32.fin 320 := by
    show F32.of_rat ((320 : Int) : ℚ) = F32.fin 320
    exact f32_of_rat_eval _ _ 10485760 (-15) (by norm_num)
  have eb2 : F32.of_int 2 = F32.fin 2 := by
    show F32.of_rat ((2 : Int) : ℚ) = F32.fin 2
    exact f32_of_rat_eval _ _ 8388608 (-22) (by norm_num)
  have eb3 : F32.of_int 20000 = F32.fin 20000 := by
    show F32.of_rat ((20000 : Int) : ℚ) = F32.fin 20000
    exact f32_of_rat_eval _ _ 10240000 (-9) (by norm_num)
  have eb4 : F32.of_int 0 = F32.fin 0 := by
    show F32.of_rat ((0 : Int) : ℚ) = F32.fin 0
    rw [Int.cast_zero]
    exact f32_of_rat_zero
  have eb5 : F32.sub (F32.fin (10486809/32768)) (F32.fin 320) = F32.fin (1049/32768) := by
    rw [f32_sub_fin]
    exact f32_of_rat_eval _ _ 8593408 (-28) (by norm_num)
  have eb6 :
      F32.div (F32.fin (1049/32768)) (F32.fin (8589935/268435456)) =
        F32.fin (131125/131072) := by
    rw [f32_div_fin _ _ (by norm_num)]
    exact f32_of_rat_eval _ _ 8392000 (-23) (by norm_num)
  have eb7 : F32.div (F32.fin (131125/131072)) (F32.fin 2) = F32.fin (131125/262144) := by
    rw [f32_div_fin _ _ (by norm_num)]
    exact f32_of_rat_eval _ _ 8392000 (-24) (by norm_num)
  have eb8 : F32.sub (F32.fin 0) (F32.fin 0) = F32.fin 0 := by
    rw [f32_sub_fin]
    have hz : (0 - 0 : ℚ) = 0 := by norm_num
    rw [hz]
    exact f32_of_rat_zero
  have eb9 : F32.div (F32.fin 0) (F32.fin (8589935/268435456)) = F32.fin 0 := by
    rw [f32_div_fin _ _ (by norm_num)]
    have hz : (0 / (8589935/268435456) : ℚ) = 0 := by norm_num
    rw [hz]
    exact f32_of_rat_zero
  have eb10 : F32.div (F32.fin 0) (F32.fin 20000) = F32.fin 0 := by
    rw [f32_div_fin _ _ (by norm_num)]
    have hz : (0 / 20000 : ℚ) = 0 := by norm_num
    rw [hz]
    exact f32_of_rat_zero
  have eb11 : F32.div (F32.fin 0) (F32.fin 2) = F32.fin 0 := by
    rw [f32_div_fin _ _ (by norm_num)]
    have hz : (0 / 2 : ℚ) = 0 := by norm_num
    rw [hz]
    exact f32_of_rat_zero
  have eb12 : F32.lt (F32.fin 0) (F32.fin (7549747/8388608)) = true := by
    simp only [F32.lt]
    norm_num
  have eb13 : F32.lt (F32.fin (7549747/8388608)) (F32.fin (1/2)) = false := by
    simp only [F32.lt]
    norm_num
  have hT : F32.of_int 640 = F32.fin 640 := by
    show F32.of_rat ((640 : Int) : ℚ) = F32.fin 640
    exact f32_of_rat_eval _ _ 10485760 (-14) (by norm_num)
  have hW2 : F32.of_int 2 = F32.fin 2 := by
    show F32.of_rat ((2 : Int) : ℚ) = F32.fin 2
    exact f32_of_rat_eval _ _ 8388608 (-22) (by norm_num)
  have hH2 : F32.of_int 20000 = F32.fin 20000 := by
    show F32.of_rat ((20000 : Int) : ℚ) = F32.fin 20000
    exact f32_of_rat_eval _ _ 10240000 (-9) (by norm_num)
  have hRa : F32.div (F32.fin 640) (F32.fin 2) = F32.fin 320 := by
    rw [f32_div_fin _ _ (by norm_num)]
    exact f32_of_rat_eval _ _ 10485760 (-15) (by norm_num)
  have hRb : F32.div (F32.fin 640) (F32.fin 20000) = F32.fin (8589935/268435456) := by
    rw [f32_div_fin _ _ (by norm_num)]
    exact f32_of_rat_eval _ _ 8589935 (-28) (by norm_num)
  have hRm : F32.min (F32.fin 320) (F32.fin (8589935/268435456)) = F32.fin (8589935/268435456) := by
    simp only [F32.min, F32.lt]
    norm_num
  have hPw : F32.mul (F32.fin 2) (F32.fin (8589935/268435456)) = F32.fin (8589935/134217728) := by
    rw [f32_mul_fin]
    exact f32_of_rat_eval _ _ 8589935 (-27) (by norm_num)
  have hPh : F32.mul (F32.fin 20000) (F32.fin (8589935/268435456)) = F32.fin 640 := by
    rw [f32_mul_fin]
    exact f32_of_rat_eval _ _ 10485760 (-14) (by norm_num)
  have hnc : Binary32.parse_num_classes 5 MODEL_TYPE_YOLO 0 = 1 := by decide
  have hpose : ¬ (MODEL_TYPE_YOLO = MODEL_TYPE_YOLO_POSE ∧ (0 : Int) > 0) := by decide
  have hone : Int.toNat 1 = 1 := rfl
  have i0 : Binary32.int_add (Binary32.int_mul 0 1) 0 = 0 := by decide
  have i1 : Binary32.int_add (Binary32.int_mul 1 1) 0 = 1 := by decide
  have i2 : Binary32.int_add (Binary32.int_mul 2 1) 0 = 2 := by decide
  have i3 : Binary32.int_add (Binary32.int_mul 3 1) 0 = 3 := by decide
  have i4 : Binary32.int_add (Binary32.int_mul (Binary32.int_add 4 0) 1) 0 = 4 := by decide
  have a0 : Binary32.slice_far_pad 0 = F32.of_rat (1/2 * 1 * (1/1048576) + 1048576) :=
    if_pos rfl
  have a1 : Binary32.slice_far_pad 1 = F32.fin 0 :=
    (if_neg (by decide)).trans (if_neg (by decide))
  have a2 : Binary32.slice_far_pad 2 = F32.fin 0 :=
    (if_neg (by decide)).trans (if_neg (by decide))
  have a3 : Binary32.slice_far_pad 3 = F32.fin 0 :=
    (if_neg (by decide)).trans (if_neg (by decide))
  have a4 : Binary32.slice_far_pad 4 = F32.of_rat (9/10) :=
    (if_neg (by decide)).trans (if_pos rfl)
  have b0 : Binary32.slice_tall_image 0 = F32.of_rat (1/2 * 2 * (8589935/268435456) + 320) :=
    if_pos rfl
  have b1 : Binary32.slice_tall_image 1 = F32.fin 0 :=
    (if_neg (by decide)).trans (if_neg (by decide))
  have b2 : Binary32.slice_tall_image 2 = F32.fin 0 :=
    (if_neg (by decide)).trans (if_neg (by decide))
  have b3 : Binary32.slice_tall_image 3 = F32.fin 0 :=
    (if_neg (by decide)).trans (if_neg (by decide))
  have b4 : Binary32.slice_tall_image 4 = F32.of_rat (9/10) :=
    (if_neg (by decide)).trans (if_pos rfl)
  have hboxa : (Binary32.parse_box Binary32.slice_far_pad 1
      (Binary32.parse_num_classes 5 MODEL_TYPE_YOLO 0) MODEL_TYPE_YOLO 0 (F32.fin (1/2))
      (F32.fin (1/1048576)) (F32.fin (1/1048576)) 1048576 0 1 1 true 0
      clear_last_error).1 = some
      { class_id := 0, confidence := F32.fin (7549747/8388608), x := F32.fin 0, y := F32.fin 0,
        width := F32.fin 0, height := F32.fin 0, keypoints := none, num_keypoints := 0 } := by
    simp only [Binary32.parse_box, hnc, hone, Binary32.best_class_loop, i0, i1, i2, i3, i4,
      a0, a1, a2, a3, a4, hcxa, hsca, ea1, ea2, ea3, ea4, ea5, ea6, ea7, ea8, ea9,
      if_true, Bool.false_eq_true, if_false, if_neg hpose]
  have hboxb : (Binary32.parse_box Binary32.slice_tall_image 1
      (Binary32.parse_num_classes 5 MODEL_TYPE_YOLO 0) MODEL_TYPE_YOLO 0 (F32.fin (1/2))
      (F32.fin (8589935/268435456)) (F32.fin (8589935/268435456)) 320 0 2 20000 true 0
      clear_last_error).1 = some
      { class_id := 0, confidence := F32.fin (7549747/8388608), x := F32.fin (131125/262144), y := F32.fin 0,
        width := F32.fin 0, height := F32.fin 0, keypoints := none, num_keypoints := 0 } := by
    simp only [Binary32.parse_box, hnc, hone, Binary32.best_class_loop, i0, i1, i2, i3, i4,
      b0, b1, b2, b3, b4, hcxb, hscb, eb1, eb2, eb3, eb4, eb5, eb6, eb7, eb8, eb9, eb10, eb11, eb12, eb13,
      if_true, Bool.false_eq_true, if_false, if_neg hpose]
  have hratio : Binary32.letterbox_ratio 2 20000 640 640 = F32.fin (8589935/268435456) := by
    simp only [Binary32.letterbox_ratio, hT, hW2, hH2, hRa, hRb, hRm]
  have htow : F32.to_int (F32.fin (8589935/134217728)) = 0 := f32_to_int_eval _ 0 (by norm_num)
  have htoh : F32.to_int (F32.fin 640) = 640 := f32_to_int_eval _ 640 (by norm_num)
  have hnw : Binary32.letterbox_new_width 2 20000 640 640 = 0 := by
    simp only [Binary32.letterbox_new_width, hratio, hW2, hPw, htow]
  have hnh : Binary32.letterbox_new_height 2 20000 640 640 = 640 := by
    simp only [Binary32.letterbox_new_height, hratio, hH2, hPh, htoh]
  have hpl : Int.tdiv (Binary32.int_sub 640 0) 2 = 320 := by decide
  have hpt : Int.tdiv (Binary32.int_sub 640 640) 2 = 0 := by decide
  have hguard : ¬ ((640 : Int) ≤ 0 ∨ (640 : Int) ≤ 0 ∨ (2 : Int) ≤ 1 ∨ (20000 : Int) ≤ 1) := by
    decide
  refine ⟨?_, ?_, by norm_num, ?_, ?_, ?_, by norm_num⟩
  · rw [a0, hcxa]
  · rw [parse_yolov8_output_fst_binary32 _ _ _ _ _ _ _ _ _ _ _ _ _ _ (by decide), hone]
    simp only [List.range_succ, List.range_zero, List.nil_append, List.filterMap_cons,
      List.filterMap_nil, Nat.cast_zero, hboxa, List.map_cons, List.map_nil]
  · simp only [Binary32.preprocess_image_to_buffer, if_neg hguard, hratio, hnw, hnh, hpl, hpt]
  · rw [b0, hcxb]
  · rw [parse_yolov8_output_fst_binary32 _ _ _ _ _ _ _ _ _ _ _ _ _ _ (by decide), hone]
    simp only [List.range_succ, List.range_zero, List.nil_append, List.filterMap_cons,
      List.filterMap_nil, Nat.cast_zero, hboxb, List.map_cons, List.map_nil]

/-- Claim C13, amended.  Over the rationals the decoding is the exact inverse of the
letterbox forward mapping: a box stored at `cx = xn*W*scale + pad_left`,
`cy = yn*H*scale + pad_top`, `w = wn*W*scale`, `h = hn*H*scale` that passes the threshold
is emitted by `parse_yolov8_output` with `x = xn`, `y = yn`, `width = wn`, `height = hn`.
In binary32 arithmetic, when the stored box holds exactly these values, the pads and the
image size are binary32 numbers and the values met while decoding are zero or in the
normal range, the detection that `parse_yolov8_output` emits for the box has finite
`x, y, width, height` within relative error `2 ^ -22` of `xn, yn, wn, hn`. -/
theorem decode_inverts_letterbox_rounded (output_data : Int → ℚ)
    (num_features num_boxes model_type num_keypoints : Int) (conf_threshold scale : ℚ)
    (pad_left pad_top image_width image_height : Int) (alloc_keypoints : Int → Bool)
    (err : ErrorState) (i : Int) (xn yn wn hn : ℚ) (det : Detection)
    (det32 : Binary32.Detection)
    (hscale : 0 < scale) (hW : 0 < image_width) (hH : 0 < image_height)
    (hi0 : 0 ≤ i) (hi : i < num_boxes) (hsize : 4 * num_boxes < 2 ^ 31)
    (hcx : output_data (0 * num_boxes + i) = xn * (image_width : ℚ) * scale + (pad_left : ℚ))
    (hcy : output_data (1 * num_boxes + i) = yn * (image_height : ℚ) * scale + (pad_top : ℚ))
    (hw : output_data (2 * num_boxes + i) = wn * (image_width : ℚ) * scale)
    (hh : output_data (3 * num_boxes + i) = hn * (image_height : ℚ) * scale)
    (hbox : (parse_box output_data num_boxes
      (parse_num_classes num_features model_type num_keypoints) model_type num_keypoints
      conf_threshold scale scale pad_left pad_top image_width image_height
      (alloc_keypoints i) i err).1 = some det)
    (hbox32 : (Binary32.parse_box (fun k => F32.fin (output_data k)) num_boxes
      (Binary32.parse_num_classes num_features model_type num_keypoints) model_type
      num_keypoints (F32.fin conf_threshold) (F32.fin scale) (F32.fin scale) pad_left pad_top
      image_width image_height (alloc_keypoints i) i err).1 = some det32)
    (hpl : is_binary32 (pad_left : ℚ)) (hpt : is_binary32 (pad_top : ℚ))
    (hWr : is_binary32 (image_width : ℚ)) (hHr : is_binary32 (image_height : ℚ))
    (hrx : Binary32.coord_in_range xn (image_width : ℚ) scale)
    (hry : Binary32.coord_in_range yn (image_height : ℚ) scale)
    (hrw : Binary32.extent_in_range wn (image_width : ℚ))
    (hrh : Binary32.extent_in_range hn (image_height : ℚ)) :
    (det ∈ (parse_yolov8_output output_data num_features num_boxes model_type num_keypoints
        conf_threshold scale scale pad_left pad_top image_width image_height
        alloc_keypoints err).1 ∧
      det.x = xn ∧ det.y = yn ∧ det.width = wn ∧ det.height = hn) ∧
    (det32 ∈ (Binary32.parse_yolov8_output (fun k => F32.fin (output_data k)) num_features
        num_boxes model_type num_keypoints (F32.fin conf_threshold) (F32.fin scale)
        (F32.fin scale) pad_left pad_top image_width image_height alloc_keypoints err).1 ∧
      ∃ qx qy qw qh : ℚ, det32.x = F32.fin qx ∧ det32.y = F32.fin qy ∧
        det32.width = F32.fin qw ∧ det32.height = F32.fin qh ∧
        |qx - xn| ≤ |xn| / 2 ^ 22 ∧ |qy - yn| ≤ |yn| / 2 ^ 22 ∧
        |qw - wn| ≤ |wn| / 2 ^ 22 ∧ |qh - hn| ≤ |hn| / 2 ^ 22) := by
  have hexact := decode_inverts_letterbox output_data num_features num_boxes model_type
    num_keypoints conf_threshold scale pad_left pad_top image_width image_height
    alloc_keypoints err i xn yn wn hn det hscale hW hH hi0 hi hcx hcy hw hh hbox
  have hB : num_boxes < 2 ^ 31 := by omega
  have hmem := mem_parse_yolov8_output_binary32 (fun k => F32.fin (output_data k))
    num_features num_boxes model_type num_keypoints (F32.fin conf_threshold) (F32.fin scale)
    (F32.fin scale) pad_left pad_top image_width image_height alloc_keypoints err err i hi0
    hi hB det32 hbox32
  obtain ⟨hx, hy, hwd, hht⟩ := parse_box_some_binary32 _ _ _ _ _ _ _ _ _ _ _ _ _ _ _ det32
    hbox32
  have j0 : Binary32.int_add (Binary32.int_mul 0 num_boxes) i = 0 * num_boxes + i := by
    rw [int_mul_eq_binary32 _ _ (by omega) (by omega), int_add_eq_binary32 _ _ (by omega)
      (by omega)]
  have j1 : Binary32.int_add (Binary32.int_mul 1 num_boxes) i = 1 * num_boxes + i := by
    rw [int_mul_eq_binary32 _ _ (by omega) (by omega), int_add_eq_binary32 _ _ (by omega)
      (by omega)]
  have j2 : Binary32.int_add (Binary32.int_mul 2 num_boxes) i = 2 * num_boxes + i := by
    rw [int_mul_eq_binary32 _ _ (by omega) (by omega), int_add_eq_binary32 _ _ (by omega)
      (by omega)]
  have j3 : Binary32.int_add (Binary32.int_mul 3 num_boxes) i = 3 * num_boxes + i := by
    rw [int_mul_eq_binary32 _ _ (by omega) (by omega), int_add_eq_binary32 _ _ (by omega)
      (by omega)]
  rw [j0] at hx
  rw [j1] at hy
  rw [j2] at hwd
  rw [j3] at hht
  simp only [hcx] at hx
  simp only [hcy] at hy
  simp only [hw] at hwd
  simp only [hh] at hht
  obtain ⟨qx, hqx, hbx⟩ := f32_decode_coord_round_trip xn scale pad_left image_width hscale hW
    hpl hWr hrx
  obtain ⟨qy, hqy, hby⟩ := f32_decode_coord_round_trip yn scale pad_top image_height hscale hH
    hpt hHr hry
  obtain ⟨qw, hqw, hbw⟩ := f32_decode_extent_round_trip wn scale image_width hscale hW hWr hrw
  obtain ⟨qh, hqh, hbh⟩ := f32_decode_extent_round_trip hn scale image_height hscale hH hHr
    hrh
  exact ⟨hexact, hmem, qx, qy, qw, qh, hx.trans hqx, hy.trans hqy, hwd.trans hqw,
    hht.trans hqh, hbx, hby, hbw, hbh⟩

theorem in_normal_range_of_pos (q : ℚ) (h1 : (2 : ℚ) ^ (-125 : Int) ≤ q) (h2 : q < 2 ^ 126) :
    Binary32.in_normal_range q := by
  have hpos : 0 < q := lt_of_lt_of_le (two_zpow_pos _) h1
  unfold Binary32.in_normal_range
  rw [abs_of_pos hpos]
  exact ⟨h1, h2⟩

/-- The machine decoder on `slice_one_box` with scale 2, pads `(0, 2)` and a `4 × 2` image. -/
theorem parse_box_slice_one_box_binary32 (err : ErrorState) :
    (Binary32.parse_box (fun k => F32.fin (slice_one_box k)) 1
      (Binary32.parse_num_classes 5 MODEL_TYPE_YOLO 0) MODEL_TYPE_YOLO 0 (F32.fin (1/2))
      (F32.fin 2) (F32.fin 2) 0 2 4 2 true 0 err).1 = some Binary32.det_one_box := by
  have e1 : F32.of_int 0 = F32.fin 0 := by
    show F32.of_rat ((0 : Int) : ℚ) = F32.fin 0
    rw [Int.cast_zero]
    exact f32_of_rat_zero
  have e2 : F32.of_int 2 = F32.fin 2 := by
    show F32.of_rat ((2 : Int) : ℚ) = F32.fin 2
    exact f32_of_rat_eval _ _ 8388608 (-22) (by norm_num)
  have e3 : F32.of_int 4 = F32.fin 4 := by
    show F32.of_rat ((4 : Int) : ℚ) = F32.fin 4
    exact f32_of_rat_eval _ _ 8388608 (-21) (by norm_num)
  have e4 : F32.sub (F32.fin 4) (F32.fin 0) = F32.fin 4 := by
    rw [f32_sub_fin]
    exact f32_of_rat_eval _ _ 8388608 (-21) (by norm_num)
  have e5 : F32.div (F32.fin 4) (F32.fin 2) = F32.fin 2 := by
    rw [f32_div_fin _ _ (by norm_num)]
    exact f32_of_rat_eval _ _ 8388608 (-22) (by norm_num)
  have e6 : F32.div (F32.fin 2) (F32.fin 4) = F32.fin (1/2) := by
    rw [f32_div_fin _ _ (by norm_num)]
    exact f32_of_rat_eval _ _ 8388608 (-24) (by norm_num)
  have e7 : F32.sub (F32.fin 4) (F32.fin 2) = F32.fin 2 := by
    rw [f32_sub_fin]
    exact f32_of_rat_eval _ _ 8388608 (-22) (by norm_num)
  have e8 : F32.div (F32.fin 2) (F32.fin 2) = F32.fin 1 := by
    rw [f32_div_fin _ _ (by norm_num)]
    exact f32_of_rat_eval _ _ 8388608 (-23) (by norm_num)
  have e9 : F32.div (F32.fin 1) (F32.fin 2) = F32.fin (1/2) := by
    rw [f32_div_fin _ _ (by norm_num)]
    exact f32_of_rat_eval _ _ 8388608 (-24) (by norm_num)
  have e10 : F32.div (F32.fin 1) (F32.fin 4) = F32.fin (1/4) := by
    rw [f32_div_fin _ _ (by norm_num)]
    exact f32_of_rat_eval _ _ 8388608 (-25) (by norm_num)
  have e11 : F32.lt (F32.fin 0) (F32.fin (9/10)) = true := by
    simp only [F32.lt]
    norm_num
  have e12 : F32.lt (F32.fin (9/10)) (F32.fin (1/2)) = false := by
    simp only [F32.lt]
    norm_num
  have hnc : Binary32.parse_num_classes 5 MODEL_TYPE_YOLO 0 = 1 := by decide
  have hpose : ¬ (MODEL_TYPE_YOLO = MODEL_TYPE_YOLO_POSE ∧ (0 : Int) > 0) := by decide
  have hone : Int.toNat 1 = 1 := rfl
  have i0 : Binary32.int_add (Binary32.int_mul 0 1) 0 = 0 := by decide
  have i1 : Binary32.int_add (Binary32.int_mul 1 1) 0 = 1 := by decide
  have i2 : Binary32.int_add (Binary32.int_mul 2 1) 0 = 2 := by decide
  have i3 : Binary32.int_add (Binary32.int_mul 3 1) 0 = 3 := by decide
  have i4 : Binary32.int_add (Binary32.int_mul (Binary32.int_add 4 0) 1) 0 = 4 := by decide
  have c0 : slice_one_box 0 = 4 := by norm_num [slice_one_box]
  have c1 : slice_one_box 1 = 4 := by norm_num [slice_one_box]
  have c2 : slice_one_box 2 = 2 := by norm_num [slice_one_box]
  have c3 : slice_one_box 3 = 2 := by norm_num [slice_one_box]
  have c4 : slice_one_box 4 = 9/10 := by norm_num [slice_one_box]
  simp only [Binary32.parse_box, hnc, hone, Binary32.best_class_loop, i0, i1, i2, i3, i4,
    c0, c1, c2, c3, c4, e1, e2, e3, e4, e5, e6, e7, e8, e9, e10, e11, e12,
    if_true, Bool.false_eq_true, if_false, if_neg hpose, Binary32.det_one_box]

/-- Witness of `decode_inverts_letterbox_rounded`: the box `(4, 4, 2, 2)` of
`slice_one_box` under scale 2, pads `(0, 2)` and a `4 × 2` image is the forward image of
`(1/2, 1/2, 1/4, 1/2)`; both decoders return it. -/
theorem decode_inverts_letterbox_rounded_witness :
    slice_one_box (0 * 1 + 0) = (1/2 : ℚ) * ((4 : Int) : ℚ) * 2 + ((0 : Int) : ℚ) ∧
      Binary32.coord_in_range (1/2) ((4 : Int) : ℚ) 2 ∧
      Binary32.extent_in_range (1/4) ((4 : Int) : ℚ) ∧
      is_binary32 ((2 : Int) : ℚ) ∧
      (det_one_box ∈ (parse_yolov8_output slice_one_box 5 1 MODEL_TYPE_YOLO 0 (1/2) 2 2 0 2
          4 2 (fun _ => true) clear_last_error).1 ∧
        det_one_box.x = 1/2 ∧ det_one_box.y = 1/2 ∧ det_one_box.width = 1/4 ∧
        det_one_box.height = 1/2) ∧
      (Binary32.det_one_box ∈ (Binary32.parse_yolov8_output
          (fun k => F32.fin (slice_one_box k)) 5 1 MODEL_TYPE_YOLO 0 (F32.fin (1/2))
          (F32.fin 2) (F32.fin 2) 0 2 4 2 (fun _ => true) clear_last_error).1 ∧
        ∃ qx qy qw qh : ℚ, Binary32.det_one_box.x = F32.fin qx ∧
          Binary32.det_one_box.y = F32.fin qy ∧ Binary32.det_one_box.width = F32.fin qw ∧
          Binary32.det_one_box.height = F32.fin qh ∧
          |qx - 1/2| ≤ |(1/2 : ℚ)| / 2 ^ 22 ∧ |qy - 1/2| ≤ |(1/2 : ℚ)| / 2 ^ 22 ∧
          |qw - 1/4| ≤ |(1/4 : ℚ)| / 2 ^ 22 ∧ |qh - 1/2| ≤ |(1/2 : ℚ)| / 2 ^ 22) :=
  have hcx : slice_one_box (0 * 1 + 0) = (1/2 : ℚ) * ((4 : Int) : ℚ) * 2 + ((0 : Int) : ℚ) := by
    norm_num [slice_one_box]
  have hrx : Binary32.coord_in_range (1/2) ((4 : Int) : ℚ) 2 :=
    Or.inr ⟨in_normal_range_of_pos _ (by norm_num) (by norm_num),
      in_normal_range_of_pos _ (by norm_num) (by norm_num),
      in_normal_range_of_pos _ (by norm_num) (by norm_num)⟩
  have hry : Binary32.coord_in_range (1/2) ((2 : Int) : ℚ) 2 :=
    Or.inr ⟨in_normal_range_of_pos _ (by norm_num) (by norm_num),
      in_normal_range_of_pos _ (by norm_num) (by norm_num),
      in_normal_range_of_pos _ (by norm_num) (by norm_num)⟩
  have hrw : Binary32.extent_in_range (1/4) ((4 : Int) : ℚ) :=
    Or.inr ⟨in_normal_range_of_pos _ (by norm_num) (by norm_num),
      in_normal_range_of_pos _ (by norm_num) (by norm_num)⟩
  have hrh : Binary32.extent_in_range (1/2) ((2 : Int) : ℚ) :=
    Or.inr ⟨in_normal_range_of_pos _ (by norm_num) (by norm_num),
      in_normal_range_of_pos _ (by norm_num) (by norm_num)⟩
  have hb0 : is_binary32 ((0 : Int) : ℚ) := is_binary32_eval _ 0 0 (by norm_num)
  have hb2 : is_binary32 ((2 : Int) : ℚ) := is_binary32_eval _ 1 1 (by norm_num)
  have hb4 : is_binary32 ((4 : Int) : ℚ) := is_binary32_eval _ 1 2 (by norm_num)
  have h := decode_inverts_letterbox_rounded slice_one_box 5 1 MODEL_TYPE_YOLO 0 (1/2) 2 0 2
    4 2 (fun _ => true) clear_last_error 0 (1/2) (1/2) (1/4) (1/2) det_one_box
    Binary32.det_one_box (by norm_num) (by decide) (by decide) (le_refl _) (by decide)
    (by decide) hcx (by norm_num [slice_one_box]) (by norm_num [slice_one_box])
    (by norm_num [slice_one_box]) (parse_box_slice_one_box clear_last_error)
    (parse_box_slice_one_box_binary32 clear_last_error) hb0 hb2 hb4 hb2 hrx hry hrw hrh
  ⟨hcx, hrx, hrw, hb2, h.1, h.2⟩

end OnnxInference
